import Mathlib

/-!
# GTP-U endpoint of the eNodeB (`srsenb/src/stack/upper/gtpu.cc`)

A shallow embedding of the tunnel registry of `srsenb::gtpu`, of the
control-plane operations that mutate it and of the S1-U data path, followed
by the properties proved about them.

Conventions of the embedding.

* Arguments are natural numbers; a caller passes values of the C++ parameter
  types (`uint16_t` for an RNTI, `uint32_t` for TEIDs, addresses and LCIDs).
  Where the code narrows or wraps a value the embedding reduces it modulo the
  width.

* `std::unordered_map` / `std::map` objects are association lists read through
  `Map.find`; the code never iterates over either map, so only look-ups are
  observable.
* `std::array<std::vector<uint32_t>, SRSENB_N_RADIO_BEARERS>` is a function
  from the bearer index to the list of TEIDs; every access checks the index
  against the array size, which is a parameter (`nb`) because the constant is
  defined in a header that is not part of the sources.
* Effects on the outside world (`sendto` on the S1-U socket, `write_sdu` on
  PDCP) are appended to the `log` field in program order.
* A call ends in one of four ways, see `Res`.
-/

namespace srsenb

/-! ## Finite maps -/

/-- Association list standing for a C++ map with integer keys. -/
abbrev Map (β : Type) := List (Nat × β)

/-- Look-up for `m.find(k)`: the value stored under `k`, if any. -/
def Map.find {β : Type} : Map β → Nat → Option β
  | [], _ => none
  | (k', v) :: m, k => if k' = k then some v else Map.find m k

/-- Removal for `m.erase(k)`. -/
def Map.erase {β : Type} (m : Map β) (k : Nat) : Map β :=
  m.filter (fun p => decide (p.1 ≠ k))

/-- Store `v` under `k`, replacing what was there (`m[k] = v`). -/
def Map.set {β : Type} (m : Map β) (k : Nat) (v : β) : Map β :=
  (k, v) :: Map.erase m k

/-- Keys that have an entry. -/
def Map.keys {β : Type} (m : Map β) : List Nat :=
  m.map Prod.fst

/-- Assignment to one slot of a bearer array. -/
def upd (arr : Nat → List Nat) (i : Nat) (v : List Nat) : Nat → List Nat :=
  fun j => if j = i then v else arr j

/-! ## Data model -/

/-- Bytes of a `byte_buffer_t`, `msg[0 .. N_bytes)`. -/
abbrev Packet := List Nat

/-- Modelled from the spec: the record `gtpu::tunnel` is declared in the class
header, which is not part of the sources.  The fields are the ones the code
reads and writes; a default-constructed record (as produced by
`tunnels[teid]` on a missing key) has neither flag set and an empty buffer,
following the data model of the spec where `forward_to` and `flush_after` are
optional and `pending` is a FIFO. -/
structure tunnel where
  fwd_teid_in_present : Bool := false
  prior_teid_in_present : Bool := false
  rnti : Nat := 0
  lcid : Nat := 0
  teid_in : Nat := 0
  teid_out : Nat := 0
  spgw_addr : Nat := 0
  fwd_teid_in : Nat := 0
  prior_teid_in : Nat := 0
  buffer : List Packet := []
deriving DecidableEq

/-- Argument `const bearer_props*` of `add_bearer` (a null pointer is `none`). -/
structure bearer_props where
  forward_from_teidin_present : Bool := false
  flush_before_teidin_present : Bool := false
  forward_from_teidin : Nat := 0
  flush_before_teidin : Nat := 0
deriving DecidableEq

/-- Header record `srslte::gtpu_header_t` handed to the library header writer. -/
structure gtpu_header_t where
  flags : Nat := 0
  message_type : Nat := 0
  length : Nat := 0
  teid : Nat := 0
  seq_number : Nat := 0
  n_pdu : Nat := 0
  next_ext_hdr_type : Nat := 0
  ext_buffer : List Nat := []
deriving DecidableEq

/-- Destination of a `sendto`.  `host_order a p` is the address built with
`htonl(a)` and `htons(p)`; `net_order a p` copies the two fields of a received
`sockaddr_in` unchanged. -/
inductive sockaddr_in where
  | host_order (addr port : Nat)
  | net_order (s_addr sin_port : Nat)
deriving DecidableEq

/-- Effects on the collaborators.  `sendto dst h payload n` is a datagram made
of the header written from `h` in front of `payload`; `n` is the length
argument when it is a literal (`some 12`) and `none` when it is the whole
PDU.  `write_sdu` is the call into PDCP. -/
inductive Event where
  | sendto (dst : sockaddr_in) (header : gtpu_header_t) (payload : Packet) (n : Option Nat)
  | write_sdu (rnti lcid : Nat) (sdu : Packet) (pdcp_sn : Int)
deriving DecidableEq

/-- Member variables of `srsenb::gtpu` that the operations use, and the log of
effects. -/
structure gtpu where
  tunnels : Map tunnel := []
  ue_teidin_db : Map (Nat → List Nat) := []
  next_teid_in : Nat := 0
  tx_seq : Nat := 0
  log : List Event := []

/-- Library and PDCP functions whose code is outside the sources, taken as
parameters: whether `gtpu_write_header` succeeds on a header and PDU, the
result of `gtpu_read_header`, and the map returned by
`pdcp->get_buffered_pdus(rnti, lcid)` listed in iteration (ascending key)
order. -/
structure Env where
  gtpu_write_header : gtpu_header_t → Packet → Bool
  gtpu_read_header : Packet → Option (gtpu_header_t × Packet)
  get_buffered_pdus : Nat → Nat → List (Nat × Packet)

/-- How a call ends: it returns `v` in state `s`; an exception
(`std::out_of_range` from `at`) leaves it in state `s`; its behaviour is
undefined (an end iterator is dereferenced, an array is indexed out of
range); or a loop never exits. -/
inductive Res (α : Type) where
  | ok (s : gtpu) (v : α)
  | thrown (s : gtpu)
  | ub
  | loops

/-- Sequencing of two calls. -/
def Res.bind {α β : Type} (r : Res α) (f : gtpu → α → Res β) : Res β :=
  match r with
  | .ok s v => f s v
  | .thrown s => .thrown s
  | .ub => .ub
  | .loops => .loops

/-- State in which a call leaves the object, when there is one. -/
def Res.state? {α : Type} : Res α → Option gtpu
  | .ok s _ => some s
  | .thrown s => some s
  | .ub => none
  | .loops => none

/-- Value returned by a call, when it returns. -/
def Res.val? {α : Type} : Res α → Option α
  | .ok _ v => some v
  | _ => none

/-! ## Constants -/

/-- Modelled from the spec: the S1-U port (section 6, "S1-U on 2152"). -/
def GTPU_PORT : Nat := 2152

/-- Modelled from the spec: flag bits of byte 0 (section 6). -/
def GTPU_FLAGS_VERSION_V1 : Nat := 0x20

/-- Modelled from the spec: protocol-type bit, GTP (section 6). -/
def GTPU_FLAGS_GTP_PROTOCOL : Nat := 0x10

/-- Modelled from the spec: extension-header bit E (section 6). -/
def GTPU_FLAGS_EXTENDED_HDR : Nat := 0x04

/-- Modelled from the spec: sequence-number bit S (section 6). -/
def GTPU_FLAGS_SEQUENCE : Nat := 0x02

/-- Modelled from the spec: message type G-PDU. -/
def GTPU_MSG_DATA_PDU : Nat := 0xFF

/-- Modelled from the spec: message type End Marker. -/
def GTPU_MSG_END_MARKER : Nat := 0xFE

/-- Modelled from the spec: extension type PDCP PDU Number. -/
def GTPU_EXT_HEADER_PDCP_PDU_NUMBER : Nat := 0xC0

/-- Return code of the srslte library for success. -/
def SRSLTE_SUCCESS : Int := 0

/-- Return code of the srslte library for failure. -/
def SRSLTE_ERROR : Int := -1

/-- Conversion of a `uint32_t` to `int` (two's complement). -/
def to_int (n : Nat) : Int :=
  if n % 2 ^ 32 < 2 ^ 31 then ((n % 2 ^ 32 : Nat) : Int) else ((n % 2 ^ 32 : Nat) : Int) - 2 ^ 32

/-- Field `version` of the `struct iphdr` laid over the PDU: the high nibble
of its first byte (0 stands for the content of a buffer without bytes). -/
def ip_version (pdu : Packet) : Nat :=
  pdu.headD 0 / 16

/-- State of a freshly constructed object. -/
def gtpu_initial : gtpu := {}

/-! ## Operations -/

/-- Embedding of `gtpu::send_pdu_to_tunnel` (lines 99-151). -/
def send_pdu_to_tunnel (env : Env) (s : gtpu) (_rnti _lcid : Nat) (pdu : Packet)
    (teidout spgw_addr : Nat) (pdcp_sn : Int) : gtpu :=
  if ip_version pdu ≠ 4 ∧ ip_version pdu ≠ 6 then s
  else
    let header : gtpu_header_t :=
      { flags := GTPU_FLAGS_VERSION_V1 ||| GTPU_FLAGS_GTP_PROTOCOL
        message_type := GTPU_MSG_DATA_PDU
        length := pdu.length % 2 ^ 16
        teid := teidout }
    let header : gtpu_header_t :=
      if pdcp_sn ≥ 0 then
        { header with
          flags := header.flags ||| GTPU_FLAGS_EXTENDED_HDR
          next_ext_hdr_type := GTPU_EXT_HEADER_PDCP_PDU_NUMBER
          ext_buffer := [0x01, (pdcp_sn.toNat >>> 8) &&& 0xff, pdcp_sn.toNat &&& 0xff, 0] }
      else header
    if env.gtpu_write_header header pdu then
      { s with log := s.log ++ [Event.sendto (.host_order spgw_addr GTPU_PORT) header pdu none] }
    else s

/-- Embedding of `gtpu::end_marker` (lines 468-490).  The record is read
through `tunnels.find(teidin)->second` without a test against `end()`. -/
def end_marker (s : gtpu) (teidin : Nat) : Res Unit :=
  match Map.find s.tunnels teidin with
  | none => .ub
  | some tun =>
    let header : gtpu_header_t :=
      { flags := GTPU_FLAGS_VERSION_V1 ||| GTPU_FLAGS_GTP_PROTOCOL
        message_type := GTPU_MSG_END_MARKER
        teid := tun.teid_out
        length := 0 }
    .ok { s with log := s.log ++ [Event.sendto (.host_order tun.spgw_addr GTPU_PORT) header [] (some 12)] } ()

/-- Embedding of `gtpu::rem_tunnel` (lines 240-257). -/
def rem_tunnel (nb : Nat) (s : gtpu) (teidin : Nat) : Res Unit :=
  match Map.find s.tunnels teidin with
  | none => .ok s ()
  | some tun =>
    (if tun.fwd_teid_in_present then
      (end_marker s tun.fwd_teid_in).bind fun s1 _ =>
        .ok { s1 with tunnels := Map.set s1.tunnels teidin { tun with fwd_teid_in_present := false } } ()
     else .ok s ()).bind fun s2 _ =>
    match Map.find s2.ue_teidin_db tun.rnti with
    | none => .ub
    | some arr =>
      if tun.lcid < nb then
        .ok { s2 with
              ue_teidin_db :=
                Map.set s2.ue_teidin_db tun.rnti
                  (upd arr tun.lcid ((arr tun.lcid).filter (fun t => decide (t ≠ teidin))))
              tunnels := Map.erase s2.tunnels teidin } ()
      else .ub

/-- The loop `while (not list.empty()) rem_tunnel(list.back())` on the bearer
list of `(rnti, lcid)`, used by `rem_bearer` and `rem_user`.  An iteration that
returns either removes every occurrence of the last element from the list or
leaves the list as it is, and in the second case the element is no longer a
key of `tunnels`, so that every later iteration is the same no-op.  The loop
therefore exits within as many iterations as the list is long, or never;
`fuel` counts them. -/
def rem_loop (nb : Nat) : Nat → gtpu → Nat → Nat → Res Unit
  | fuel, s, rnti, lcid =>
    match Map.find s.ue_teidin_db rnti with
    | none => .ub
    | some arr =>
      match (arr lcid).getLast? with
      | none => .ok s ()
      | some t =>
        match fuel with
        | 0 => .loops
        | fuel + 1 => (rem_tunnel nb s t).bind fun s1 _ => rem_loop nb fuel s1 rnti lcid

/-- The list `ue_teidin_db[rnti][lcid]` read without creating the user entry
(empty when the user has none). -/
def bearer_list (s : gtpu) (rnti lcid : Nat) : List Nat :=
  match Map.find s.ue_teidin_db rnti with
  | none => []
  | some arr => arr lcid

/-- Number of iterations granted to `rem_loop`: the length of the list. -/
def bearer_len (s : gtpu) (rnti lcid : Nat) : Nat :=
  (bearer_list s rnti lcid).length

/-- Embedding of `gtpu::rem_bearer` (lines 192-211). -/
def rem_bearer (nb : Nat) (s : gtpu) (rnti lcid : Nat) : Res Unit :=
  match Map.find s.ue_teidin_db rnti with
  | none => .ok s ()
  | some _ =>
    if lcid < nb then
      (rem_loop nb (bearer_len s rnti lcid) s rnti lcid).bind fun s1 _ =>
        match Map.find s1.ue_teidin_db rnti with
        | none => .ub
        | some arr1 =>
          if (List.range nb).all (fun l => (arr1 l).isEmpty) then
            .ok { s1 with ue_teidin_db := Map.erase s1.ue_teidin_db rnti } ()
          else .ok s1 ()
    else .ub

/-- The loop `for (auto& bearer : ue_it->second)` of `rem_user` over the
array indices still to visit. -/
def rem_user_loop (nb : Nat) : List Nat → gtpu → Nat → Res Unit
  | [], s, _ => .ok s ()
  | l :: ls, s, rnti =>
    (rem_loop nb (bearer_len s rnti l) s rnti l).bind fun s1 _ => rem_user_loop nb ls s1 rnti

/-- Embedding of `gtpu::rem_user` (lines 259-270). -/
def rem_user (nb : Nat) (s : gtpu) (rnti : Nat) : Res Unit :=
  match Map.find s.ue_teidin_db rnti with
  | none => .ok s ()
  | some _ => rem_user_loop nb (List.range nb) s rnti

/-- The statement `tunnels[teid].rnti = new_rnti` of `mod_bearer_rnti`. -/
def set_rnti (new_rnti : Nat) (m : Map tunnel) (teid : Nat) : Map tunnel :=
  Map.set m teid { (Map.find m teid).getD {} with rnti := new_rnti }

/-- Embedding of `gtpu::mod_bearer_rnti` (lines 213-238). -/
def mod_bearer_rnti (nb : Nat) (s : gtpu) (old_rnti new_rnti : Nat) : Res Unit :=
  if (Map.find s.ue_teidin_db new_rnti).isSome then .ok s ()
  else
    match Map.find s.ue_teidin_db old_rnti with
    | none => .ok s ()
    | some arr =>
      .ok { s with
            ue_teidin_db := Map.erase (Map.set s.ue_teidin_db new_rnti arr) old_rnti
            tunnels := ((List.range nb).flatMap arr).foldl (set_rnti new_rnti) s.tunnels } ()

/-- Embedding of `gtpu::create_dl_fwd_tunnel` (lines 376-404). -/
def create_dl_fwd_tunnel (env : Env) (s : gtpu) (rx_teid_in tx_teid_in : Nat) : Res Int :=
  match Map.find s.tunnels rx_teid_in, Map.find s.tunnels tx_teid_in with
  | some rx_tun, some tx_tun =>
    let s1 : gtpu :=
      { s with
        tunnels := Map.set s.tunnels rx_teid_in
          { rx_tun with fwd_teid_in_present := true, fwd_teid_in := tx_teid_in } }
    .ok ((env.get_buffered_pdus rx_tun.rnti rx_tun.lcid).foldl
          (fun st p =>
            send_pdu_to_tunnel env st rx_tun.rnti rx_tun.lcid p.2 tx_tun.teid_out tx_tun.spgw_addr
              (to_int p.1))
          s1) SRSLTE_SUCCESS
  | _, _ => .ok s SRSLTE_ERROR

/-- First block of `add_bearer` (lines 155-164): pre-increment of the 32-bit
counter, `tunnels[teid_in]` with its five assignments, and the `push_back` on
`ue_teidin_db[rnti][lcid]` (the caller checks `lcid` against the array size). -/
def add_bearer_alloc (s : gtpu) (rnti lcid addr teid_out : Nat) : gtpu :=
  let teid_in := (s.next_teid_in + 1) % 2 ^ 32
  let new_tun : tunnel :=
    { (Map.find s.tunnels teid_in).getD {} with
      teid_in := teid_in, rnti := rnti, lcid := lcid, spgw_addr := addr, teid_out := teid_out }
  let arr := (Map.find s.ue_teidin_db rnti).getD (fun _ => [])
  { s with
    next_teid_in := teid_in
    tunnels := Map.set s.tunnels teid_in new_tun
    ue_teidin_db := Map.set s.ue_teidin_db rnti (upd arr lcid (arr lcid ++ [teid_in])) }

/-- Block `if (props->flush_before_teidin_present)` of `add_bearer`
(lines 167-171); `tunnels.at` throws on a missing key. -/
def add_bearer_flush (s : gtpu) (p : bearer_props) (teid_in : Nat) : Res Unit :=
  if p.flush_before_teidin_present then
    match Map.find s.tunnels p.flush_before_teidin with
    | none => .thrown s
    | some after_tun =>
      .ok { s with
            tunnels := Map.set s.tunnels p.flush_before_teidin
              { after_tun with prior_teid_in_present := true, prior_teid_in := teid_in } } ()
  else .ok s ()

/-- Embedding of `gtpu::add_bearer` (lines 153-190). -/
def add_bearer (nb : Nat) (env : Env) (s : gtpu) (rnti lcid addr teid_out : Nat)
    (props : Option bearer_props) : Res Nat :=
  if lcid < nb then
    let s3 := add_bearer_alloc s rnti lcid addr teid_out
    let teid_in := s3.next_teid_in
    match props with
    | none => .ok s3 teid_in
    | some p =>
      (add_bearer_flush s3 p teid_in).bind fun s4 _ =>
      if p.forward_from_teidin_present then
        (create_dl_fwd_tunnel env s4 p.forward_from_teidin teid_in).bind fun s5 rc =>
          if rc ≠ SRSLTE_SUCCESS then
            (rem_tunnel nb s5 teid_in).bind fun s6 _ => .ok s6 0
          else .ok s5 teid_in
      else .ok s4 teid_in
  else .ub

/-! ## Data path -/

/-- Modelled from the spec: message type Echo Request. -/
def GTPU_MSG_ECHO_REQUEST : Nat := 0x01

/-- Modelled from the spec: message type Echo Response. -/
def GTPU_MSG_ECHO_RESPONSE : Nat := 0x02

/-- Modelled from the spec: message type Error Indication. -/
def GTPU_MSG_ERROR_INDICATION : Nat := 0x1A

/-- Embedding of `gtpu::write_pdu` (lines 91-98).  `ue_teidin_db[rnti]` and
`tunnels[teid]` insert a default value under a missing key; `[lcid]` indexes
the array and `[0]` the vector, both without a test. -/
def write_pdu (nb : Nat) (env : Env) (s : gtpu) (rnti lcid : Nat) (pdu : Packet) : Res Unit :=
  let arr := (Map.find s.ue_teidin_db rnti).getD (fun _ => [])
  let s1 : gtpu :=
    match Map.find s.ue_teidin_db rnti with
    | some _ => s
    | none => { s with ue_teidin_db := Map.set s.ue_teidin_db rnti arr }
  if lcid < nb then
    match arr lcid with
    | [] => .ub
    | teid :: _ =>
      let tun := (Map.find s1.tunnels teid).getD {}
      let s2 : gtpu :=
        match Map.find s1.tunnels teid with
        | some _ => s1
        | none => { s1 with tunnels := Map.set s1.tunnels teid tun }
      .ok (send_pdu_to_tunnel env s2 rnti lcid pdu tun.teid_out tun.spgw_addr (-1)) ()
  else .ub

/-- Embedding of `gtpu::error_indication` (lines 409-434).  The 32-bit `tx_seq`
is stored into the 16-bit `seq_number`; the result of the header writer is not
tested. -/
def error_indication (s : gtpu) (addr port err_teid : Nat) : gtpu :=
  let header : gtpu_header_t :=
    { flags := GTPU_FLAGS_VERSION_V1 ||| GTPU_FLAGS_GTP_PROTOCOL ||| GTPU_FLAGS_SEQUENCE
      message_type := GTPU_MSG_ERROR_INDICATION
      teid := err_teid
      length := 4
      seq_number := s.tx_seq % 2 ^ 16
      n_pdu := 0
      next_ext_hdr_type := 0 }
  { s with
    log := s.log ++ [Event.sendto (.net_order addr port) header [] (some 12)]
    tx_seq := (s.tx_seq + 1) % 2 ^ 32 }

/-- Embedding of `gtpu::echo_response` (lines 439-463). -/
def echo_response (s : gtpu) (addr port seq : Nat) : gtpu :=
  let header : gtpu_header_t :=
    { flags := GTPU_FLAGS_VERSION_V1 ||| GTPU_FLAGS_GTP_PROTOCOL ||| GTPU_FLAGS_SEQUENCE
      message_type := GTPU_MSG_ECHO_RESPONSE
      teid := 0
      length := 4
      seq_number := seq
      n_pdu := 0
      next_ext_hdr_type := 0 }
  { s with log := s.log ++ [Event.sendto (.net_order addr port) header [] (some 12)] }

/-- The loop `for (uint32_t new_teidin : bearer_tunnels)` of the End Marker
case (lines 351-361) over the TEIDs still to visit; `old_teid_in` is the field
`old_tun.teid_in`, which the loop never writes. -/
def flush_loop (old_teid_in : Nat) : List Nat → gtpu → Res Unit
  | [], s => .ok s ()
  | new_teidin :: rest, s =>
    match Map.find s.tunnels new_teidin with
    | none => .thrown s
    | some new_tun =>
      if new_teidin ≠ old_teid_in ∧ new_tun.prior_teid_in_present = true ∧
          new_tun.prior_teid_in = old_teid_in then
        flush_loop old_teid_in rest
          { s with
            log := s.log ++
              new_tun.buffer.map (fun sdu => Event.write_sdu new_tun.rnti new_tun.lcid sdu (-1))
            tunnels := Map.set s.tunnels new_teidin
              { new_tun with prior_teid_in_present := false, buffer := [] } }
      else flush_loop old_teid_in rest s

/-- Embedding of `gtpu::handle_gtpu_s1u_rx_packet` (lines 272-368); `n_srb`
and `nb` stand for `SRSENB_N_SRB` and `SRSENB_N_RADIO_BEARERS`, `addr` and
`port` for the two fields of the sender's `sockaddr_in`. -/
def handle_gtpu_s1u_rx_packet (n_srb nb : Nat) (env : Env) (s : gtpu) (pdu : Packet)
    (addr port : Nat) : Res Unit :=
  match env.gtpu_read_header pdu with
  | none => .ok s ()
  | some (header, pdu) =>
    if header.teid ≠ 0 ∧ (Map.find s.tunnels header.teid).isNone then
      .ok (error_indication s addr port header.teid) ()
    else if header.message_type = GTPU_MSG_ECHO_REQUEST then
      .ok (echo_response s addr port header.seq_number) ()
    else if header.message_type = GTPU_MSG_DATA_PDU then
      match Map.find s.tunnels header.teid with
      | none => .ub
      | some rx_tun =>
        let rnti := rx_tun.rnti % 2 ^ 16
        let lcid := rx_tun.lcid % 2 ^ 16
        if lcid < n_srb ∨ lcid ≥ nb then .ok s ()
        else if ip_version pdu ≠ 4 ∧ ip_version pdu ≠ 6 then .ok s ()
        else if rx_tun.fwd_teid_in_present then
          match Map.find s.tunnels rx_tun.fwd_teid_in with
          | none => .thrown s
          | some tx_tun =>
            .ok (send_pdu_to_tunnel env s rnti lcid pdu tx_tun.teid_out tx_tun.spgw_addr (-1)) ()
        else if rx_tun.prior_teid_in_present then
          .ok { s with
                tunnels := Map.set s.tunnels header.teid
                  { rx_tun with buffer := rx_tun.buffer ++ [pdu] } } ()
        else if header.flags &&& GTPU_FLAGS_EXTENDED_HDR ≠ 0 ∧
            header.next_ext_hdr_type = GTPU_EXT_HEADER_PDCP_PDU_NUMBER then
          match header.ext_buffer with
          | b0 :: b1 :: _ =>
            .ok { s with
                  log := s.log ++
                    [Event.write_sdu rnti lcid pdu (to_int ((b1 <<< 8) + b0))] } ()
          | _ => .ub
        else
          .ok { s with log := s.log ++ [Event.write_sdu rnti lcid pdu (to_int (2 ^ 32 - 1))] } ()
    else if header.message_type = GTPU_MSG_END_MARKER then
      match Map.find s.tunnels header.teid with
      | none => .ub
      | some old_tun =>
        if old_tun.fwd_teid_in_present then
          (end_marker s old_tun.fwd_teid_in).bind fun s1 _ =>
            .ok { s1 with
                  tunnels := Map.set s1.tunnels header.teid
                    { old_tun with fwd_teid_in_present := false } } ()
        else
          match Map.find s.ue_teidin_db old_tun.rnti with
          | none => .ub
          | some arr =>
            if old_tun.lcid < nb then flush_loop old_tun.teid_in (arr old_tun.lcid) s
            else .ub
    else .ok s ()

/-! ## Invariants -/

/-- The pair `(rnti, lcid)` under which a record is filed. -/
def loc (rec : tunnel) : Nat × Nat := (rec.rnti, rec.lcid)

/-- Registry/index consistency.  First part: every key `t` of `tunnels` has
its bearer slot inside the array, occurs exactly once in
`ue_teidin_db[rec.rnti][rec.lcid]`, and occurs in no other bearer list.
Second part: every TEID of a bearer list is a key of `tunnels`. -/
def Consistent (nb : Nat) (s : gtpu) : Prop :=
  (∀ t rec, Map.find s.tunnels t = some rec →
    rec.lcid < nb ∧
    (∃ arr, Map.find s.ue_teidin_db rec.rnti = some arr ∧ (arr rec.lcid).count t = 1) ∧
    (∀ r arr l, Map.find s.ue_teidin_db r = some arr → l < nb → t ∈ arr l →
      r = rec.rnti ∧ l = rec.lcid)) ∧
  (∀ r arr l, Map.find s.ue_teidin_db r = some arr → l < nb →
    ∀ t ∈ arr l, (Map.find s.tunnels t).isSome = true)

/-- Executable test for `Consistent`. -/
def Consistent_check (nb : Nat) (s : gtpu) : Bool :=
  ((Map.keys s.tunnels).all fun t =>
    match Map.find s.tunnels t with
    | none => true
    | some rec =>
      decide (rec.lcid < nb) &&
      (match Map.find s.ue_teidin_db rec.rnti with
       | none => false
       | some arr => decide ((arr rec.lcid).count t = 1)) &&
      ((Map.keys s.ue_teidin_db).all fun r =>
        match Map.find s.ue_teidin_db r with
        | none => true
        | some arr =>
          (List.range nb).all fun l =>
            decide (t ∈ arr l → r = rec.rnti ∧ l = rec.lcid))) &&
  ((Map.keys s.ue_teidin_db).all fun r =>
    match Map.find s.ue_teidin_db r with
    | none => true
    | some arr =>
      (List.range nb).all fun l => (arr l).all fun t => (Map.find s.tunnels t).isSome)

/-- Forwarding out of a set of records: every record of the set `R` that has
`fwd_teid_in_present` names a key of `tunnels` which is its own key or lies
outside `R`.  (Removing the records of `R` in any order then never looks up a
forwarding target that is already gone.) -/
def FwdOut (s : gtpu) (R : tunnel → Prop) : Prop :=
  ∀ t rec, Map.find s.tunnels t = some rec → R rec → rec.fwd_teid_in_present = true →
    ∃ tgt, Map.find s.tunnels rec.fwd_teid_in = some tgt ∧ (rec.fwd_teid_in = t ∨ ¬ R tgt)

/-- Two states file the same keys under the same `(rnti, lcid)` and hold the
same bearer index. -/
def SameIndex (s s' : gtpu) : Prop :=
  (∀ t, (Map.find s'.tunnels t).map loc = (Map.find s.tunnels t).map loc) ∧
  (∀ r, Map.find s'.ue_teidin_db r = Map.find s.ue_teidin_db r)

/-! ## Worked examples -/

/-- Collaborators of the worked examples: the header writer succeeds, no
header is parsed, PDCP holds no buffered PDUs. -/
def env_quiet : Env :=
  { gtpu_write_header := fun _ _ => true
    gtpu_read_header := fun _ => none
    get_buffered_pdus := fun _ _ => [] }

/-- Example state: user 0x46 has tunnels 1 and 2 on bearer 3 and tunnel 1
forwards to tunnel 2 (the state after the two allocations of scenario S4). -/
def ex_fwd : gtpu :=
  { tunnels :=
      [(1, { teid_in := 1, rnti := 0x46, lcid := 3, spgw_addr := 10, teid_out := 20,
             fwd_teid_in_present := true, fwd_teid_in := 2 }),
       (2, { teid_in := 2, rnti := 0x46, lcid := 3, spgw_addr := 11, teid_out := 21 })]
    ue_teidin_db := [(0x46, upd (fun _ => []) 3 [1, 2])]
    next_teid_in := 2 }

/-! ## Runs of control-plane calls -/

/-- One control-plane call with its arguments. -/
inductive Call where
  | add_bearer (env : Env) (rnti lcid addr teid_out : Nat) (props : Option bearer_props)
  | rem_tunnel (teidin : Nat)
  | rem_bearer (rnti lcid : Nat)
  | rem_user (rnti : Nat)
  | mod_bearer_rnti (old_rnti new_rnti : Nat)

/-- State in which a call leaves the object (`none` when it leaves none). -/
def Call.run (nb : Nat) (s : gtpu) : Call → Option gtpu
  | .add_bearer env rnti lcid addr teid_out props =>
    (srsenb.add_bearer nb env s rnti lcid addr teid_out props).state?
  | .rem_tunnel teidin => (srsenb.rem_tunnel nb s teidin).state?
  | .rem_bearer rnti lcid => (srsenb.rem_bearer nb s rnti lcid).state?
  | .rem_user rnti => (srsenb.rem_user nb s rnti).state?
  | .mod_bearer_rnti old_rnti new_rnti =>
    (srsenb.mod_bearer_rnti nb s old_rnti new_rnti).state?

/-- State after a sequence of calls made one after the other. -/
def run_calls (nb : Nat) : List Call → gtpu → Option gtpu
  | [], s => some s
  | c :: cs, s =>
    match c.run nb s with
    | none => none
    | some s1 => run_calls nb cs s1

/-- Field `forward_to` of the spec: the forwarding target of tunnel `t`. -/
def forward_to (s : gtpu) (t : Nat) : Option Nat :=
  match Map.find s.tunnels t with
  | some rec => if rec.fwd_teid_in_present then some rec.fwd_teid_in else none
  | none => none

/-- Field `flush_after` of the spec: the TEID whose End Marker tunnel `t` awaits. -/
def flush_after (s : gtpu) (t : Nat) : Option Nat :=
  match Map.find s.tunnels t with
  | some rec => if rec.prior_teid_in_present then some rec.prior_teid_in else none
  | none => none

/-- Whether `t` is a key of the tunnel registry. -/
def registered (s : gtpu) (t : Nat) : Bool :=
  (Map.find s.tunnels t).isSome

/-- Whether the bearer index has an entry for `rnti` (`ue_teidin_db.count(rnti) != 0`). -/
def user_exists (s : gtpu) (rnti : Nat) : Bool :=
  (Map.find s.ue_teidin_db rnti).isSome

/-- Properties that ask for forwarding from tunnel `f`. -/
def props_forward_from (f : Nat) : bearer_props :=
  { forward_from_teidin_present := true, forward_from_teidin := f }

/-- Properties that ask for a flush before tunnel `t`. -/
def props_flush_before (t : Nat) : bearer_props :=
  { flush_before_teidin_present := true, flush_before_teidin := t }

/-- TEID that a call asks to put into flushing state, if any
(`flush_before_teidin` of an `add_bearer`). -/
def Call.flush_target : Call → Option Nat
  | .add_bearer _ _ _ _ _ (some p) =>
    if p.flush_before_teidin_present then some p.flush_before_teidin else none
  | _ => none

/-- Every record that has `prior_teid_in_present` in `s'` had it already in
`s` under the same key, or its key is `T`. -/
def FlushFrom (s s' : gtpu) (T : Option Nat) : Prop :=
  ∀ t rec', Map.find s'.tunnels t = some rec' → rec'.prior_teid_in_present = true →
    (∃ rec, Map.find s.tunnels t = some rec ∧ rec.prior_teid_in_present = true) ∨ T = some t

/-- Scenario S5 of the spec as a run: a tunnel is allocated on bearer
`(5, 3)`, then a second one with `flush_before_teidin` naming the first. -/
def s5_calls : List Call :=
  [.add_bearer env_quiet 5 3 10 20 none,
   .add_bearer env_quiet 5 3 11 21 (some (props_flush_before 1))]

/-- The call left the counter alone and registered no new key. -/
def Shrink (s s' : gtpu) : Prop :=
  s'.next_teid_in = s.next_teid_in ∧ s'.tx_seq = s.tx_seq ∧
  ∀ k, registered s' k = true → registered s k = true

/-- The call stepped the 32-bit counter once and registered at most the new
counter value. -/
def Grow (s s' : gtpu) : Prop :=
  s'.next_teid_in = (s.next_teid_in + 1) % 2 ^ 32 ∧
  ∀ k, registered s' k = true → registered s k = true ∨ k = s'.next_teid_in

/-- All keys of the registry lie between 1 and the counter. -/
def KeysBound (s : gtpu) : Prop :=
  ∀ k, registered s k = true → 1 ≤ k ∧ k ≤ s.next_teid_in

/-- State whose TEID counter holds the largest 32-bit value while tunnel 1 of
user 0x46 is still registered. -/
def ex_wrap : gtpu :=
  { tunnels := [(1, { teid_in := 1, rnti := 0x46, lcid := 3, spgw_addr := 10, teid_out := 20 })]
    ue_teidin_db := [(0x46, upd (fun _ => []) 3 [1])]
    next_teid_in := 2 ^ 32 - 1 }

/-- TEID named by `flush_before_teidin` of the properties, when present. -/
def flush_request : Option bearer_props → Option Nat
  | some p => if p.flush_before_teidin_present then some p.flush_before_teidin else none
  | none => none

/-- TEID named by `forward_from_teidin` of the properties, when present. -/
def forward_request : Option bearer_props → Option Nat
  | some p => if p.forward_from_teidin_present then some p.forward_from_teidin else none
  | none => none

/-- Example state: user 0x46 has the single tunnel 1 on bearer 3 (the state
after one allocation). -/
def ex_one : gtpu :=
  { tunnels := [(1, { teid_in := 1, rnti := 0x46, lcid := 3, spgw_addr := 10, teid_out := 20 })]
    ue_teidin_db := [(0x46, upd (fun _ => []) 3 [1])]
    next_teid_in := 1 }

/-- Whether the IP version nibble of a packet is 4 or 6. -/
def valid_ip (pdu : Packet) : Bool :=
  ip_version pdu == 4 || ip_version pdu == 6

/-- The G-PDU that the spec prescribes for a buffered PDCP PDU `(sn, pkt)`
forwarded on a tunnel with peer `addr` and outbound TEID `teid_out`: sent to
`(addr, 2152)`, flags V1, GTP and E, message type 0xFF, the TEID, the payload
length, next-extension type 0xC0 and the PDCP PDU number extension body. -/
def fwd_datagram (addr teid_out : Nat) (p : Nat × Packet) : Event :=
  Event.sendto (.host_order addr 2152)
    { flags := 0x34
      message_type := 0xFF
      length := p.2.length % 2 ^ 16
      teid := teid_out
      next_ext_hdr_type := 0xC0
      ext_buffer := [0x01, (p.1 >>> 8) &&& 0xFF, p.1 &&& 0xFF, 0x00] }
    p.2 none

/-- Collaborators of an example: PDCP holds one IPv4 PDU under sequence
number 2^31, the header writer succeeds. -/
def env_big_sn : Env :=
  { gtpu_write_header := fun _ _ => true
    gtpu_read_header := fun _ => none
    get_buffered_pdus := fun _ _ => [(2 ^ 31, [0x45, 0, 0, 1])] }

/-- Collaborators of an example: PDCP holds two IPv4 PDUs under sequence
numbers 7 and 300 and one PDU with version nibble 0 in between. -/
def env_buffered : Env :=
  { gtpu_write_header := fun _ _ => true
    gtpu_read_header := fun _ => none
    get_buffered_pdus := fun _ _ => [(7, [0x45, 1]), (8, [0x05]), (300, [0x60, 2, 3])] }

/-- Scenario S6 of the spec: user 0x100 owns bearers 3 and 4 with one tunnel
each. -/
def ex_s6 : gtpu :=
  { tunnels :=
      [(1, { teid_in := 1, rnti := 0x100, lcid := 3, spgw_addr := 10, teid_out := 20 }),
       (2, { teid_in := 2, rnti := 0x100, lcid := 4, spgw_addr := 10, teid_out := 21 })]
    ue_teidin_db := [(0x100, upd (upd (fun _ => []) 3 [1]) 4 [2])]
    next_teid_in := 2 }

/-! ## Worked examples for the data path -/

/-- Whether a call ended in undefined behaviour. -/
def Res.is_ub {α : Type} : Res α → Bool
  | .ub => true
  | _ => false

/-- Whether a call ended by throwing. -/
def Res.is_thrown {α : Type} : Res α → Bool
  | .thrown _ => true
  | _ => false

/-- Collaborators of an example in which the datagram at hand is parsed into
the header `h` with all its bytes as payload; the header writer succeeds and
PDCP holds no buffered PDUs. -/
def env_parsed (h : gtpu_header_t) : Env :=
  { gtpu_write_header := fun _ _ => true
    gtpu_read_header := fun raw => some (h, raw)
    get_buffered_pdus := fun _ _ => [] }

/-- Collaborators of an example in which a datagram is abbreviated to its
message type, its TEID and the payload, in this order. -/
def env_short : Env :=
  { gtpu_write_header := fun _ _ => true
    gtpu_read_header := fun raw =>
      match raw with
      | ty :: teid :: payload => some ({ flags := 0x30, message_type := ty, teid := teid }, payload)
      | _ => none
    get_buffered_pdus := fun _ _ => [] }

/-- The Error Indication of the spec for the offending TEID `teid`, sent to
the sender `(addr, port)` with sequence number `seq`. -/
def error_indication_datagram (addr port teid seq : Nat) : Event :=
  Event.sendto (.net_order addr port)
    { flags := 0x32, message_type := 0x1A, teid := teid, length := 4, seq_number := seq }
    [] (some 12)

/-- The Echo Response of the spec, sent to the sender `(addr, port)` with
sequence number `seq`. -/
def echo_response_datagram (addr port seq : Nat) : Event :=
  Event.sendto (.net_order addr port)
    { flags := 0x32, message_type := 0x02, teid := 0, length := 4, seq_number := seq }
    [] (some 12)

/-- The G-PDU of the spec without extension header: sent to `(addr, 2152)`
with flags 0x30, message type 0xFF, the payload length and the TEID, followed
by the payload. -/
def gpdu_datagram (addr teid_out : Nat) (pdu : Packet) : Event :=
  Event.sendto (.host_order addr 2152)
    { flags := 0x30, message_type := 0xFF, length := pdu.length % 2 ^ 16, teid := teid_out }
    pdu none

/-- Tunnel `N` awaits the End Marker of tunnel `O`: `N ≠ O` and the
`flush_after` of `N` is `O`. -/
def awaits (s : gtpu) (O N : Nat) : Bool :=
  decide (N ≠ O) && (flush_after s N == some O)

/-- Deliveries to the upper layer that empty the pending queue of tunnel `N`:
one `write_sdu` for `(N.rnti, N.lcid)` per queued packet, oldest first, without
a sequence number. -/
def flushed_sdus (s : gtpu) (N : Nat) : List Event :=
  match Map.find s.tunnels N with
  | some recN => recN.buffer.map (fun sdu => Event.write_sdu recN.rnti recN.lcid sdu (-1))
  | none => []

/-- Deliveries prescribed for an End Marker on tunnel `O` of bearer
`(rnti, lcid)`: the pending queues of the tunnels of the bearer that await
`O`. -/
def end_marker_deliveries (s : gtpu) (rnti lcid O : Nat) : List Event :=
  ((bearer_list s rnti lcid).filter (awaits s O)).flatMap (flushed_sdus s)

/-- The End Marker of the spec for a tunnel with peer `addr` and outbound
TEID `teid_out`: sent to `(addr, 2152)` with flags 0x30, message type 0xFE,
length 0 and the TEID; twelve bytes of the buffer are handed to the socket. -/
def end_marker_datagram (addr teid_out : Nat) : Event :=
  Event.sendto (.host_order addr 2152)
    { flags := 0x30, message_type := 0xFE, teid := teid_out, length := 0 } [] (some 12)

/-- Record of a tunnel whose pending queue has been flushed. -/
def flushed (rec : tunnel) : tunnel :=
  { rec with prior_teid_in_present := false, buffer := [] }

/-- Example state: the path switch of scenario S5 after two packets were
queued.  Tunnel 1 of bearer `(5, 3)` awaits the End Marker of tunnel 2 and
holds two packets. -/
def ex_s5 : gtpu :=
  { tunnels :=
      [(1, { teid_in := 1, rnti := 5, lcid := 3, spgw_addr := 10, teid_out := 20,
             prior_teid_in_present := true, prior_teid_in := 2,
             buffer := [[0x45, 1], [0x45, 2]] }),
       (2, { teid_in := 2, rnti := 5, lcid := 3, spgw_addr := 11, teid_out := 21 })]
    ue_teidin_db := [(5, upd (fun _ => []) 3 [1, 2])]
    next_teid_in := 2 }

/-- Datagrams received one after the other from the same sender: the receive
handler is run on each, in order. -/
def rx_all (n_srb nb : Nat) (env : Env) (addr port : Nat) : List Packet → gtpu → Res Unit
  | [], s => .ok s ()
  | raw :: rest, s =>
    (handle_gtpu_s1u_rx_packet n_srb nb env s raw addr port).bind fun s1 _ =>
      rx_all n_srb nb env addr port rest s1

/-- The datagram `raw` is parsed into a G-PDU header with TEID `T` and the
payload `p`, whose IP version nibble is 4 or 6. -/
def is_gpdu_on (env : Env) (T : Nat) (raw p : Packet) : Prop :=
  ∃ h, env.gtpu_read_header raw = some (h, p) ∧ h.message_type = GTPU_MSG_DATA_PDU ∧
    h.teid = T ∧ valid_ip p = true

/-- Header of a datagram handed to the socket. -/
def sent_header : Event → Option gtpu_header_t
  | .sendto _ h _ _ => some h
  | .write_sdu _ _ _ _ => none

/-- Header that `send_pdu_to_tunnel` writes in front of `pdu` for the PDCP
sequence number `sn` and outbound TEID `teid_out`, when the header writer
succeeds: the header of the datagram the call sends. -/
def written_header (teid_out : Nat) (pdu : Packet) (sn : Int) : Option gtpu_header_t :=
  (send_pdu_to_tunnel env_quiet gtpu_initial 0 0 pdu teid_out 0 sn).log.getLast?.bind sent_header

/-! ## Reference views for the removal of a bearer -/

/-- End Marker that the removal of tunnel `t` emits in state `s`: the one
sent to the forwarding target of `t`, when `t` forwards. -/
def removal_marker (s : gtpu) (t : Nat) : List Event :=
  match forward_to s t with
  | some F =>
    match Map.find s.tunnels F with
    | some recF => [end_marker_datagram recF.spgw_addr recF.teid_out]
    | none => []
  | none => []

/-- Every forwarding target of a tunnel of the list `l` is registered and does
not come later in `l` than the tunnel that forwards to it. -/
def ForwardsBack (s : gtpu) (l : List Nat) : Prop :=
  ∀ pre t post F, l = pre ++ t :: post → forward_to s t = some F →
    registered s F = true ∧ F ∉ post

/-! ## Headers handed to the header writer -/

/-- Header that `send_pdu_to_tunnel` hands to the header writer for a PDU
without PDCP sequence number: flags 0x30, message type 0xFF, the 16-bit
length field and the TEID. -/
def gpdu_header (teid_out : Nat) (pdu : Packet) : gtpu_header_t :=
  { flags := 0x30, message_type := 0xFF, length := pdu.length % 2 ^ 16, teid := teid_out }

/-- Header that `send_pdu_to_tunnel` hands to the header writer for a
buffered PDCP PDU `(sn, pkt)`: the header of `fwd_datagram`. -/
def fwd_header (teid_out : Nat) (p : Nat × Packet) : gtpu_header_t :=
  { flags := 0x34
    message_type := 0xFF
    length := p.2.length % 2 ^ 16
    teid := teid_out
    next_ext_hdr_type := 0xC0
    ext_buffer := [0x01, (p.1 >>> 8) &&& 0xFF, p.1 &&& 0xFF, 0x00] }

/-- Whether a buffered PDCP PDU is sent on the forwarding tunnel: its IP
version nibble is 4 or 6 and the header writer succeeds on its header. -/
def fwd_sent (env : Env) (teid_out : Nat) (p : Nat × Packet) : Bool :=
  valid_ip p.2 && env.gtpu_write_header (fwd_header teid_out p) p.2

/-- Collaborators of an example in which the header writer fails on every
header (as it does on a buffer without room for the header); no header is
parsed and PDCP holds no buffered PDUs. -/
def env_write_fails : Env :=
  { gtpu_write_header := fun _ _ => false
    gtpu_read_header := fun _ => none
    get_buffered_pdus := fun _ _ => [] }

/-- Collaborators of an example in which the header writer accepts exactly
the headers with flags 0x30 or 0x34 and message type 0xFF; a datagram is parsed
into a G-PDU header with TEID 1 and PDCP holds one IPv4 PDU under sequence
number 7. -/
def env_checks_flags : Env :=
  { gtpu_write_header := fun h _ =>
      (h.flags == 0x30 || h.flags == 0x34) && h.message_type == 0xFF
    gtpu_read_header := fun raw => some ({ flags := 0x30, message_type := 0xFF, teid := 1 }, raw)
    get_buffered_pdus := fun _ _ => [(7, [0x45, 1])] }

/-! ## Facts about finite maps -/

theorem Map.find_erase {β : Type} (m : Map β) (k k' : Nat) :
    Map.find (Map.erase m k) k' = if k' = k then none else Map.find m k' := by
  induction m with
  | nil => simp [Map.erase, Map.find]
  | cons p m ih =>
    obtain ⟨a, b⟩ := p
    by_cases hak : a = k
    · subst hak
      have : Map.erase ((a, b) :: m) a = Map.erase m a := by simp [Map.erase]
      rw [this, ih]
      by_cases h : k' = a
      · simp [h]
      · have h2 : ¬ a = k' := fun e => h e.symm
        simp [h, Map.find, h2]
    · have : Map.erase ((a, b) :: m) k = (a, b) :: Map.erase m k := by simp [Map.erase, hak]
      rw [this]
      simp only [Map.find]
      rw [ih]
      by_cases h : a = k'
      · subst h; simp [hak]
      · simp [h]

theorem Map.find_set {β : Type} (m : Map β) (k k' : Nat) (v : β) :
    Map.find (Map.set m k v) k' = if k' = k then some v else Map.find m k' := by
  unfold Map.set
  simp only [Map.find]
  by_cases h : k = k'
  · subst h; simp
  · have h2 : ¬ k' = k := fun e => h e.symm
    simp [h, h2, Map.find_erase]

theorem Map.mem_keys_of_find {β : Type} (m : Map β) (k : Nat) (v : β)
    (h : Map.find m k = some v) : k ∈ Map.keys m := by
  induction m with
  | nil => simp [Map.find] at h
  | cons p m ih =>
    obtain ⟨a, b⟩ := p
    simp only [Map.find] at h
    by_cases hak : a = k
    · subst hak; simp [Map.keys]
    · simp only [hak, if_false] at h
      have := ih h
      simp only [Map.keys, List.map_cons, List.mem_cons]
      right
      exact this

@[simp] theorem upd_same (arr : Nat → List Nat) (i : Nat) (v : List Nat) : upd arr i v i = v := by
  simp [upd]

theorem upd_other (arr : Nat → List Nat) (i j : Nat) (v : List Nat) (h : j ≠ i) :
    upd arr i v j = arr j := by
  simp [upd, h]

@[simp] theorem Res.bind_ok {α β : Type} (s : gtpu) (v : α) (f : gtpu → α → Res β) :
    (Res.ok s v).bind f = f s v := rfl

@[simp] theorem Res.bind_thrown {α β : Type} (s : gtpu) (f : gtpu → α → Res β) :
    (Res.thrown s : Res α).bind f = Res.thrown s := rfl

@[simp] theorem Res.bind_ub {α β : Type} (f : gtpu → α → Res β) :
    (Res.ub : Res α).bind f = Res.ub := rfl

@[simp] theorem Res.bind_loops {α β : Type} (f : gtpu → α → Res β) :
    (Res.loops : Res α).bind f = Res.loops := rfl

/-! ## Consistency: basic facts -/

theorem Consistent_of_check (nb : Nat) (s : gtpu) (h : Consistent_check nb s = true) :
    Consistent nb s := by
  unfold Consistent_check at h
  simp only [Bool.and_eq_true, List.all_eq_true] at h
  obtain ⟨h1, h2⟩ := h
  refine ⟨?_, ?_⟩
  · intro t rec ht
    have hk := Map.mem_keys_of_find _ _ _ ht
    have := h1 t hk
    rw [ht] at this
    simp only [Bool.and_eq_true, decide_eq_true_eq, List.all_eq_true] at this
    obtain ⟨⟨hl, ha⟩, hb⟩ := this
    refine ⟨hl, ?_, ?_⟩
    · cases hf : Map.find s.ue_teidin_db rec.rnti with
      | none => rw [hf] at ha; simp at ha
      | some arr => rw [hf] at ha; exact ⟨arr, rfl, by simpa using ha⟩
    · intro r arr l hr hlt hmem
      have := hb r (Map.mem_keys_of_find _ _ _ hr)
      rw [hr] at this
      simp only [List.all_eq_true, decide_eq_true_eq] at this
      exact this l (List.mem_range.mpr hlt) hmem
  · intro r arr l hr hlt t hmem
    have := h2 r (Map.mem_keys_of_find _ _ _ hr)
    rw [hr] at this
    simp only [List.all_eq_true] at this
    exact this l (List.mem_range.mpr hlt) t hmem

theorem Consistent_init (nb : Nat) : Consistent nb gtpu_initial := by
  refine ⟨?_, ?_⟩
  · intro t rec h; simp [gtpu_initial, Map.find] at h
  · intro r arr l h; simp [gtpu_initial, Map.find] at h

/-- Consistency only reads where each record is filed and what the index holds. -/
theorem Consistent_congr {nb : Nat} {s s' : gtpu}
    (ht : ∀ t, (Map.find s'.tunnels t).map loc = (Map.find s.tunnels t).map loc)
    (hd : ∀ r, Map.find s'.ue_teidin_db r = Map.find s.ue_teidin_db r)
    (h : Consistent nb s) : Consistent nb s' := by
  obtain ⟨ha, hb⟩ := h
  refine ⟨?_, ?_⟩
  · intro t rec' hrec'
    have h1 := ht t
    rw [hrec'] at h1
    cases hf : Map.find s.tunnels t with
    | none => rw [hf] at h1; simp at h1
    | some rec =>
      rw [hf] at h1
      simp only [Option.map_some', Option.some.injEq, loc, Prod.mk.injEq] at h1
      obtain ⟨e1, e2⟩ := h1
      obtain ⟨hl, ⟨arr, harr, hc⟩, ho⟩ := ha t rec hf
      rw [e1, e2]
      refine ⟨hl, ⟨arr, ?_, hc⟩, ?_⟩
      · rw [hd]; exact harr
      · intro r arr2 l hr
        rw [hd] at hr
        exact ho r arr2 l hr
  · intro r arr l hr hlt t hmem
    rw [hd] at hr
    have := hb r arr l hr hlt t hmem
    have h1 := ht t
    cases hf : Map.find s.tunnels t with
    | none => rw [hf] at this; simp at this
    | some rec =>
      rw [hf] at h1
      cases hf2 : Map.find s'.tunnels t with
      | none => rw [hf2] at h1; simp at h1
      | some rec2 => rfl

/-! ## Frame facts for the transmit path -/

theorem send_pdu_frame (env : Env) (s : gtpu) (rnti lcid : Nat) (pdu : Packet)
    (teidout spgw_addr : Nat) (sn : Int) :
    (send_pdu_to_tunnel env s rnti lcid pdu teidout spgw_addr sn).tunnels = s.tunnels ∧
    (send_pdu_to_tunnel env s rnti lcid pdu teidout spgw_addr sn).ue_teidin_db = s.ue_teidin_db ∧
    (send_pdu_to_tunnel env s rnti lcid pdu teidout spgw_addr sn).next_teid_in = s.next_teid_in ∧
    (send_pdu_to_tunnel env s rnti lcid pdu teidout spgw_addr sn).tx_seq = s.tx_seq := by
  unfold send_pdu_to_tunnel
  dsimp only
  split_ifs <;> exact ⟨rfl, rfl, rfl, rfl⟩

theorem send_all_frame (env : Env) (rnti lcid teidout spgw_addr : Nat)
    (pdus : List (Nat × Packet)) (s : gtpu) :
    (pdus.foldl (fun st p => send_pdu_to_tunnel env st rnti lcid p.2 teidout spgw_addr (to_int p.1))
        s).tunnels = s.tunnels ∧
    (pdus.foldl (fun st p => send_pdu_to_tunnel env st rnti lcid p.2 teidout spgw_addr (to_int p.1))
        s).ue_teidin_db = s.ue_teidin_db ∧
    (pdus.foldl (fun st p => send_pdu_to_tunnel env st rnti lcid p.2 teidout spgw_addr (to_int p.1))
        s).next_teid_in = s.next_teid_in ∧
    (pdus.foldl (fun st p => send_pdu_to_tunnel env st rnti lcid p.2 teidout spgw_addr (to_int p.1))
        s).tx_seq = s.tx_seq := by
  induction pdus generalizing s with
  | nil => exact ⟨rfl, rfl, rfl, rfl⟩
  | cons p ps ih =>
    simp only [List.foldl_cons]
    obtain ⟨a, b, c, d⟩ := ih (send_pdu_to_tunnel env s rnti lcid p.2 teidout spgw_addr (to_int p.1))
    obtain ⟨a2, b2, c2, d2⟩ := send_pdu_frame env s rnti lcid p.2 teidout spgw_addr (to_int p.1)
    exact ⟨a.trans a2, b.trans b2, c.trans c2, d.trans d2⟩

/-! ## Removal of one tunnel -/

/-- What a completed `rem_tunnel` did. -/
theorem rem_tunnel_inv {nb : Nat} {s s' : gtpu} {t : Nat}
    (h : (rem_tunnel nb s t).state? = some s') :
    (Map.find s.tunnels t = none ∧ s' = s) ∨
    (∃ tun arr, Map.find s.tunnels t = some tun ∧
      Map.find s.ue_teidin_db tun.rnti = some arr ∧ tun.lcid < nb ∧
      (tun.fwd_teid_in_present = true → (Map.find s.tunnels tun.fwd_teid_in).isSome = true) ∧
      (∀ k, Map.find s'.tunnels k = if k = t then none else Map.find s.tunnels k) ∧
      s'.ue_teidin_db = Map.set s.ue_teidin_db tun.rnti
        (upd arr tun.lcid ((arr tun.lcid).filter (fun x => decide (x ≠ t)))) ∧
      s'.next_teid_in = s.next_teid_in ∧ s'.tx_seq = s.tx_seq) := by
  unfold rem_tunnel at h
  cases hf : Map.find s.tunnels t with
  | none =>
    rw [hf] at h
    simp only [Res.state?, Option.some.injEq] at h
    exact Or.inl ⟨rfl, h.symm⟩
  | some tun =>
    rw [hf] at h
    right
    cases hfw : tun.fwd_teid_in_present with
    | false =>
      simp only [hfw, Bool.false_eq_true, if_false, Res.bind_ok] at h
      cases hd : Map.find s.ue_teidin_db tun.rnti with
      | none => rw [hd] at h; simp [Res.state?] at h
      | some arr =>
        rw [hd] at h
        by_cases hl : tun.lcid < nb
        · simp only [hl, if_true, Res.state?, Option.some.injEq] at h
          subst h
          refine ⟨tun, arr, rfl, hd, hl, by simp [hfw], ?_, rfl, rfl, rfl⟩
          intro k
          exact Map.find_erase _ _ _
        · simp [hl, Res.state?] at h
    | true =>
      simp only [hfw, if_true] at h
      unfold end_marker at h
      cases hfd : Map.find s.tunnels tun.fwd_teid_in with
      | none => rw [hfd] at h; simp [Res.state?] at h
      | some tgt =>
        rw [hfd] at h
        simp only [Res.bind_ok] at h
        cases hd : Map.find s.ue_teidin_db tun.rnti with
        | none => rw [hd] at h; simp [Res.state?] at h
        | some arr =>
          rw [hd] at h
          by_cases hl : tun.lcid < nb
          · simp only [hl, if_true, Res.state?, Option.some.injEq] at h
            subst h
            refine ⟨tun, arr, rfl, hd, hl, by simp [hfd], ?_, rfl, rfl, rfl⟩
            intro k
            dsimp only
            rw [Map.find_erase, Map.find_set]
            by_cases hk : k = t <;> simp [hk]
          · simp [hl, Res.state?] at h

/-- The call `rem_tunnel` never throws and never loops. -/
theorem rem_tunnel_ok_or_ub (nb : Nat) (s : gtpu) (t : Nat) :
    (∃ s', rem_tunnel nb s t = .ok s' ()) ∨ rem_tunnel nb s t = .ub := by
  unfold rem_tunnel
  cases Map.find s.tunnels t with
  | none => exact Or.inl ⟨s, rfl⟩
  | some tun =>
    dsimp only
    cases tun.fwd_teid_in_present with
    | false =>
      simp only [Bool.false_eq_true, if_false, Res.bind_ok]
      cases Map.find s.ue_teidin_db tun.rnti with
      | none => exact Or.inr rfl
      | some arr =>
        dsimp only
        by_cases hl : tun.lcid < nb
        · simp only [hl, if_true]; exact Or.inl ⟨_, rfl⟩
        · simp [hl]
    | true =>
      simp only [if_true]
      unfold end_marker
      cases Map.find s.tunnels tun.fwd_teid_in with
      | none => exact Or.inr rfl
      | some tgt =>
        simp only [Res.bind_ok]
        cases Map.find s.ue_teidin_db tun.rnti with
        | none => exact Or.inr rfl
        | some arr =>
          dsimp only
          by_cases hl : tun.lcid < nb
          · simp only [hl, if_true]; exact Or.inl ⟨_, rfl⟩
          · simp [hl]

/-- The call `rem_tunnel` completes when the look-ups it makes without a test succeed. -/
theorem rem_tunnel_defined (nb : Nat) {s : gtpu} {t : Nat} {tun : tunnel} {arr : Nat → List Nat}
    (hf : Map.find s.tunnels t = some tun)
    (hfw : tun.fwd_teid_in_present = true → (Map.find s.tunnels tun.fwd_teid_in).isSome = true)
    (hd : Map.find s.ue_teidin_db tun.rnti = some arr) (hl : tun.lcid < nb) :
    ∃ s', rem_tunnel nb s t = .ok s' () := by
  rcases rem_tunnel_ok_or_ub nb s t with h | h
  · exact h
  · exfalso
    unfold rem_tunnel at h
    rw [hf] at h
    dsimp only at h
    cases hp : tun.fwd_teid_in_present with
    | false =>
      simp only [hp, Bool.false_eq_true, if_false, Res.bind_ok, hd, hl, if_true] at h
      cases h
    | true =>
      have := hfw hp
      cases hfd : Map.find s.tunnels tun.fwd_teid_in with
      | none => rw [hfd] at this; simp at this
      | some tgt =>
        simp only [hp, if_true, end_marker, hfd, Res.bind_ok, hd, hl] at h
        cases h

theorem find_db_set {db : Map (Nat → List Nat)} {r0 r : Nat} {a arr2 : Nat → List Nat}
    (h : Map.find (Map.set db r0 a) r = some arr2) :
    (r = r0 ∧ arr2 = a) ∨ (r ≠ r0 ∧ Map.find db r = some arr2) := by
  rw [Map.find_set] at h
  by_cases hr : r = r0
  · simp only [hr, if_true, Option.some.injEq] at h
    exact Or.inl ⟨hr, h.symm⟩
  · simp only [hr, if_false] at h
    exact Or.inr ⟨hr, h⟩

theorem count_filter_ne (l : List Nat) (t t' : Nat) (h : t' ≠ t) :
    (l.filter (fun x => decide (x ≠ t))).count t' = l.count t' := by
  induction l with
  | nil => rfl
  | cons a l ih =>
    by_cases ha : a = t
    · subst ha
      have h2 : ¬ a = t' := fun e => h e.symm
      simp only [List.filter_cons, ne_eq, not_true_eq_false, decide_False, Bool.false_eq_true,
        if_false, List.count_cons, beq_iff_eq, h2, Nat.add_zero]
      exact ih
    · simp only [List.filter_cons, ne_eq, ha, not_false_eq_true, decide_True, if_true,
        List.count_cons, ih]

theorem Consistent_rem_tunnel {nb : Nat} {s s' : gtpu} {t : Nat} (hc : Consistent nb s)
    (h : (rem_tunnel nb s t).state? = some s') : Consistent nb s' := by
  rcases rem_tunnel_inv h with ⟨_, rfl⟩ | ⟨tun, arr, hf, hd, hl, _, ht, hdb, _, _⟩
  · exact hc
  obtain ⟨ha, hb⟩ := hc
  obtain ⟨_, _, hto⟩ := ha t tun hf
  refine ⟨?_, ?_⟩
  · intro t' rec' hrec'
    rw [ht] at hrec'
    by_cases htt : t' = t
    · simp [htt] at hrec'
    simp only [htt, if_false] at hrec'
    obtain ⟨hl', ⟨arr', harr', hcnt⟩, ho⟩ := ha t' rec' hrec'
    refine ⟨hl', ?_, ?_⟩
    · rw [hdb, Map.find_set]
      by_cases hr : rec'.rnti = tun.rnti
      · simp only [hr, if_true]
        refine ⟨_, rfl, ?_⟩
        rw [hr, hd] at harr'
        simp only [Option.some.injEq] at harr'
        subst harr'
        by_cases hll : rec'.lcid = tun.lcid
        · rw [hll, upd_same, count_filter_ne _ _ _ htt, ← hll]; exact hcnt
        · rw [upd_other _ _ _ _ hll]; exact hcnt
      · simp only [hr, if_false]
        exact ⟨arr', harr', hcnt⟩
    · intro r arr2 l hr hlt hmem
      rw [hdb] at hr
      rcases find_db_set hr with ⟨rfl, rfl⟩ | ⟨_, hr2⟩
      · apply ho tun.rnti arr l hd hlt
        by_cases hll : l = tun.lcid
        · rw [hll, upd_same] at hmem
          rw [hll]
          exact (List.mem_filter.mp hmem).1
        · rw [upd_other _ _ _ _ hll] at hmem; exact hmem
      · exact ho r arr2 l hr2 hlt hmem
  · intro r arr2 l hr hlt t' hmem
    rw [hdb] at hr
    rw [ht]
    have key : t' ≠ t ∧ (Map.find s.tunnels t').isSome = true := by
      rcases find_db_set hr with ⟨rfl, rfl⟩ | ⟨hne, hr2⟩
      · by_cases hll : l = tun.lcid
        · rw [hll, upd_same] at hmem
          obtain ⟨hm1, hm2⟩ := List.mem_filter.mp hmem
          refine ⟨by simpa using hm2, ?_⟩
          exact hb tun.rnti arr tun.lcid hd hl t' hm1
        · rw [upd_other _ _ _ _ hll] at hmem
          refine ⟨?_, hb tun.rnti arr l hd hlt t' hmem⟩
          intro e
          rw [e] at hmem
          exact hll (hto tun.rnti arr l hd hlt hmem).2
      · refine ⟨?_, hb r arr2 l hr2 hlt t' hmem⟩
        intro e
        rw [e] at hmem
        exact hne (hto r arr2 l hr2 hlt hmem).1
    simp only [key.1, if_false]
    exact key.2

/-! ## Removal loops -/

theorem length_filter_ne_lt (l : List Nat) (b : Nat) (h : b ∈ l) :
    (l.filter (fun x => decide (x ≠ b))).length < l.length := by
  induction l with
  | nil => simp at h
  | cons a l ih =>
    by_cases ha : a = b
    · subst ha
      have := List.length_filter_le (fun x => decide (x ≠ a)) l
      simp only [ne_eq] at this
      simp only [List.filter_cons, ne_eq, not_true_eq_false, decide_False, Bool.false_eq_true,
        if_false, List.length_cons]
      omega
    · have hb : b ∈ l := by
        rcases List.mem_cons.mp h with e | e
        · exact absurd e.symm ha
        · exact e
      have := ih hb
      simp only [ne_eq] at this
      simp only [List.filter_cons, ne_eq, ha, not_false_eq_true, decide_True, if_true,
        List.length_cons]
      omega

theorem rem_loop_none {nb fuel : Nat} {s : gtpu} {rnti lcid : Nat}
    (hd : Map.find s.ue_teidin_db rnti = none) : rem_loop nb fuel s rnti lcid = .ub := by
  unfold rem_loop; rw [hd]

theorem rem_loop_nil {nb fuel : Nat} {s : gtpu} {rnti lcid : Nat} {arr : Nat → List Nat}
    (hd : Map.find s.ue_teidin_db rnti = some arr) (hg : (arr lcid).getLast? = none) :
    rem_loop nb fuel s rnti lcid = .ok s () := by
  unfold rem_loop; rw [hd]; dsimp only; rw [hg]

theorem rem_loop_zero {nb : Nat} {s : gtpu} {rnti lcid b : Nat} {arr : Nat → List Nat}
    (hd : Map.find s.ue_teidin_db rnti = some arr) (hg : (arr lcid).getLast? = some b) :
    rem_loop nb 0 s rnti lcid = .loops := by
  unfold rem_loop; rw [hd]; dsimp only; rw [hg]

theorem rem_loop_succ {nb n : Nat} {s : gtpu} {rnti lcid b : Nat} {arr : Nat → List Nat}
    (hd : Map.find s.ue_teidin_db rnti = some arr) (hg : (arr lcid).getLast? = some b) :
    rem_loop nb (n + 1) s rnti lcid =
      (rem_tunnel nb s b).bind fun s1 _ => rem_loop nb n s1 rnti lcid := by
  rw [rem_loop, hd]; dsimp only; rw [hg]

theorem rem_loop_state_ok {nb fuel : Nat} {s s' : gtpu} {rnti lcid : Nat}
    (h : (rem_loop nb fuel s rnti lcid).state? = some s') :
    rem_loop nb fuel s rnti lcid = .ok s' () := by
  induction fuel generalizing s with
  | zero =>
    cases hd : Map.find s.ue_teidin_db rnti with
    | none => rw [rem_loop_none hd] at h; simp [Res.state?] at h
    | some arr =>
      cases hg : (arr lcid).getLast? with
      | none =>
        rw [rem_loop_nil hd hg] at h ⊢
        simp only [Res.state?, Option.some.injEq] at h; rw [h]
      | some b => rw [rem_loop_zero hd hg] at h; simp [Res.state?] at h
  | succ n ih =>
    cases hd : Map.find s.ue_teidin_db rnti with
    | none => rw [rem_loop_none hd] at h; simp [Res.state?] at h
    | some arr =>
      cases hg : (arr lcid).getLast? with
      | none =>
        rw [rem_loop_nil hd hg] at h ⊢
        simp only [Res.state?, Option.some.injEq] at h; rw [h]
      | some b =>
        rw [rem_loop_succ hd hg] at h ⊢
        rcases rem_tunnel_ok_or_ub nb s b with ⟨s1, h1⟩ | h1
        · rw [h1] at h ⊢
          simp only [Res.bind_ok] at h ⊢
          exact ih h
        · rw [h1] at h; simp [Res.state?] at h

theorem Consistent_rem_loop {nb fuel : Nat} {s s' : gtpu} {rnti lcid : Nat}
    (hc : Consistent nb s) (h : (rem_loop nb fuel s rnti lcid).state? = some s') :
    Consistent nb s' := by
  induction fuel generalizing s with
  | zero =>
    cases hd : Map.find s.ue_teidin_db rnti with
    | none => rw [rem_loop_none hd] at h; simp [Res.state?] at h
    | some arr =>
      cases hg : (arr lcid).getLast? with
      | none =>
        rw [rem_loop_nil hd hg] at h
        simp only [Res.state?, Option.some.injEq] at h; rw [← h]; exact hc
      | some b => rw [rem_loop_zero hd hg] at h; simp [Res.state?] at h
  | succ n ih =>
    cases hd : Map.find s.ue_teidin_db rnti with
    | none => rw [rem_loop_none hd] at h; simp [Res.state?] at h
    | some arr =>
      cases hg : (arr lcid).getLast? with
      | none =>
        rw [rem_loop_nil hd hg] at h
        simp only [Res.state?, Option.some.injEq] at h; rw [← h]; exact hc
      | some b =>
        rw [rem_loop_succ hd hg] at h
        rcases rem_tunnel_ok_or_ub nb s b with ⟨s1, h1⟩ | h1
        · rw [h1] at h
          simp only [Res.bind_ok] at h
          exact ih (Consistent_rem_tunnel hc (by rw [h1]; rfl)) h
        · rw [h1] at h; simp [Res.state?] at h

theorem all_empty_iff (nb : Nat) (arr : Nat → List Nat) :
    (List.range nb).all (fun l => (arr l).isEmpty) = true ↔ ∀ l, l < nb → arr l = [] := by
  simp only [List.all_eq_true, List.mem_range, List.isEmpty_iff]

theorem Consistent_erase_user {nb : Nat} {s : gtpu} {rnti : Nat} {arr : Nat → List Nat}
    (hc : Consistent nb s) (hd : Map.find s.ue_teidin_db rnti = some arr)
    (he : ∀ l, l < nb → arr l = []) :
    Consistent nb { s with ue_teidin_db := Map.erase s.ue_teidin_db rnti } := by
  obtain ⟨ha, hb⟩ := hc
  refine ⟨?_, ?_⟩
  · intro t rec hrec
    obtain ⟨hl, ⟨arr', harr', hcnt⟩, ho⟩ := ha t rec hrec
    have hne : rec.rnti ≠ rnti := by
      intro e
      rw [e, hd] at harr'
      simp only [Option.some.injEq] at harr'
      subst harr'
      rw [he _ hl] at hcnt
      simp at hcnt
    refine ⟨hl, ⟨arr', ?_, hcnt⟩, ?_⟩
    · dsimp only
      rw [Map.find_erase]
      simp only [hne, if_false]
      exact harr'
    · intro r arr2 l hr
      dsimp only at hr
      rw [Map.find_erase] at hr
      by_cases hrr : r = rnti
      · simp [hrr] at hr
      · simp only [hrr, if_false] at hr
        exact ho r arr2 l hr
  · intro r arr2 l hr
    dsimp only at hr
    rw [Map.find_erase] at hr
    by_cases hrr : r = rnti
    · simp [hrr] at hr
    · simp only [hrr, if_false] at hr
      exact hb r arr2 l hr

theorem Consistent_rem_bearer {nb : Nat} {s s' : gtpu} {rnti lcid : Nat}
    (hc : Consistent nb s) (h : (rem_bearer nb s rnti lcid).state? = some s') :
    Consistent nb s' := by
  unfold rem_bearer at h
  cases hd : Map.find s.ue_teidin_db rnti with
  | none =>
    rw [hd] at h
    simp only [Res.state?, Option.some.injEq] at h
    rw [← h]; exact hc
  | some arr =>
    rw [hd] at h
    dsimp only at h
    by_cases hl : lcid < nb
    · simp only [hl, if_true] at h
      cases hr : rem_loop nb (bearer_len s rnti lcid) s rnti lcid with
      | ok s1 v =>
        rw [hr] at h
        simp only [Res.bind_ok] at h
        have hc1 : Consistent nb s1 := Consistent_rem_loop hc (by rw [hr]; rfl)
        cases hd1 : Map.find s1.ue_teidin_db rnti with
        | none => rw [hd1] at h; simp [Res.state?] at h
        | some arr1 =>
          rw [hd1] at h
          dsimp only at h
          by_cases hall : (List.range nb).all (fun l => (arr1 l).isEmpty) = true
          · simp only [hall, if_true, Res.state?, Option.some.injEq] at h
            rw [← h]
            exact Consistent_erase_user hc1 hd1 ((all_empty_iff nb arr1).mp hall)
          · simp only [hall, Bool.false_eq_true, if_false, Res.state?, Option.some.injEq] at h
            rw [← h]; exact hc1
      | thrown s1 =>
        have hst : (rem_loop nb (bearer_len s rnti lcid) s rnti lcid).state? = some s1 := by
          rw [hr]; rfl
        have := rem_loop_state_ok hst
        rw [hr] at this; cases this
      | ub => rw [hr] at h; simp [Res.state?] at h
      | loops => rw [hr] at h; simp [Res.state?] at h
    · simp [hl, Res.state?] at h

theorem Consistent_rem_user_loop {nb : Nat} {ls : List Nat} {s s' : gtpu} {rnti : Nat}
    (hc : Consistent nb s) (h : (rem_user_loop nb ls s rnti).state? = some s') :
    Consistent nb s' := by
  induction ls generalizing s with
  | nil =>
    simp only [rem_user_loop, Res.state?, Option.some.injEq] at h
    rw [← h]; exact hc
  | cons l ls ih =>
    simp only [rem_user_loop] at h
    cases hr : rem_loop nb (bearer_len s rnti l) s rnti l with
    | ok s1 v =>
      rw [hr] at h
      simp only [Res.bind_ok] at h
      exact ih (Consistent_rem_loop hc (by rw [hr]; rfl)) h
    | thrown s1 =>
      have hst : (rem_loop nb (bearer_len s rnti l) s rnti l).state? = some s1 := by
        rw [hr]; rfl
      have := rem_loop_state_ok hst
      rw [hr] at this; cases this
    | ub => rw [hr] at h; simp [Res.state?] at h
    | loops => rw [hr] at h; simp [Res.state?] at h

theorem Consistent_rem_user {nb : Nat} {s s' : gtpu} {rnti : Nat}
    (hc : Consistent nb s) (h : (rem_user nb s rnti).state? = some s') :
    Consistent nb s' := by
  unfold rem_user at h
  cases hd : Map.find s.ue_teidin_db rnti with
  | none =>
    rw [hd] at h
    simp only [Res.state?, Option.some.injEq] at h
    rw [← h]; exact hc
  | some arr =>
    rw [hd] at h
    exact Consistent_rem_user_loop hc h

/-! ## Allocation -/

theorem SameIndex_refl (s : gtpu) : SameIndex s s := ⟨fun _ => rfl, fun _ => rfl⟩

theorem SameIndex_trans {s1 s2 s3 : gtpu} (h1 : SameIndex s1 s2) (h2 : SameIndex s2 s3) :
    SameIndex s1 s3 :=
  ⟨fun t => (h2.1 t).trans (h1.1 t), fun r => (h2.2 r).trans (h1.2 r)⟩

theorem Consistent_of_SameIndex {nb : Nat} {s s' : gtpu} (h : SameIndex s s')
    (hc : Consistent nb s) : Consistent nb s' :=
  Consistent_congr h.1 h.2 hc

/-- Rewriting one record without moving it keeps the index. -/
theorem SameIndex_set {s : gtpu} {k : Nat} {rec : tunnel} (rec' : tunnel)
    (hf : Map.find s.tunnels k = some rec) (hl : loc rec' = loc rec) :
    SameIndex s { s with tunnels := Map.set s.tunnels k rec' } := by
  refine ⟨?_, fun _ => rfl⟩
  intro t
  dsimp only
  rw [Map.find_set]
  by_cases ht : t = k
  · subst ht; simp [hf, hl]
  · simp [ht]

theorem add_bearer_flush_inv {s s4 : gtpu} {p : bearer_props} {n : Nat}
    (h : (add_bearer_flush s p n).state? = some s4) :
    SameIndex s s4 ∧ s4.next_teid_in = s.next_teid_in ∧ s4.tx_seq = s.tx_seq ∧ s4.log = s.log := by
  unfold add_bearer_flush at h
  by_cases hp : p.flush_before_teidin_present = true
  · simp only [hp, if_true] at h
    cases hf : Map.find s.tunnels p.flush_before_teidin with
    | none =>
      rw [hf] at h
      simp only [Res.state?, Option.some.injEq] at h
      subst h
      exact ⟨SameIndex_refl _, rfl, rfl, rfl⟩
    | some after_tun =>
      rw [hf] at h
      simp only [Res.state?, Option.some.injEq] at h
      subst h
      exact ⟨SameIndex_set _ hf rfl, rfl, rfl, rfl⟩
  · simp only [hp, Bool.false_eq_true, if_false, Res.state?, Option.some.injEq] at h
    subst h
    exact ⟨SameIndex_refl _, rfl, rfl, rfl⟩

theorem create_dl_fwd_tunnel_inv (env : Env) (s : gtpu) (rx tx : Nat) :
    ∃ s5 rc, create_dl_fwd_tunnel env s rx tx = .ok s5 rc ∧ SameIndex s s5 ∧
      s5.next_teid_in = s.next_teid_in ∧ s5.tx_seq = s.tx_seq ∧
      (rc ≠ SRSLTE_SUCCESS → s5 = s ∧
        (Map.find s.tunnels rx = none ∨ Map.find s.tunnels tx = none)) := by
  unfold create_dl_fwd_tunnel
  cases hrx : Map.find s.tunnels rx with
  | none =>
    refine ⟨s, SRSLTE_ERROR, rfl, SameIndex_refl _, rfl, rfl, fun _ => ⟨rfl, Or.inl rfl⟩⟩
  | some rx_tun =>
    cases htx : Map.find s.tunnels tx with
    | none =>
      refine ⟨s, SRSLTE_ERROR, rfl, SameIndex_refl _, rfl, rfl, fun _ => ⟨rfl, Or.inr rfl⟩⟩
    | some tx_tun =>
      have hfr := send_all_frame env rx_tun.rnti rx_tun.lcid tx_tun.teid_out
        tx_tun.spgw_addr (env.get_buffered_pdus rx_tun.rnti rx_tun.lcid)
      refine ⟨_, SRSLTE_SUCCESS, rfl, ?_, (hfr _).2.2.1, (hfr _).2.2.2, fun h => absurd rfl h⟩
      refine ⟨fun t => ?_, fun r => ?_⟩
      · rw [(hfr _).1]
        exact (SameIndex_set { rx_tun with fwd_teid_in_present := true, fwd_teid_in := tx }
          hrx rfl).1 t
      · rw [(hfr _).2.1]

theorem add_bearer_alloc_tunnels (s : gtpu) (rnti lcid addr teid_out k : Nat) :
    Map.find (add_bearer_alloc s rnti lcid addr teid_out).tunnels k =
      if k = (s.next_teid_in + 1) % 2 ^ 32 then
        some { (Map.find s.tunnels ((s.next_teid_in + 1) % 2 ^ 32)).getD {} with
               teid_in := (s.next_teid_in + 1) % 2 ^ 32, rnti := rnti, lcid := lcid,
               spgw_addr := addr, teid_out := teid_out }
      else Map.find s.tunnels k := by
  unfold add_bearer_alloc
  dsimp only
  rw [Map.find_set]

theorem add_bearer_alloc_db (s : gtpu) (rnti lcid addr teid_out r : Nat) :
    Map.find (add_bearer_alloc s rnti lcid addr teid_out).ue_teidin_db r =
      if r = rnti then
        some (upd ((Map.find s.ue_teidin_db rnti).getD (fun _ => [])) lcid
          (((Map.find s.ue_teidin_db rnti).getD (fun _ => [])) lcid ++
            [(s.next_teid_in + 1) % 2 ^ 32]))
      else Map.find s.ue_teidin_db r := by
  unfold add_bearer_alloc
  dsimp only
  rw [Map.find_set]

theorem add_bearer_alloc_next (s : gtpu) (rnti lcid addr teid_out : Nat) :
    (add_bearer_alloc s rnti lcid addr teid_out).next_teid_in = (s.next_teid_in + 1) % 2 ^ 32 := rfl

theorem add_bearer_alloc_rest (s : gtpu) (rnti lcid addr teid_out : Nat) :
    (add_bearer_alloc s rnti lcid addr teid_out).tx_seq = s.tx_seq ∧
    (add_bearer_alloc s rnti lcid addr teid_out).log = s.log := ⟨rfl, rfl⟩

theorem Consistent_alloc {nb : Nat} {s : gtpu} (rnti lcid addr teid_out : Nat)
    (hc : Consistent nb s) (hl : lcid < nb)
    (hfresh : Map.find s.tunnels ((s.next_teid_in + 1) % 2 ^ 32) = none) :
    Consistent nb (add_bearer_alloc s rnti lcid addr teid_out) := by
  obtain ⟨ha, hb⟩ := hc
  generalize hn : (s.next_teid_in + 1) % 2 ^ 32 = n at hfresh
  have ht := add_bearer_alloc_tunnels s rnti lcid addr teid_out
  have hd := add_bearer_alloc_db s rnti lcid addr teid_out
  rw [hn] at ht hd
  generalize harr : (Map.find s.ue_teidin_db rnti).getD (fun _ => []) = arr at hd
  -- facts about the array of `rnti` before the call
  have h1 : ∀ l, l < nb → ∀ t ∈ arr l, (Map.find s.tunnels t).isSome = true ∧
      ∀ rec, Map.find s.tunnels t = some rec → rnti = rec.rnti ∧ l = rec.lcid := by
    intro l hlt t hmem
    cases hfd : Map.find s.ue_teidin_db rnti with
    | none => rw [hfd] at harr; simp only [Option.getD_none] at harr; rw [← harr] at hmem; simp at hmem
    | some a0 =>
      rw [hfd] at harr; simp only [Option.getD_some] at harr; subst harr
      exact ⟨hb rnti a0 l hfd hlt t hmem, fun rec hrec => (ha t rec hrec).2.2 rnti a0 l hfd hlt hmem⟩
  have h2 : ∀ t rec, Map.find s.tunnels t = some rec → rec.rnti = rnti →
      (arr rec.lcid).count t = 1 := by
    intro t rec hrec hr
    obtain ⟨_, ⟨a0, ha0, hcnt⟩, _⟩ := ha t rec hrec
    rw [hr] at ha0
    rw [ha0] at harr; simp only [Option.getD_some] at harr; subst harr
    exact hcnt
  have hn_notin : ∀ l, l < nb → n ∉ arr l := by
    intro l hlt hmem
    have := (h1 l hlt n hmem).1
    rw [hfresh] at this; simp at this
  refine ⟨?_, ?_⟩
  · intro t rec hrec
    rw [ht] at hrec
    by_cases htn : t = n
    · subst htn
      simp only [if_true, Option.some.injEq] at hrec
      subst hrec
      dsimp only
      refine ⟨hl, ⟨upd arr lcid (arr lcid ++ [t]), by rw [hd]; simp, ?_⟩, ?_⟩
      · rw [upd_same, List.count_append, List.count_eq_zero_of_not_mem (hn_notin lcid hl)]
        simp
      · intro r arr2 l hr hlt hmem
        rw [hd] at hr
        by_cases hrr : r = rnti
        · simp only [hrr, if_true, Option.some.injEq] at hr
          subst hr
          refine ⟨hrr, ?_⟩
          by_contra hll
          rw [upd_other _ _ _ _ hll] at hmem
          exact hn_notin l hlt hmem
        · simp only [hrr, if_false] at hr
          have := hb r arr2 l hr hlt t hmem
          rw [hfresh] at this; simp at this
    · simp only [htn, if_false] at hrec
      obtain ⟨hl', ⟨arr', harr', hcnt⟩, ho⟩ := ha t rec hrec
      refine ⟨hl', ?_, ?_⟩
      · rw [hd]
        by_cases hrr : rec.rnti = rnti
        · simp only [hrr, if_true]
          refine ⟨_, rfl, ?_⟩
          have hc1 := h2 t rec hrec hrr
          by_cases hll : rec.lcid = lcid
          · rw [hll, upd_same, List.count_append]
            rw [hll] at hc1
            simp [hc1, htn]
          · rw [upd_other _ _ _ _ hll]; exact hc1
        · simp only [hrr, if_false]
          exact ⟨arr', harr', hcnt⟩
      · intro r arr2 l hr hlt hmem
        rw [hd] at hr
        by_cases hrr : r = rnti
        · simp only [hrr, if_true, Option.some.injEq] at hr
          subst hr
          have hmem2 : t ∈ arr l := by
            by_cases hll : l = lcid
            · rw [hll, upd_same] at hmem
              rcases List.mem_append.mp hmem with h | h
              · rw [hll]; exact h
              · simp at h; exact absurd h htn
            · rw [upd_other _ _ _ _ hll] at hmem; exact hmem
          have := (h1 l hlt t hmem2).2 rec hrec
          exact ⟨by rw [hrr]; exact this.1, this.2⟩
        · simp only [hrr, if_false] at hr
          exact ho r arr2 l hr hlt hmem
  · intro r arr2 l hr hlt t hmem
    rw [ht]
    by_cases htn : t = n
    · simp [htn]
    simp only [htn, if_false]
    rw [hd] at hr
    by_cases hrr : r = rnti
    · simp only [hrr, if_true, Option.some.injEq] at hr
      subst hr
      have hmem2 : t ∈ arr l := by
        by_cases hll : l = lcid
        · rw [hll, upd_same] at hmem
          rcases List.mem_append.mp hmem with h | h
          · rw [hll]; exact h
          · simp at h; exact absurd h htn
        · rw [upd_other _ _ _ _ hll] at hmem; exact hmem
      exact (h1 l hlt t hmem2).1
    · simp only [hrr, if_false] at hr
      exact hb r arr2 l hr hlt t hmem

theorem add_bearer_flush_keeps {s s4 : gtpu} {p : bearer_props} {n : Nat}
    (h : (add_bearer_flush s p n).state? = some s4) (k : Nat) (rec : tunnel)
    (hk : Map.find s.tunnels k = some rec) :
    ∃ rec', Map.find s4.tunnels k = some rec' ∧
      rec'.fwd_teid_in_present = rec.fwd_teid_in_present ∧ loc rec' = loc rec := by
  unfold add_bearer_flush at h
  by_cases hp : p.flush_before_teidin_present = true
  · simp only [hp, if_true] at h
    cases hf : Map.find s.tunnels p.flush_before_teidin with
    | none =>
      rw [hf] at h
      simp only [Res.state?, Option.some.injEq] at h
      subst h
      exact ⟨rec, hk, rfl, rfl⟩
    | some after_tun =>
      rw [hf] at h
      simp only [Res.state?, Option.some.injEq] at h
      subst h
      dsimp only
      rw [Map.find_set]
      by_cases hkk : k = p.flush_before_teidin
      · subst hkk
        rw [hf] at hk
        simp only [Option.some.injEq] at hk
        subst hk
        exact ⟨{ after_tun with prior_teid_in_present := true, prior_teid_in := n }, by simp, rfl, rfl⟩
      · simp only [hkk, if_false]
        exact ⟨rec, hk, rfl, rfl⟩
  · simp only [hp, Bool.false_eq_true, if_false, Res.state?, Option.some.injEq] at h
    subst h
    exact ⟨rec, hk, rfl, rfl⟩

theorem add_bearer_flush_ok_or_thrown (s : gtpu) (p : bearer_props) (n : Nat) :
    (∃ s4, add_bearer_flush s p n = .ok s4 ()) ∨ add_bearer_flush s p n = .thrown s := by
  unfold add_bearer_flush
  by_cases hp : p.flush_before_teidin_present = true
  · simp only [hp, if_true]
    cases Map.find s.tunnels p.flush_before_teidin with
    | none => exact Or.inr rfl
    | some after_tun => exact Or.inl ⟨_, rfl⟩
  · simp only [hp, Bool.false_eq_true, if_false]
    exact Or.inl ⟨_, rfl⟩

theorem Consistent_add_bearer {nb : Nat} {env : Env} {s s' : gtpu}
    {rnti lcid addr teid_out : Nat} {props : Option bearer_props}
    (hc : Consistent nb s)
    (hfresh : Map.find s.tunnels ((s.next_teid_in + 1) % 2 ^ 32) = none)
    (h : (add_bearer nb env s rnti lcid addr teid_out props).state? = some s') :
    Consistent nb s' := by
  unfold add_bearer at h
  by_cases hl : lcid < nb
  swap
  · simp [hl, Res.state?] at h
  simp only [hl, if_true] at h
  have hc3 := Consistent_alloc rnti lcid addr teid_out hc hl hfresh
  cases props with
  | none =>
    simp only [Res.state?, Option.some.injEq] at h
    rw [← h]; exact hc3
  | some p =>
    dsimp only at h
    rcases add_bearer_flush_ok_or_thrown (add_bearer_alloc s rnti lcid addr teid_out) p
      (add_bearer_alloc s rnti lcid addr teid_out).next_teid_in with ⟨s4, h4⟩ | h4
    · rw [h4] at h
      simp only [Res.bind_ok] at h
      have hc4 : Consistent nb s4 :=
        Consistent_of_SameIndex (add_bearer_flush_inv (by rw [h4]; rfl)).1 hc3
      by_cases hp : p.forward_from_teidin_present = true
      · simp only [hp, if_true] at h
        obtain ⟨s5, rc, h5, hs5, _⟩ := create_dl_fwd_tunnel_inv env s4 p.forward_from_teidin
          (add_bearer_alloc s rnti lcid addr teid_out).next_teid_in
        rw [h5] at h
        simp only [Res.bind_ok] at h
        have hc5 : Consistent nb s5 := Consistent_of_SameIndex hs5 hc4
        by_cases hrc : rc ≠ SRSLTE_SUCCESS
        · rw [if_pos hrc] at h
          rcases rem_tunnel_ok_or_ub nb s5
            (add_bearer_alloc s rnti lcid addr teid_out).next_teid_in with ⟨s6, h6⟩ | h6
          · rw [h6] at h
            simp only [Res.bind_ok, Res.state?, Option.some.injEq] at h
            rw [← h]
            exact Consistent_rem_tunnel hc5 (by rw [h6]; rfl)
          · rw [h6] at h; simp [Res.state?] at h
        · rw [if_neg hrc] at h
          simp only [Res.state?, Option.some.injEq] at h
          rw [← h]; exact hc5
      · simp only [hp, Bool.false_eq_true, if_false, Res.state?, Option.some.injEq] at h
        rw [← h]; exact hc4
    · rw [h4] at h
      simp only [Res.bind_thrown, Res.state?, Option.some.injEq] at h
      rw [← h]; exact hc3

theorem add_bearer_defined {nb : Nat} (env : Env) {s : gtpu}
    (rnti : Nat) {lcid : Nat} (addr teid_out : Nat) (props : Option bearer_props)
    (hl : lcid < nb)
    (hfresh : Map.find s.tunnels ((s.next_teid_in + 1) % 2 ^ 32) = none) :
    ∃ s', (add_bearer nb env s rnti lcid addr teid_out props).state? = some s' := by
  unfold add_bearer
  simp only [hl, if_true]
  cases props with
  | none => exact ⟨_, rfl⟩
  | some p =>
    dsimp only
    rcases add_bearer_flush_ok_or_thrown (add_bearer_alloc s rnti lcid addr teid_out) p
      (add_bearer_alloc s rnti lcid addr teid_out).next_teid_in with ⟨s4, h4⟩ | h4
    · rw [h4]
      simp only [Res.bind_ok]
      by_cases hp : p.forward_from_teidin_present = true
      · simp only [hp, if_true]
        obtain ⟨s5, rc, h5, _, _, _, hfail⟩ := create_dl_fwd_tunnel_inv env s4 p.forward_from_teidin
          (add_bearer_alloc s rnti lcid addr teid_out).next_teid_in
        rw [h5]
        simp only [Res.bind_ok]
        by_cases hrc : rc ≠ SRSLTE_SUCCESS
        · rw [if_pos hrc]
          obtain ⟨rfl, _⟩ := hfail hrc
          have h3 := add_bearer_alloc_tunnels s rnti lcid addr teid_out
            ((s.next_teid_in + 1) % 2 ^ 32)
          simp only [if_true, hfresh, Option.getD_none] at h3
          obtain ⟨rec', hrec', hfw, hloc⟩ :=
            add_bearer_flush_keeps (by rw [h4]; rfl) _ _ h3
          simp only [loc, Prod.mk.injEq] at hloc
          have hst4 : (add_bearer_flush (add_bearer_alloc s rnti lcid addr teid_out) p
              (add_bearer_alloc s rnti lcid addr teid_out).next_teid_in).state? = some s5 := by
            rw [h4]; rfl
          have hinv := (add_bearer_flush_inv hst4).1
          have hdb : ∃ a, Map.find s5.ue_teidin_db rec'.rnti = some a := by
            rw [hinv.2, hloc.1, add_bearer_alloc_db]
            simp only [if_true]
            exact ⟨_, rfl⟩
          obtain ⟨a, hdb⟩ := hdb
          obtain ⟨s6, h6⟩ := rem_tunnel_defined nb hrec'
            (by rw [hfw]; simp) hdb (by rw [hloc.2]; exact hl)
          rw [add_bearer_alloc_next, h6]
          exact ⟨_, rfl⟩
        · rw [if_neg hrc]
          exact ⟨_, rfl⟩
      · simp only [hp, Bool.false_eq_true, if_false]
        exact ⟨_, rfl⟩
    · rw [h4]
      exact ⟨_, rfl⟩

/-! ## Change of RNTI -/

theorem find_foldl_set_rnti (new_rnti : Nat) (ts : List Nat) (m : Map tunnel) (k : Nat) :
    Map.find (ts.foldl (set_rnti new_rnti) m) k =
      if k ∈ ts then some { (Map.find m k).getD {} with rnti := new_rnti } else Map.find m k := by
  induction ts generalizing m with
  | nil => simp
  | cons a ts ih =>
    simp only [List.foldl_cons]
    rw [ih]
    unfold set_rnti
    rw [Map.find_set]
    by_cases hka : k = a
    · subst hka
      by_cases hk : k ∈ ts
      · simp [hk]
      · simp [hk]
    · by_cases hk : k ∈ ts
      · simp [hk, hka]
      · simp [hk, hka]

theorem mem_all_teids (nb : Nat) (arr : Nat → List Nat) (k : Nat) :
    k ∈ (List.range nb).flatMap arr ↔ ∃ l, l < nb ∧ k ∈ arr l := by
  simp [List.mem_flatMap]

/-- What `mod_bearer_rnti` does from a consistent state when it goes ahead. -/
theorem mod_bearer_rnti_spec {nb : Nat} {s : gtpu} {old_rnti new_rnti : Nat}
    {arr : Nat → List Nat} (hc : Consistent nb s)
    (hold : Map.find s.ue_teidin_db old_rnti = some arr)
    (hnew : Map.find s.ue_teidin_db new_rnti = none) :
    ∃ s', mod_bearer_rnti nb s old_rnti new_rnti = .ok s' () ∧
      (∀ r, Map.find s'.ue_teidin_db r =
        if r = old_rnti then none else if r = new_rnti then some arr
        else Map.find s.ue_teidin_db r) ∧
      (∀ k, Map.find s'.tunnels k =
        (Map.find s.tunnels k).map
          (fun rec => if rec.rnti = old_rnti then { rec with rnti := new_rnti } else rec)) ∧
      s'.next_teid_in = s.next_teid_in ∧ s'.tx_seq = s.tx_seq ∧ s'.log = s.log := by
  obtain ⟨ha, hb⟩ := hc
  unfold mod_bearer_rnti
  simp only [hnew, Option.isSome_none, Bool.false_eq_true, if_false, hold]
  refine ⟨_, rfl, ?_, ?_, rfl, rfl, rfl⟩
  · intro r
    dsimp only
    rw [Map.find_erase, Map.find_set]
  · intro k
    dsimp only
    rw [find_foldl_set_rnti]
    by_cases hk : k ∈ (List.range nb).flatMap arr
    · obtain ⟨l, hl, hmem⟩ := (mem_all_teids nb arr k).mp hk
      simp only [hk, if_true]
      have hreg := hb old_rnti arr l hold hl k hmem
      cases hf : Map.find s.tunnels k with
      | none => rw [hf] at hreg; simp at hreg
      | some rec =>
        have := ((ha k rec hf).2.2 old_rnti arr l hold hl hmem).1
        simp [this]
    · simp only [hk, if_false]
      cases hf : Map.find s.tunnels k with
      | none => rfl
      | some rec =>
        have hne : rec.rnti ≠ old_rnti := by
          intro e
          obtain ⟨hl, ⟨arr', harr', hcnt⟩, _⟩ := ha k rec hf
          rw [e, hold] at harr'
          simp only [Option.some.injEq] at harr'
          subst harr'
          apply hk
          rw [mem_all_teids]
          refine ⟨rec.lcid, hl, ?_⟩
          exact List.count_pos_iff.mp (by omega)
        simp [hne]

theorem mod_bearer_rnti_ok (nb : Nat) (s : gtpu) (old_rnti new_rnti : Nat) :
    ∃ s', mod_bearer_rnti nb s old_rnti new_rnti = .ok s' () := by
  unfold mod_bearer_rnti
  split
  · exact ⟨_, rfl⟩
  · split <;> exact ⟨_, rfl⟩

theorem Consistent_mod_bearer_rnti {nb : Nat} {s s' : gtpu} {old_rnti new_rnti : Nat}
    (hc : Consistent nb s) (h : mod_bearer_rnti nb s old_rnti new_rnti = .ok s' ()) :
    Consistent nb s' := by
  cases hnew : Map.find s.ue_teidin_db new_rnti with
  | some a =>
    unfold mod_bearer_rnti at h
    simp only [hnew, Option.isSome_some, if_true, Res.ok.injEq, and_true] at h
    rw [← h]; exact hc
  | none =>
    cases hold : Map.find s.ue_teidin_db old_rnti with
    | none =>
      unfold mod_bearer_rnti at h
      simp only [hnew, Option.isSome_none, Bool.false_eq_true, if_false, hold, Res.ok.injEq,
        and_true] at h
      rw [← h]; exact hc
    | some arr =>
      obtain ⟨s2, h2, hdb, htun, _⟩ := mod_bearer_rnti_spec hc hold hnew
      rw [h2] at h
      simp only [Res.ok.injEq, and_true] at h
      subst h
      have hne : new_rnti ≠ old_rnti := by
        intro e; rw [e, hold] at hnew; cases hnew
      obtain ⟨ha, hb⟩ := hc
      refine ⟨?_, ?_⟩
      · intro t rec' hrec'
        rw [htun] at hrec'
        cases hf : Map.find s.tunnels t with
        | none => rw [hf] at hrec'; simp at hrec'
        | some rec =>
          rw [hf] at hrec'
          simp only [Option.map_some', Option.some.injEq] at hrec'
          obtain ⟨hl, ⟨arr', harr', hcnt⟩, ho⟩ := ha t rec hf
          by_cases hr : rec.rnti = old_rnti
          · simp only [hr, if_true] at hrec'
            subst hrec'
            dsimp only
            rw [hr, hold] at harr'
            simp only [Option.some.injEq] at harr'
            subst harr'
            refine ⟨hl, ⟨arr, ?_, hcnt⟩, ?_⟩
            · rw [hdb]; simp [hne]
            · intro r arr2 l hr2 hlt hmem
              rw [hdb] at hr2
              by_cases hro : r = old_rnti
              · simp [hro] at hr2
              simp only [hro, if_false] at hr2
              by_cases hrn : r = new_rnti
              · simp only [hrn, if_true, Option.some.injEq] at hr2
                subst hr2
                exact ⟨hrn, (ho old_rnti arr l hold hlt hmem).2⟩
              · simp only [hrn, if_false] at hr2
                have := (ho r arr2 l hr2 hlt hmem).1
                exact absurd (this.trans hr) hro
          · simp only [hr, if_false] at hrec'
            subst hrec'
            have hrn : rec.rnti ≠ new_rnti := by
              intro e; rw [e, hnew] at harr'; cases harr'
            refine ⟨hl, ⟨arr', ?_, hcnt⟩, ?_⟩
            · rw [hdb]; simp only [hr, hrn, if_false]; exact harr'
            · intro r arr2 l hr2 hlt hmem
              rw [hdb] at hr2
              by_cases hro : r = old_rnti
              · simp [hro] at hr2
              simp only [hro, if_false] at hr2
              by_cases hrn2 : r = new_rnti
              · simp only [hrn2, if_true, Option.some.injEq] at hr2
                subst hr2
                exact absurd (ho old_rnti arr l hold hlt hmem).1.symm hr
              · simp only [hrn2, if_false] at hr2
                exact ho r arr2 l hr2 hlt hmem
      · intro r arr2 l hr2 hlt t hmem
        rw [htun]
        rw [hdb] at hr2
        have : (Map.find s.tunnels t).isSome = true := by
          by_cases hro : r = old_rnti
          · simp [hro] at hr2
          simp only [hro, if_false] at hr2
          by_cases hrn2 : r = new_rnti
          · simp only [hrn2, if_true, Option.some.injEq] at hr2
            subst hr2
            exact hb old_rnti arr l hold hlt t hmem
          · simp only [hrn2, if_false] at hr2
            exact hb r arr2 l hr2 hlt t hmem
        cases hf : Map.find s.tunnels t with
        | none => rw [hf] at this; simp at this
        | some rec => simp

/-! ## Removal loops run to completion -/

theorem FwdOut_rem_tunnel {nb : Nat} {s s' : gtpu} {b : Nat} {recb : tunnel} {R : tunnel → Prop}
    (hfo : FwdOut s R) (hfb : Map.find s.tunnels b = some recb) (hR : R recb)
    (h : (rem_tunnel nb s b).state? = some s') : FwdOut s' R := by
  rcases rem_tunnel_inv h with ⟨hnone, _⟩ | ⟨tun, arr, _, _, _, _, ht, _⟩
  · rw [hfb] at hnone; cases hnone
  intro t rec hrec hRrec hfw
  rw [ht] at hrec
  by_cases htb : t = b
  · simp [htb] at hrec
  simp only [htb, if_false] at hrec
  obtain ⟨tgt, htgt, hor⟩ := hfo t rec hrec hRrec hfw
  refine ⟨tgt, ?_, hor⟩
  rw [ht]
  have : rec.fwd_teid_in ≠ b := by
    intro e
    rcases hor with h1 | h1
    · exact htb (h1.symm.trans e)
    · rw [e, hfb] at htgt
      simp only [Option.some.injEq] at htgt
      rw [← htgt] at h1
      exact h1 hR
  simp only [this, if_false]
  exact htgt

theorem bearer_list_eq {s : gtpu} {rnti lcid : Nat} {arr : Nat → List Nat}
    (hd : Map.find s.ue_teidin_db rnti = some arr) : bearer_list s rnti lcid = arr lcid := by
  unfold bearer_list; rw [hd]

theorem rem_loop_defined {nb : Nat} (rnti lcid : Nat) (R : tunnel → Prop)
    (hR : ∀ rec : tunnel, loc rec = (rnti, lcid) → R rec) (hl : lcid < nb) :
    ∀ (fuel : Nat) (s : gtpu), Consistent nb s → FwdOut s R →
      (Map.find s.ue_teidin_db rnti).isSome = true → bearer_len s rnti lcid ≤ fuel →
      ∃ s', rem_loop nb fuel s rnti lcid = .ok s' () ∧ FwdOut s' R ∧
        (Map.find s'.ue_teidin_db rnti).isSome = true ∧ bearer_list s' rnti lcid = [] := by
  intro fuel
  induction fuel with
  | zero =>
    intro s hc hfo hsome hlen
    cases hd : Map.find s.ue_teidin_db rnti with
    | none => rw [hd] at hsome; simp at hsome
    | some arr =>
      have hnil : arr lcid = [] := by
        unfold bearer_len at hlen
        rw [bearer_list_eq hd] at hlen
        exact List.length_eq_zero.mp (by omega)
      refine ⟨s, rem_loop_nil hd (by rw [hnil]; rfl), hfo, hsome, ?_⟩
      rw [bearer_list_eq hd]; exact hnil
  | succ n ih =>
    intro s hc hfo hsome hlen
    cases hd : Map.find s.ue_teidin_db rnti with
    | none => rw [hd] at hsome; simp at hsome
    | some arr =>
      cases hg : (arr lcid).getLast? with
      | none =>
        refine ⟨s, rem_loop_nil hd hg, hfo, hsome, ?_⟩
        rw [bearer_list_eq hd]
        exact List.getLast?_eq_none_iff.mp hg
      | some b =>
        rw [rem_loop_succ hd hg]
        have hmem : b ∈ arr lcid := List.mem_of_getLast?_eq_some hg
        have hreg := hc.2 rnti arr lcid hd hl b hmem
        cases hfb : Map.find s.tunnels b with
        | none => rw [hfb] at hreg; simp at hreg
        | some recb =>
          obtain ⟨hr1, hr2⟩ := (hc.1 b recb hfb).2.2 rnti arr lcid hd hl hmem
          have hRb : R recb := hR recb (by simp [loc, ← hr1, ← hr2])
          have hd' : Map.find s.ue_teidin_db recb.rnti = some arr := by rw [← hr1]; exact hd
          obtain ⟨s1, h1⟩ := rem_tunnel_defined nb hfb
            (fun hfw => by
              obtain ⟨tgt, htgt, _⟩ := hfo b recb hfb hRb hfw
              rw [htgt]; rfl)
            hd' (by rw [← hr2]; exact hl)
          have hst : (rem_tunnel nb s b).state? = some s1 := by rw [h1]; rfl
          rw [h1]
          simp only [Res.bind_ok]
          have hc1 := Consistent_rem_tunnel hc hst
          have hfo1 := FwdOut_rem_tunnel hfo hfb hRb hst
          rcases rem_tunnel_inv hst with ⟨hnone, _⟩ | ⟨tun, arr2, hf2, hd2, _, _, _, hdb, _⟩
          · rw [hfb] at hnone; cases hnone
          rw [hfb] at hf2
          simp only [Option.some.injEq] at hf2
          subst hf2
          rw [hd'] at hd2
          simp only [Option.some.injEq] at hd2
          subst hd2
          have hd1 : Map.find s1.ue_teidin_db rnti =
              some (upd arr recb.lcid ((arr recb.lcid).filter (fun x => decide (x ≠ b)))) := by
            rw [hdb, Map.find_set, hr1]; simp
          apply ih s1 hc1 hfo1 (by rw [hd1]; rfl)
          unfold bearer_len at hlen ⊢
          rw [bearer_list_eq hd1, hr2, upd_same]
          rw [bearer_list_eq hd] at hlen
          have := length_filter_ne_lt (arr lcid) b hmem
          rw [hr2] at this hlen
          simp only [ne_eq] at this ⊢
          omega

theorem rem_bearer_defined {nb : Nat} {s : gtpu} {rnti lcid : Nat} (hc : Consistent nb s)
    (hl : lcid < nb) (hfo : FwdOut s (fun rec => loc rec = (rnti, lcid))) :
    ∃ s', rem_bearer nb s rnti lcid = .ok s' () := by
  unfold rem_bearer
  cases hd : Map.find s.ue_teidin_db rnti with
  | none => exact ⟨s, rfl⟩
  | some arr =>
    simp only [hl, if_true]
    obtain ⟨s1, h1, _, hsome, _⟩ :=
      rem_loop_defined rnti lcid (fun rec => loc rec = (rnti, lcid)) (fun _ h => h) hl
        (bearer_len s rnti lcid) s hc hfo (by rw [hd]; rfl) (Nat.le_refl _)
    rw [h1]
    simp only [Res.bind_ok]
    cases hd1 : Map.find s1.ue_teidin_db rnti with
    | none => rw [hd1] at hsome; simp at hsome
    | some arr1 =>
      dsimp only
      split <;> exact ⟨_, rfl⟩

theorem rem_user_loop_defined {nb : Nat} {rnti : Nat} :
    ∀ (ls : List Nat) (s : gtpu), (∀ l ∈ ls, l < nb) → Consistent nb s →
      FwdOut s (fun rec => rec.rnti = rnti) →
      (Map.find s.ue_teidin_db rnti).isSome = true →
      ∃ s', rem_user_loop nb ls s rnti = .ok s' () := by
  intro ls
  induction ls with
  | nil => intro s _ _ _ _; exact ⟨s, rfl⟩
  | cons l ls ih =>
    intro s hls hc hfo hsome
    have hl : l < nb := hls l (List.mem_cons_self _ _)
    obtain ⟨s1, h1, hfo1, hsome1, _⟩ :=
      rem_loop_defined rnti l (fun rec => rec.rnti = rnti)
        (fun rec h => by simp only [loc, Prod.mk.injEq] at h; exact h.1) hl
        (bearer_len s rnti l) s hc hfo hsome (Nat.le_refl _)
    simp only [rem_user_loop]
    rw [h1]
    simp only [Res.bind_ok]
    exact ih s1 (fun x hx => hls x (List.mem_cons_of_mem _ hx))
      (Consistent_rem_loop hc (by rw [h1]; rfl)) hfo1 hsome1

theorem rem_user_defined {nb : Nat} {s : gtpu} {rnti : Nat} (hc : Consistent nb s)
    (hfo : FwdOut s (fun rec => rec.rnti = rnti)) :
    ∃ s', rem_user nb s rnti = .ok s' () := by
  unfold rem_user
  cases hd : Map.find s.ue_teidin_db rnti with
  | none => exact ⟨s, rfl⟩
  | some arr =>
    exact rem_user_loop_defined (List.range nb) s (fun l hl => List.mem_range.mp hl) hc hfo
      (by rw [hd]; rfl)

theorem rem_tunnel_defined_of_consistent {nb : Nat} {s : gtpu} (hc : Consistent nb s) (t : Nat)
    (hfw : ∀ rec, Map.find s.tunnels t = some rec → rec.fwd_teid_in_present = true →
      (Map.find s.tunnels rec.fwd_teid_in).isSome = true) :
    ∃ s', rem_tunnel nb s t = .ok s' () := by
  cases hf : Map.find s.tunnels t with
  | none => exact ⟨s, by unfold rem_tunnel; rw [hf]⟩
  | some rec =>
    obtain ⟨hl, ⟨arr, harr, _⟩, _⟩ := hc.1 t rec hf
    exact rem_tunnel_defined nb hf (hfw rec hf) harr hl

/-! ## C1: registry/index consistency is preserved -/

/-- C1.  From a state in which every key of `tunnels` occurs exactly once in
the bearer list of its record and in no other list, and every TEID of a
bearer list is a key of `tunnels`, each control-plane operation leads to such
a state again: `add_bearer` (array index in range, counter not wrapping, next
TEID not live) and `mod_bearer_rnti` always leave a state and it is
consistent; `rem_tunnel`, `rem_bearer` and `rem_user` leave a consistent
state whenever they leave one, and they do leave one when the forwarding
targets read by `end_marker` are keys of `tunnels` at the time they are
read. -/
theorem C1_consistency_preserved (nb : Nat) (s : gtpu) (h : Consistent nb s) :
    (∀ (env : Env) (rnti lcid addr teid_out : Nat) (props : Option bearer_props),
      lcid < nb → s.next_teid_in + 1 < 2 ^ 32 →
      Map.find s.tunnels (s.next_teid_in + 1) = none →
      ∃ s', (add_bearer nb env s rnti lcid addr teid_out props).state? = some s' ∧
        Consistent nb s') ∧
    (∀ old_rnti new_rnti,
      ∃ s', mod_bearer_rnti nb s old_rnti new_rnti = .ok s' () ∧ Consistent nb s') ∧
    (∀ t s', (rem_tunnel nb s t).state? = some s' → Consistent nb s') ∧
    (∀ rnti lcid s', lcid < nb → (rem_bearer nb s rnti lcid).state? = some s' →
      Consistent nb s') ∧
    (∀ rnti s', (rem_user nb s rnti).state? = some s' → Consistent nb s') ∧
    (∀ t, (∀ rec, Map.find s.tunnels t = some rec → rec.fwd_teid_in_present = true →
        (Map.find s.tunnels rec.fwd_teid_in).isSome = true) →
      ∃ s', rem_tunnel nb s t = .ok s' () ∧ Consistent nb s') ∧
    (∀ rnti lcid, lcid < nb → FwdOut s (fun rec => loc rec = (rnti, lcid)) →
      ∃ s', rem_bearer nb s rnti lcid = .ok s' () ∧ Consistent nb s') ∧
    (∀ rnti, FwdOut s (fun rec => rec.rnti = rnti) →
      ∃ s', rem_user nb s rnti = .ok s' () ∧ Consistent nb s') := by
  refine ⟨?_, ?_, ?_, ?_, ?_, ?_, ?_, ?_⟩
  · intro env rnti lcid addr teid_out props hl hw hfresh
    have hmod : (s.next_teid_in + 1) % 2 ^ 32 = s.next_teid_in + 1 := Nat.mod_eq_of_lt hw
    have hfresh' : Map.find s.tunnels ((s.next_teid_in + 1) % 2 ^ 32) = none := by
      rw [hmod]; exact hfresh
    obtain ⟨s', hs'⟩ := add_bearer_defined env rnti addr teid_out props hl hfresh'
    exact ⟨s', hs', Consistent_add_bearer h hfresh' hs'⟩
  · intro old_rnti new_rnti
    obtain ⟨s', hs'⟩ := mod_bearer_rnti_ok nb s old_rnti new_rnti
    exact ⟨s', hs', Consistent_mod_bearer_rnti h hs'⟩
  · intro t s' hs'
    exact Consistent_rem_tunnel h hs'
  · intro rnti lcid s' _ hs'
    exact Consistent_rem_bearer h hs'
  · intro rnti s' hs'
    exact Consistent_rem_user h hs'
  · intro t hfw
    obtain ⟨s', hs'⟩ := rem_tunnel_defined_of_consistent h t hfw
    exact ⟨s', hs', Consistent_rem_tunnel h (by rw [hs']; rfl)⟩
  · intro rnti lcid hl hfo
    obtain ⟨s', hs'⟩ := rem_bearer_defined h hl hfo
    exact ⟨s', hs', Consistent_rem_bearer h (by rw [hs']; rfl)⟩
  · intro rnti hfo
    obtain ⟨s', hs'⟩ := rem_user_defined h hfo
    exact ⟨s', hs', Consistent_rem_user h (by rw [hs']; rfl)⟩

/-- C1 at the example state `ex_fwd` with eleven bearers per user: the state
is consistent, and so are the states after an allocation and after removing
tunnel 1, whose forwarding target 2 is registered. -/
theorem C1_consistency_preserved_witness :
    Consistent 11 ex_fwd ∧
    (∃ s', (add_bearer 11 env_quiet ex_fwd 0x47 4 12 22 none).state? = some s' ∧
      Consistent 11 s') ∧
    (∃ s', rem_tunnel 11 ex_fwd 1 = .ok s' () ∧ Consistent 11 s') :=
  ⟨Consistent_of_check 11 ex_fwd (by decide),
   (C1_consistency_preserved 11 ex_fwd (Consistent_of_check 11 ex_fwd (by decide))).1
     env_quiet 0x47 4 12 22 none (by decide) (by decide) (by decide),
   (C1_consistency_preserved 11 ex_fwd (Consistent_of_check 11 ex_fwd (by decide))).2.2.2.2.2.1
     1 (by decide)⟩

/-! ## C2: forwarding and flush references -/

/-- C2, the code at a failing run.  Allocate tunnel 1, allocate tunnel 2 with
forwarding from tunnel 1, remove tunnel 2: tunnel 1 is left with `forward_to`
naming TEID 2, which is no longer a key of the registry.  Removing tunnel 1
next, or removing the user right after the two allocations, makes `end_marker`
dereference `tunnels.find(2)` at `end()`.  With a flush request and a failed
forwarding request in one call, the rolled-back TEID 2 stays in tunnel 1 as
`flush_after`. -/
theorem C2_references_dangle :
    (run_calls 11
        [.add_bearer env_quiet 0x46 3 10 20 none,
         .add_bearer env_quiet 0x46 3 11 21 (some (props_forward_from 1)),
         .rem_tunnel 2] gtpu_initial).map
      (fun s => (forward_to s 1, registered s 2)) = some (some 2, false) ∧
    (run_calls 11
        [.add_bearer env_quiet 0x46 3 10 20 none,
         .add_bearer env_quiet 0x46 3 11 21 (some (props_forward_from 1)),
         .rem_tunnel 2, .rem_tunnel 1] gtpu_initial).isNone = true ∧
    (run_calls 11
        [.add_bearer env_quiet 0x46 3 10 20 none,
         .add_bearer env_quiet 0x46 3 11 21 (some (props_forward_from 1)),
         .rem_user 0x46] gtpu_initial).isNone = true ∧
    (run_calls 11
        [.add_bearer env_quiet 0x46 3 10 20 none,
         .add_bearer env_quiet 0x46 3 11 21
           (some { flush_before_teidin_present := true, flush_before_teidin := 1,
                   forward_from_teidin_present := true, forward_from_teidin := 9 })] gtpu_initial).map
      (fun s => (flush_after s 1, registered s 2)) = some (some 2, false) := by
  decide

/-! ## C3: tunnels in flushing state -/

theorem FlushFrom_refl (s : gtpu) : FlushFrom s s none :=
  fun _ rec1 h hf => Or.inl ⟨rec1, h, hf⟩

theorem FlushFrom_of_tunnels {s s' : gtpu} (h : s'.tunnels = s.tunnels) : FlushFrom s s' none := by
  intro t rec' h1 hf
  rw [h] at h1
  exact Or.inl ⟨rec', h1, hf⟩

theorem FlushFrom_step {s s1 s2 : gtpu} {T : Option Nat} (h1 : FlushFrom s s1 none)
    (h2 : FlushFrom s1 s2 T) : FlushFrom s s2 T := by
  intro t rec' hrec' hf
  rcases h2 t rec' hrec' hf with ⟨rec1, hr1, hf1⟩ | hT
  · rcases h1 t rec1 hr1 hf1 with h | h
    · exact Or.inl h
    · cases h
  · exact Or.inr hT

theorem FlushFrom_then {s s1 s2 : gtpu} {T : Option Nat} (h1 : FlushFrom s s1 T)
    (h2 : FlushFrom s1 s2 none) : FlushFrom s s2 T := by
  intro t rec' hrec' hf
  rcases h2 t rec' hrec' hf with ⟨rec1, hr1, hf1⟩ | hT
  · exact h1 t rec1 hr1 hf1
  · cases hT

theorem FlushFrom_rem_tunnel {nb : Nat} {s s' : gtpu} {t : Nat}
    (h : (rem_tunnel nb s t).state? = some s') : FlushFrom s s' none := by
  rcases rem_tunnel_inv h with ⟨_, rfl⟩ | ⟨tun, arr, _, _, _, _, ht, _⟩
  · exact FlushFrom_refl _
  intro k rec' hrec' hf
  rw [ht] at hrec'
  by_cases hk : k = t
  · simp [hk] at hrec'
  · simp only [hk, if_false] at hrec'
    exact Or.inl ⟨rec', hrec', hf⟩

theorem FlushFrom_rem_loop {nb fuel : Nat} {s s' : gtpu} {rnti lcid : Nat}
    (h : (rem_loop nb fuel s rnti lcid).state? = some s') : FlushFrom s s' none := by
  induction fuel generalizing s with
  | zero =>
    cases hd : Map.find s.ue_teidin_db rnti with
    | none => rw [rem_loop_none hd] at h; simp [Res.state?] at h
    | some arr =>
      cases hg : (arr lcid).getLast? with
      | none =>
        rw [rem_loop_nil hd hg] at h
        simp only [Res.state?, Option.some.injEq] at h; rw [← h]; exact FlushFrom_refl s
      | some b => rw [rem_loop_zero hd hg] at h; simp [Res.state?] at h
  | succ n ih =>
    cases hd : Map.find s.ue_teidin_db rnti with
    | none => rw [rem_loop_none hd] at h; simp [Res.state?] at h
    | some arr =>
      cases hg : (arr lcid).getLast? with
      | none =>
        rw [rem_loop_nil hd hg] at h
        simp only [Res.state?, Option.some.injEq] at h; rw [← h]; exact FlushFrom_refl s
      | some b =>
        rw [rem_loop_succ hd hg] at h
        rcases rem_tunnel_ok_or_ub nb s b with ⟨s1, h1⟩ | h1
        · rw [h1] at h
          simp only [Res.bind_ok] at h
          have hst : (rem_tunnel nb s b).state? = some s1 := by rw [h1]; rfl
          exact FlushFrom_step (FlushFrom_rem_tunnel hst) (ih h)
        · rw [h1] at h; simp [Res.state?] at h

theorem FlushFrom_rem_bearer {nb : Nat} {s s' : gtpu} {rnti lcid : Nat}
    (h : (rem_bearer nb s rnti lcid).state? = some s') : FlushFrom s s' none := by
  unfold rem_bearer at h
  cases hd : Map.find s.ue_teidin_db rnti with
  | none =>
    rw [hd] at h
    simp only [Res.state?, Option.some.injEq] at h
    rw [← h]; exact FlushFrom_refl s
  | some arr =>
    rw [hd] at h
    dsimp only at h
    by_cases hl : lcid < nb
    · simp only [hl, if_true] at h
      cases hr : rem_loop nb (bearer_len s rnti lcid) s rnti lcid with
      | ok s1 v =>
        rw [hr] at h
        simp only [Res.bind_ok] at h
        have hst : (rem_loop nb (bearer_len s rnti lcid) s rnti lcid).state? = some s1 := by
          rw [hr]; rfl
        have hf1 := FlushFrom_rem_loop hst
        cases hd1 : Map.find s1.ue_teidin_db rnti with
        | none => rw [hd1] at h; simp [Res.state?] at h
        | some arr1 =>
          rw [hd1] at h
          dsimp only at h
          by_cases hall : (List.range nb).all (fun l => (arr1 l).isEmpty) = true
          · simp only [hall, if_true, Res.state?, Option.some.injEq] at h
            rw [← h]
            exact FlushFrom_step hf1 (FlushFrom_of_tunnels rfl)
          · simp only [hall, Bool.false_eq_true, if_false, Res.state?, Option.some.injEq] at h
            rw [← h]; exact hf1
      | thrown s1 => rw [hr] at h; simp only [Res.bind_thrown, Res.state?] at h
                     have hst : (rem_loop nb (bearer_len s rnti lcid) s rnti lcid).state? =
                       some s1 := by rw [hr]; rfl
                     have := rem_loop_state_ok hst
                     rw [hr] at this; cases this
      | ub => rw [hr] at h; simp [Res.state?] at h
      | loops => rw [hr] at h; simp [Res.state?] at h
    · simp [hl, Res.state?] at h

theorem FlushFrom_rem_user_loop {nb : Nat} {ls : List Nat} {s s' : gtpu} {rnti : Nat}
    (h : (rem_user_loop nb ls s rnti).state? = some s') : FlushFrom s s' none := by
  induction ls generalizing s with
  | nil =>
    simp only [rem_user_loop, Res.state?, Option.some.injEq] at h
    rw [← h]; exact FlushFrom_refl s
  | cons l ls ih =>
    simp only [rem_user_loop] at h
    cases hr : rem_loop nb (bearer_len s rnti l) s rnti l with
    | ok s1 v =>
      rw [hr] at h
      simp only [Res.bind_ok] at h
      have hst : (rem_loop nb (bearer_len s rnti l) s rnti l).state? = some s1 := by
        rw [hr]; rfl
      exact FlushFrom_step (FlushFrom_rem_loop hst) (ih h)
    | thrown s1 =>
      have hst : (rem_loop nb (bearer_len s rnti l) s rnti l).state? = some s1 := by
        rw [hr]; rfl
      have := rem_loop_state_ok hst
      rw [hr] at this; cases this
    | ub => rw [hr] at h; simp [Res.state?] at h
    | loops => rw [hr] at h; simp [Res.state?] at h

theorem FlushFrom_rem_user {nb : Nat} {s s' : gtpu} {rnti : Nat}
    (h : (rem_user nb s rnti).state? = some s') : FlushFrom s s' none := by
  unfold rem_user at h
  cases hd : Map.find s.ue_teidin_db rnti with
  | none =>
    rw [hd] at h
    simp only [Res.state?, Option.some.injEq] at h
    rw [← h]; exact FlushFrom_refl s
  | some arr =>
    rw [hd] at h
    exact FlushFrom_rem_user_loop h

theorem FlushFrom_mod_bearer_rnti {nb : Nat} {s s' : gtpu} {old_rnti new_rnti : Nat}
    (h : (mod_bearer_rnti nb s old_rnti new_rnti).state? = some s') : FlushFrom s s' none := by
  unfold mod_bearer_rnti at h
  split at h
  · simp only [Res.state?, Option.some.injEq] at h
    rw [← h]; exact FlushFrom_refl s
  · split at h
    · simp only [Res.state?, Option.some.injEq] at h
      rw [← h]; exact FlushFrom_refl s
    · simp only [Res.state?, Option.some.injEq] at h
      subst h
      intro k rec' hrec' hf
      dsimp only at hrec'
      rw [find_foldl_set_rnti] at hrec'
      split at hrec'
      · simp only [Option.some.injEq] at hrec'
        subst hrec'
        dsimp only at hf
        cases hk : Map.find s.tunnels k with
        | none => rw [hk] at hf; simp at hf
        | some rec =>
          rw [hk] at hf
          simp only [Option.getD_some] at hf
          exact Or.inl ⟨rec, rfl, hf⟩
      · exact Or.inl ⟨rec', hrec', hf⟩

theorem FlushFrom_alloc (s : gtpu) (rnti lcid addr teid_out : Nat) :
    FlushFrom s (add_bearer_alloc s rnti lcid addr teid_out) none := by
  intro k rec' hrec' hf
  rw [add_bearer_alloc_tunnels] at hrec'
  split at hrec'
  · rename_i hk
    simp only [Option.some.injEq] at hrec'
    subst hrec'
    dsimp only at hf
    cases hfind : Map.find s.tunnels ((s.next_teid_in + 1) % 2 ^ 32) with
    | none => rw [hfind] at hf; simp at hf
    | some rec =>
      rw [hfind] at hf
      simp only [Option.getD_some] at hf
      rw [hk]
      exact Or.inl ⟨rec, hfind, hf⟩
  · exact Or.inl ⟨rec', hrec', hf⟩

theorem FlushFrom_flush {s s4 : gtpu} {p : bearer_props} {n : Nat}
    (h : (add_bearer_flush s p n).state? = some s4) :
    FlushFrom s s4
      (if p.flush_before_teidin_present then some p.flush_before_teidin else none) := by
  unfold add_bearer_flush at h
  by_cases hp : p.flush_before_teidin_present = true
  · simp only [hp, if_true] at h ⊢
    cases hf : Map.find s.tunnels p.flush_before_teidin with
    | none =>
      rw [hf] at h
      simp only [Res.state?, Option.some.injEq] at h
      subst h
      exact fun t rec' h1 h2 => Or.inl ⟨rec', h1, h2⟩
    | some after_tun =>
      rw [hf] at h
      simp only [Res.state?, Option.some.injEq] at h
      subst h
      intro k rec' hrec' hfl
      dsimp only at hrec'
      rw [Map.find_set] at hrec'
      by_cases hk : k = p.flush_before_teidin
      · exact Or.inr (by rw [hk])
      · simp only [hk, if_false] at hrec'
        exact Or.inl ⟨rec', hrec', hfl⟩
  · simp only [hp, Bool.false_eq_true, if_false, Res.state?, Option.some.injEq] at h ⊢
    subst h
    exact FlushFrom_refl _

theorem FlushFrom_create {env : Env} {s s5 : gtpu} {rx tx : Nat} {rc : Int}
    (h : create_dl_fwd_tunnel env s rx tx = .ok s5 rc) : FlushFrom s s5 none := by
  unfold create_dl_fwd_tunnel at h
  cases hrx : Map.find s.tunnels rx with
  | none =>
    rw [hrx] at h
    simp only [Res.ok.injEq] at h
    rw [← h.1]; exact FlushFrom_refl s
  | some rx_tun =>
    cases htx : Map.find s.tunnels tx with
    | none =>
      rw [hrx, htx] at h
      simp only [Res.ok.injEq] at h
      rw [← h.1]; exact FlushFrom_refl s
    | some tx_tun =>
      rw [hrx, htx] at h
      simp only [Res.ok.injEq] at h
      obtain ⟨h1, _⟩ := h
      have hfr := send_all_frame env rx_tun.rnti rx_tun.lcid tx_tun.teid_out
        tx_tun.spgw_addr (env.get_buffered_pdus rx_tun.rnti rx_tun.lcid)
      intro k rec' hrec' hfl
      rw [← h1, (hfr _).1] at hrec'
      dsimp only at hrec'
      rw [Map.find_set] at hrec'
      by_cases hk : k = rx
      · simp only [hk, if_true, Option.some.injEq] at hrec'
        subst hrec'
        dsimp only at hfl
        rw [hk]
        exact Or.inl ⟨rx_tun, hrx, hfl⟩
      · simp only [hk, if_false] at hrec'
        exact Or.inl ⟨rec', hrec', hfl⟩

theorem FlushFrom_add_bearer {nb : Nat} {env : Env} {s s' : gtpu}
    {rnti lcid addr teid_out : Nat} {props : Option bearer_props}
    (h : (add_bearer nb env s rnti lcid addr teid_out props).state? = some s') :
    FlushFrom s s' (Call.flush_target (.add_bearer env rnti lcid addr teid_out props)) := by
  unfold add_bearer at h
  by_cases hl : lcid < nb
  swap
  · simp [hl, Res.state?] at h
  simp only [hl, if_true] at h
  have h3 := FlushFrom_alloc s rnti lcid addr teid_out
  cases props with
  | none =>
    simp only [Res.state?, Option.some.injEq] at h
    rw [← h]; exact h3
  | some p =>
    dsimp only at h
    simp only [Call.flush_target]
    rcases add_bearer_flush_ok_or_thrown (add_bearer_alloc s rnti lcid addr teid_out) p
      (add_bearer_alloc s rnti lcid addr teid_out).next_teid_in with ⟨s4, h4⟩ | h4
    · have hst4 : (add_bearer_flush (add_bearer_alloc s rnti lcid addr teid_out) p
          (add_bearer_alloc s rnti lcid addr teid_out).next_teid_in).state? = some s4 := by
        rw [h4]; rfl
      have hf4 := FlushFrom_step h3 (FlushFrom_flush hst4)
      rw [h4] at h
      simp only [Res.bind_ok] at h
      by_cases hp : p.forward_from_teidin_present = true
      · simp only [hp, if_true] at h
        obtain ⟨s5, rc, h5, _⟩ := create_dl_fwd_tunnel_inv env s4 p.forward_from_teidin
          (add_bearer_alloc s rnti lcid addr teid_out).next_teid_in
        rw [h5] at h
        simp only [Res.bind_ok] at h
        have hf5 := FlushFrom_then hf4 (FlushFrom_create h5)
        by_cases hrc : rc ≠ SRSLTE_SUCCESS
        · rw [if_pos hrc] at h
          rcases rem_tunnel_ok_or_ub nb s5
            (add_bearer_alloc s rnti lcid addr teid_out).next_teid_in with ⟨s6, h6⟩ | h6
          · rw [h6] at h
            simp only [Res.bind_ok, Res.state?, Option.some.injEq] at h
            rw [← h]
            have hst6 : (rem_tunnel nb s5
                (add_bearer_alloc s rnti lcid addr teid_out).next_teid_in).state? = some s6 := by
              rw [h6]; rfl
            exact FlushFrom_then hf5 (FlushFrom_rem_tunnel hst6)
          · rw [h6] at h; simp [Res.state?] at h
        · rw [if_neg hrc] at h
          simp only [Res.state?, Option.some.injEq] at h
          rw [← h]; exact hf5
      · simp only [hp, Bool.false_eq_true, if_false, Res.state?, Option.some.injEq] at h
        rw [← h]; exact hf4
    · rw [h4] at h
      simp only [Res.bind_thrown, Res.state?, Option.some.injEq] at h
      rw [← h]
      intro k rec' hrec' hfl
      exact Or.inl (by
        rcases h3 k rec' hrec' hfl with h | h
        · exact h
        · cases h)

theorem FlushFrom_call {nb : Nat} {s s' : gtpu} (c : Call) (h : c.run nb s = some s') :
    FlushFrom s s' c.flush_target := by
  cases c with
  | add_bearer env rnti lcid addr teid_out props => exact FlushFrom_add_bearer h
  | rem_tunnel t => exact FlushFrom_rem_tunnel h
  | rem_bearer rnti lcid => exact FlushFrom_rem_bearer h
  | rem_user rnti => exact FlushFrom_rem_user h
  | mod_bearer_rnti o n => exact FlushFrom_mod_bearer_rnti h

theorem flush_flag_provenance {nb : Nat} (calls : List Call) :
    ∀ (s0 s : gtpu), run_calls nb calls s0 = some s →
      ∀ t rec, Map.find s.tunnels t = some rec → rec.prior_teid_in_present = true →
        (∃ rec0, Map.find s0.tunnels t = some rec0 ∧ rec0.prior_teid_in_present = true) ∨
        ∃ c ∈ calls, Call.flush_target c = some t := by
  induction calls with
  | nil =>
    intro s0 s h t rec hrec hf
    simp only [run_calls, Option.some.injEq] at h
    subst h
    exact Or.inl ⟨rec, hrec, hf⟩
  | cons c cs ih =>
    intro s0 s h t rec hrec hf
    simp only [run_calls] at h
    cases hc : Call.run nb s0 c with
    | none => rw [hc] at h; cases h
    | some s1 =>
      rw [hc] at h
      rcases ih s1 s h t rec hrec hf with ⟨rec1, hr1, hf1⟩ | ⟨c', hc', ht'⟩
      · rcases FlushFrom_call c hc t rec1 hr1 hf1 with h0 | hT
        · exact Or.inl h0
        · exact Or.inr ⟨c, List.mem_cons_self _ _, hT⟩
      · exact Or.inr ⟨c', List.mem_cons_of_mem _ hc', ht'⟩

theorem flush_after_isSome {s : gtpu} {t : Nat} (h : (flush_after s t).isSome = true) :
    ∃ rec, Map.find s.tunnels t = some rec ∧ rec.prior_teid_in_present = true := by
  unfold flush_after at h
  cases hf : Map.find s.tunnels t with
  | none => rw [hf] at h; simp at h
  | some rec =>
    rw [hf] at h
    dsimp only at h
    by_cases hp : rec.prior_teid_in_present = true
    · exact ⟨rec, rfl, hp⟩
    · simp [hp] at h

/-- C3 as stated fails on scenario S5: after the two allocations the bearer
list of `(5, 3)` starts with TEID 1, and tunnel 1 has `flush_after = 2`. -/
theorem C3_primary_in_flushing_state :
    (run_calls 11 s5_calls gtpu_initial).map
      (fun s => ((bearer_list s 5 3).head?, flush_after s 1)) = some (some 1, some 2) := by
  decide

/-- C3, amended.  In every state reached from the initial state by
control-plane calls, a tunnel has `prior_teid_in_present` only if one of the
calls was an `add_bearer` naming that tunnel in `flush_before_teidin`; so in
runs without such a request the tunnel at position 0 of every bearer list is
not in flushing state. -/
theorem C3_flush_state_only_on_request (nb : Nat) (calls : List Call) (s : gtpu)
    (hrun : run_calls nb calls gtpu_initial = some s) :
    (∀ t, (flush_after s t).isSome = true → ∃ c ∈ calls, Call.flush_target c = some t) ∧
    ((∀ c ∈ calls, Call.flush_target c = none) →
      ∀ rnti lcid t, (bearer_list s rnti lcid).head? = some t → flush_after s t = none) := by
  have key : ∀ t, (flush_after s t).isSome = true →
      ∃ c ∈ calls, Call.flush_target c = some t := by
    intro t ht
    obtain ⟨rec, hrec, hf⟩ := flush_after_isSome ht
    rcases flush_flag_provenance calls gtpu_initial s hrun t rec hrec hf with ⟨rec0, h0, _⟩ | h
    · simp [gtpu_initial, Map.find] at h0
    · exact h
  refine ⟨key, ?_⟩
  intro hnone rnti lcid t _
  cases hfa : flush_after s t with
  | none => rfl
  | some x =>
    obtain ⟨c, hc, ht⟩ := key t (by rw [hfa]; rfl)
    rw [hnone c hc] at ht
    cases ht

/-- C3 (amended) on scenario S5: the run leaves a state in which tunnel 1 is
in flushing state, and the run contains the call that asked for it. -/
theorem C3_flush_state_only_on_request_witness :
    ∃ s, run_calls 11 s5_calls gtpu_initial = some s ∧ (flush_after s 1).isSome = true ∧
      ∃ c ∈ s5_calls, Call.flush_target c = some 1 := by
  have h : (run_calls 11 s5_calls gtpu_initial).isSome = true := by decide
  obtain ⟨s, hs⟩ := Option.isSome_iff_exists.mp h
  have hf : (run_calls 11 s5_calls gtpu_initial).map (fun s => (flush_after s 1).isSome) = some true := by
    decide
  rw [hs] at hf
  simp only [Option.map_some', Option.some.injEq] at hf
  exact ⟨s, hs, hf, (C3_flush_state_only_on_request 11 s5_calls s hs).1 1 hf⟩

/-! ## C4: TEID allocation -/

theorem Shrink_refl (s : gtpu) : Shrink s s := ⟨rfl, rfl, fun _ h => h⟩

theorem Shrink_trans {s1 s2 s3 : gtpu} (h1 : Shrink s1 s2) (h2 : Shrink s2 s3) : Shrink s1 s3 :=
  ⟨h2.1.trans h1.1, h2.2.1.trans h1.2.1, fun k h => h1.2.2 k (h2.2.2 k h)⟩

theorem Shrink_of_SameIndex {s s' : gtpu} (h : SameIndex s s')
    (hn : s'.next_teid_in = s.next_teid_in) (hq : s'.tx_seq = s.tx_seq) : Shrink s s' := by
  refine ⟨hn, hq, ?_⟩
  intro k hk
  unfold registered at hk ⊢
  have := h.1 k
  cases h1 : Map.find s'.tunnels k with
  | none => rw [h1] at hk; simp at hk
  | some r1 =>
    rw [h1] at this
    cases h2 : Map.find s.tunnels k with
    | none => rw [h2] at this; simp at this
    | some r2 => rfl

theorem Shrink_rem_tunnel {nb : Nat} {s s' : gtpu} {t : Nat}
    (h : (rem_tunnel nb s t).state? = some s') : Shrink s s' := by
  rcases rem_tunnel_inv h with ⟨_, rfl⟩ | ⟨tun, arr, _, _, _, _, ht, _, hn, hq⟩
  · exact Shrink_refl _
  refine ⟨hn, hq, ?_⟩
  intro k hk
  unfold registered at hk ⊢
  rw [ht] at hk
  by_cases hkt : k = t
  · simp [hkt] at hk
  · simpa [hkt] using hk

theorem Shrink_rem_loop {nb fuel : Nat} {s s' : gtpu} {rnti lcid : Nat}
    (h : (rem_loop nb fuel s rnti lcid).state? = some s') : Shrink s s' := by
  induction fuel generalizing s with
  | zero =>
    cases hd : Map.find s.ue_teidin_db rnti with
    | none => rw [rem_loop_none hd] at h; simp [Res.state?] at h
    | some arr =>
      cases hg : (arr lcid).getLast? with
      | none =>
        rw [rem_loop_nil hd hg] at h
        simp only [Res.state?, Option.some.injEq] at h; rw [← h]; exact Shrink_refl s
      | some b => rw [rem_loop_zero hd hg] at h; simp [Res.state?] at h
  | succ n ih =>
    cases hd : Map.find s.ue_teidin_db rnti with
    | none => rw [rem_loop_none hd] at h; simp [Res.state?] at h
    | some arr =>
      cases hg : (arr lcid).getLast? with
      | none =>
        rw [rem_loop_nil hd hg] at h
        simp only [Res.state?, Option.some.injEq] at h; rw [← h]; exact Shrink_refl s
      | some b =>
        rw [rem_loop_succ hd hg] at h
        rcases rem_tunnel_ok_or_ub nb s b with ⟨s1, h1⟩ | h1
        · rw [h1] at h
          simp only [Res.bind_ok] at h
          have hst : (rem_tunnel nb s b).state? = some s1 := by rw [h1]; rfl
          exact Shrink_trans (Shrink_rem_tunnel hst) (ih h)
        · rw [h1] at h; simp [Res.state?] at h

theorem Shrink_rem_bearer {nb : Nat} {s s' : gtpu} {rnti lcid : Nat}
    (h : (rem_bearer nb s rnti lcid).state? = some s') : Shrink s s' := by
  unfold rem_bearer at h
  cases hd : Map.find s.ue_teidin_db rnti with
  | none =>
    rw [hd] at h
    simp only [Res.state?, Option.some.injEq] at h
    rw [← h]; exact Shrink_refl s
  | some arr =>
    rw [hd] at h
    dsimp only at h
    by_cases hl : lcid < nb
    · simp only [hl, if_true] at h
      cases hr : rem_loop nb (bearer_len s rnti lcid) s rnti lcid with
      | ok s1 v =>
        rw [hr] at h
        simp only [Res.bind_ok] at h
        have hst : (rem_loop nb (bearer_len s rnti lcid) s rnti lcid).state? = some s1 := by
          rw [hr]; rfl
        have hf1 := Shrink_rem_loop hst
        cases hd1 : Map.find s1.ue_teidin_db rnti with
        | none => rw [hd1] at h; simp [Res.state?] at h
        | some arr1 =>
          rw [hd1] at h
          dsimp only at h
          by_cases hall : (List.range nb).all (fun l => (arr1 l).isEmpty) = true
          · simp only [hall, if_true, Res.state?, Option.some.injEq] at h
            rw [← h]
            exact Shrink_trans hf1 ⟨rfl, rfl, fun _ hk => hk⟩
          · simp only [hall, Bool.false_eq_true, if_false, Res.state?, Option.some.injEq] at h
            rw [← h]; exact hf1
      | thrown s1 =>
        have hst : (rem_loop nb (bearer_len s rnti lcid) s rnti lcid).state? = some s1 := by
          rw [hr]; rfl
        have := rem_loop_state_ok hst
        rw [hr] at this; cases this
      | ub => rw [hr] at h; simp [Res.state?] at h
      | loops => rw [hr] at h; simp [Res.state?] at h
    · simp [hl, Res.state?] at h

theorem Shrink_rem_user_loop {nb : Nat} {ls : List Nat} {s s' : gtpu} {rnti : Nat}
    (h : (rem_user_loop nb ls s rnti).state? = some s') : Shrink s s' := by
  induction ls generalizing s with
  | nil =>
    simp only [rem_user_loop, Res.state?, Option.some.injEq] at h
    rw [← h]; exact Shrink_refl s
  | cons l ls ih =>
    simp only [rem_user_loop] at h
    cases hr : rem_loop nb (bearer_len s rnti l) s rnti l with
    | ok s1 v =>
      rw [hr] at h
      simp only [Res.bind_ok] at h
      have hst : (rem_loop nb (bearer_len s rnti l) s rnti l).state? = some s1 := by
        rw [hr]; rfl
      exact Shrink_trans (Shrink_rem_loop hst) (ih h)
    | thrown s1 =>
      have hst : (rem_loop nb (bearer_len s rnti l) s rnti l).state? = some s1 := by
        rw [hr]; rfl
      have := rem_loop_state_ok hst
      rw [hr] at this; cases this
    | ub => rw [hr] at h; simp [Res.state?] at h
    | loops => rw [hr] at h; simp [Res.state?] at h

theorem Shrink_rem_user {nb : Nat} {s s' : gtpu} {rnti : Nat}
    (h : (rem_user nb s rnti).state? = some s') : Shrink s s' := by
  unfold rem_user at h
  cases hd : Map.find s.ue_teidin_db rnti with
  | none =>
    rw [hd] at h
    simp only [Res.state?, Option.some.injEq] at h
    rw [← h]; exact Shrink_refl s
  | some arr =>
    rw [hd] at h
    exact Shrink_rem_user_loop h

theorem Shrink_mod_bearer_rnti {nb : Nat} {s s' : gtpu} {old_rnti new_rnti : Nat}
    (hc : Consistent nb s)
    (h : (mod_bearer_rnti nb s old_rnti new_rnti).state? = some s') : Shrink s s' := by
  cases hnew : Map.find s.ue_teidin_db new_rnti with
  | some a =>
    unfold mod_bearer_rnti at h
    simp only [hnew, Option.isSome_some, if_true, Res.state?, Option.some.injEq] at h
    rw [← h]; exact Shrink_refl s
  | none =>
    cases hold : Map.find s.ue_teidin_db old_rnti with
    | none =>
      unfold mod_bearer_rnti at h
      simp only [hnew, Option.isSome_none, Bool.false_eq_true, if_false, hold, Res.state?,
        Option.some.injEq] at h
      rw [← h]; exact Shrink_refl s
    | some arr =>
      obtain ⟨s2, h2, _, htun, hn, hq, _⟩ := mod_bearer_rnti_spec hc hold hnew
      rw [h2] at h
      simp only [Res.state?, Option.some.injEq] at h
      subst h
      refine ⟨hn, hq, ?_⟩
      intro k hk
      unfold registered at hk ⊢
      rw [htun] at hk
      cases hf : Map.find s.tunnels k with
      | none => rw [hf] at hk; simp at hk
      | some r => rfl

theorem Grow_add_bearer {nb : Nat} {env : Env} {s s' : gtpu}
    {rnti lcid addr teid_out : Nat} {props : Option bearer_props}
    (h : (add_bearer nb env s rnti lcid addr teid_out props).state? = some s') :
    Grow s s' ∧ s'.tx_seq = s.tx_seq := by
  unfold add_bearer at h
  by_cases hl : lcid < nb
  swap
  · simp [hl, Res.state?] at h
  simp only [hl, if_true] at h
  have h3 : Grow s (add_bearer_alloc s rnti lcid addr teid_out) := by
    refine ⟨rfl, ?_⟩
    intro k hk
    unfold registered at hk ⊢
    rw [add_bearer_alloc_tunnels] at hk
    by_cases hkn : k = (s.next_teid_in + 1) % 2 ^ 32
    · exact Or.inr hkn
    · simp only [hkn, if_false] at hk
      exact Or.inl hk
  have grow_shrink : ∀ s4 : gtpu, Shrink (add_bearer_alloc s rnti lcid addr teid_out) s4 →
      Grow s s4 ∧ s4.tx_seq = s.tx_seq := by
    intro s4 hs
    refine ⟨⟨hs.1.trans h3.1, ?_⟩, hs.2.1⟩
    intro k hk
    rcases h3.2 k (hs.2.2 k hk) with h | h
    · exact Or.inl h
    · exact Or.inr (h.trans hs.1.symm)
  cases props with
  | none =>
    simp only [Res.state?, Option.some.injEq] at h
    rw [← h]; exact ⟨h3, rfl⟩
  | some p =>
    dsimp only at h
    rcases add_bearer_flush_ok_or_thrown (add_bearer_alloc s rnti lcid addr teid_out) p
      (add_bearer_alloc s rnti lcid addr teid_out).next_teid_in with ⟨s4, h4⟩ | h4
    · have hst4 : (add_bearer_flush (add_bearer_alloc s rnti lcid addr teid_out) p
          (add_bearer_alloc s rnti lcid addr teid_out).next_teid_in).state? = some s4 := by
        rw [h4]; rfl
      obtain ⟨hsi, hn4, hq4, _⟩ := add_bearer_flush_inv hst4
      have hs4 := Shrink_of_SameIndex hsi hn4 hq4
      rw [h4] at h
      simp only [Res.bind_ok] at h
      by_cases hp : p.forward_from_teidin_present = true
      · simp only [hp, if_true] at h
        obtain ⟨s5, rc, h5, hsi5, hn5, hq5, _⟩ := create_dl_fwd_tunnel_inv env s4
          p.forward_from_teidin (add_bearer_alloc s rnti lcid addr teid_out).next_teid_in
        rw [h5] at h
        simp only [Res.bind_ok] at h
        have hs5 := Shrink_trans hs4 (Shrink_of_SameIndex hsi5 hn5 hq5)
        by_cases hrc : rc ≠ SRSLTE_SUCCESS
        · rw [if_pos hrc] at h
          rcases rem_tunnel_ok_or_ub nb s5
            (add_bearer_alloc s rnti lcid addr teid_out).next_teid_in with ⟨s6, h6⟩ | h6
          · rw [h6] at h
            simp only [Res.bind_ok, Res.state?, Option.some.injEq] at h
            rw [← h]
            have hst6 : (rem_tunnel nb s5
                (add_bearer_alloc s rnti lcid addr teid_out).next_teid_in).state? = some s6 := by
              rw [h6]; rfl
            exact grow_shrink s6 (Shrink_trans hs5 (Shrink_rem_tunnel hst6))
          · rw [h6] at h; simp [Res.state?] at h
        · rw [if_neg hrc] at h
          simp only [Res.state?, Option.some.injEq] at h
          rw [← h]; exact grow_shrink s5 hs5
      · simp only [hp, Bool.false_eq_true, if_false, Res.state?, Option.some.injEq] at h
        rw [← h]; exact grow_shrink s4 hs4
    · rw [h4] at h
      simp only [Res.bind_thrown, Res.state?, Option.some.injEq] at h
      rw [← h]; exact ⟨h3, rfl⟩

/-- Value returned by `add_bearer`: zero or the stepped counter. -/
theorem add_bearer_val {nb : Nat} {env : Env} {s s' : gtpu}
    {rnti lcid addr teid_out : Nat} {props : Option bearer_props} {v : Nat}
    (h : add_bearer nb env s rnti lcid addr teid_out props = .ok s' v) :
    v = 0 ∨ v = (s.next_teid_in + 1) % 2 ^ 32 := by
  unfold add_bearer at h
  by_cases hl : lcid < nb
  swap
  · simp [hl] at h
  simp only [hl, if_true] at h
  cases props with
  | none =>
    simp only [Res.ok.injEq] at h
    exact Or.inr h.2.symm
  | some p =>
    dsimp only at h
    rcases add_bearer_flush_ok_or_thrown (add_bearer_alloc s rnti lcid addr teid_out) p
      (add_bearer_alloc s rnti lcid addr teid_out).next_teid_in with ⟨s4, h4⟩ | h4
    · rw [h4] at h
      simp only [Res.bind_ok] at h
      by_cases hp : p.forward_from_teidin_present = true
      · simp only [hp, if_true] at h
        obtain ⟨s5, rc, h5, _⟩ := create_dl_fwd_tunnel_inv env s4
          p.forward_from_teidin (add_bearer_alloc s rnti lcid addr teid_out).next_teid_in
        rw [h5] at h
        simp only [Res.bind_ok] at h
        by_cases hrc : rc ≠ SRSLTE_SUCCESS
        · rw [if_pos hrc] at h
          rcases rem_tunnel_ok_or_ub nb s5
            (add_bearer_alloc s rnti lcid addr teid_out).next_teid_in with ⟨s6, h6⟩ | h6
          · rw [h6] at h
            simp only [Res.bind_ok, Res.ok.injEq] at h
            exact Or.inl h.2.symm
          · rw [h6] at h; simp at h
        · rw [if_neg hrc] at h
          simp only [Res.ok.injEq] at h
          exact Or.inr h.2.symm
      · simp only [hp, Bool.false_eq_true, if_false, Res.ok.injEq] at h
        exact Or.inr h.2.symm
    · rw [h4] at h
      simp at h

/-- Consistency and the bound on the keys hold along every run that is too
short for the counter to wrap. -/
theorem run_calls_invariant {nb : Nat} (calls : List Call) :
    ∀ (s0 s : gtpu), Consistent nb s0 → KeysBound s0 →
      s0.next_teid_in + calls.length < 2 ^ 32 → run_calls nb calls s0 = some s →
      Consistent nb s ∧ KeysBound s ∧ s.next_teid_in ≤ s0.next_teid_in + calls.length := by
  induction calls with
  | nil =>
    intro s0 s hc hk _ h
    simp only [run_calls, Option.some.injEq] at h
    subst h
    exact ⟨hc, hk, by simp⟩
  | cons c cs ih =>
    intro s0 s hc hk hlen h
    simp only [run_calls] at h
    simp only [List.length_cons] at hlen
    cases hrun : Call.run nb s0 c with
    | none => rw [hrun] at h; cases h
    | some s1 =>
      rw [hrun] at h
      have hstep : Consistent nb s1 ∧ KeysBound s1 ∧ s1.next_teid_in ≤ s0.next_teid_in + 1 := by
        have shrink_case : Shrink s0 s1 → KeysBound s1 ∧ s1.next_teid_in ≤ s0.next_teid_in + 1 := by
          intro hs
          refine ⟨?_, by rw [hs.1]; omega⟩
          intro k hreg
          rw [hs.1]
          exact hk k (hs.2.2 k hreg)
        cases c with
        | add_bearer env rnti lcid addr teid_out props =>
          have hmod : (s0.next_teid_in + 1) % 2 ^ 32 = s0.next_teid_in + 1 :=
            Nat.mod_eq_of_lt (by omega)
          have hfresh : Map.find s0.tunnels ((s0.next_teid_in + 1) % 2 ^ 32) = none := by
            rw [hmod]
            cases hf : Map.find s0.tunnels (s0.next_teid_in + 1) with
            | none => rfl
            | some r =>
              have := (hk (s0.next_teid_in + 1) (by unfold registered; rw [hf]; rfl)).2
              omega
          obtain ⟨hg, _⟩ := Grow_add_bearer hrun
          refine ⟨Consistent_add_bearer hc hfresh hrun, ?_, by rw [hg.1, hmod]⟩
          intro k hreg
          rw [hg.1, hmod]
          rcases hg.2 k hreg with h1 | h1
          · have := hk k h1; omega
          · rw [h1, hg.1, hmod]; omega
        | rem_tunnel t =>
          exact ⟨Consistent_rem_tunnel hc hrun, shrink_case (Shrink_rem_tunnel hrun)⟩
        | rem_bearer rnti lcid =>
          exact ⟨Consistent_rem_bearer hc hrun, shrink_case (Shrink_rem_bearer hrun)⟩
        | rem_user rnti =>
          exact ⟨Consistent_rem_user hc hrun, shrink_case (Shrink_rem_user hrun)⟩
        | mod_bearer_rnti o n =>
          obtain ⟨s2, h2⟩ := mod_bearer_rnti_ok nb s0 o n
          have e : s2 = s1 := by
            simp only [Call.run, h2, Res.state?, Option.some.injEq] at hrun
            exact hrun
          subst e
          exact ⟨Consistent_mod_bearer_rnti hc h2, shrink_case (Shrink_mod_bearer_rnti hc hrun)⟩
      obtain ⟨hc1, hk1, hn1⟩ := hstep
      obtain ⟨hc2, hk2, hn2⟩ := ih s1 s hc1 hk1 (by omega) h
      exact ⟨hc2, hk2, by simp only [List.length_cons]; omega⟩

/-- C4 as stated fails when the counter holds 2^32 - 1.  The call returns
TEID 0 (the pre-increment wraps), leaves `next_teid_in = 0` and registers key
0; the call after it returns TEID 1, which was a key of the registry all
along. -/
theorem C4_counter_wraps :
    (add_bearer 11 env_quiet ex_wrap 0x47 3 11 21 none).val? = some 0 ∧
    (add_bearer 11 env_quiet ex_wrap 0x47 3 11 21 none).state?.map
      (fun s => (s.next_teid_in, registered s 0)) = some (0, true) ∧
    registered ex_wrap 1 = true ∧
    ((add_bearer 11 env_quiet ex_wrap 0x47 3 11 21 none).bind
      fun s _ => add_bearer 11 env_quiet s 0x48 3 12 22 none).val? = some 1 := by
  decide

/-- C4, amended.  In a state whose counter `c` is below 2^32 - 1, every
`add_bearer` call that leaves a state leaves `next_teid_in = c + 1`, and a
call that returns, returns 0 or `c + 1`.  In every state reached from the
initial state by fewer than 2^32 - 1 control-plane calls, all keys of the
registry lie between 1 and `next_teid_in`; hence TEID 0 is not a key, and an
`add_bearer` call that returns a non-zero TEID returns one that was not a
key before the call. -/
theorem C4_teid_allocation (nb : Nat) (s : gtpu) (env : Env)
    (rnti lcid addr teid_out : Nat) (props : Option bearer_props) :
    (s.next_teid_in + 1 < 2 ^ 32 →
      (∀ s', (add_bearer nb env s rnti lcid addr teid_out props).state? = some s' →
        s'.next_teid_in = s.next_teid_in + 1 ∧ s.next_teid_in < s'.next_teid_in) ∧
      (∀ s' v, add_bearer nb env s rnti lcid addr teid_out props = .ok s' v →
        v = 0 ∨ v = s.next_teid_in + 1)) ∧
    (∀ calls : List Call, calls.length + 1 < 2 ^ 32 → run_calls nb calls gtpu_initial = some s →
      registered s 0 = false ∧
      (∀ k, registered s k = true → 1 ≤ k ∧ k ≤ s.next_teid_in) ∧
      s.next_teid_in + 1 < 2 ^ 32 ∧
      (∀ s' v, add_bearer nb env s rnti lcid addr teid_out props = .ok s' v → v ≠ 0 →
        v = s.next_teid_in + 1 ∧ registered s v = false)) := by
  have partA : s.next_teid_in + 1 < 2 ^ 32 →
      (∀ s', (add_bearer nb env s rnti lcid addr teid_out props).state? = some s' →
        s'.next_teid_in = s.next_teid_in + 1 ∧ s.next_teid_in < s'.next_teid_in) ∧
      (∀ s' v, add_bearer nb env s rnti lcid addr teid_out props = .ok s' v →
        v = 0 ∨ v = s.next_teid_in + 1) := by
    intro hw
    have hmod : (s.next_teid_in + 1) % 2 ^ 32 = s.next_teid_in + 1 := Nat.mod_eq_of_lt hw
    refine ⟨?_, ?_⟩
    · intro s' hs'
      have := (Grow_add_bearer hs').1.1
      rw [hmod] at this
      exact ⟨this, by omega⟩
    · intro s' v hv
      have := add_bearer_val hv
      rw [hmod] at this
      exact this
  refine ⟨partA, ?_⟩
  intro calls hlen hrun
  obtain ⟨_, hk, hn⟩ := run_calls_invariant calls gtpu_initial s (Consistent_init nb)
    (by intro k hreg; simp [registered, gtpu_initial, Map.find] at hreg)
    (by simp only [gtpu_initial]; omega) hrun
  have hn' : s.next_teid_in ≤ calls.length := by simpa [gtpu_initial] using hn
  have hw : s.next_teid_in + 1 < 2 ^ 32 := by omega
  have h0 : registered s 0 = false := by
    cases hr : registered s 0 with
    | false => rfl
    | true => have := (hk 0 hr).1; omega
  refine ⟨h0, hk, hw, ?_⟩
  intro s' v hv hv0
  rcases (partA hw).2 s' v hv with h | h
  · exact absurd h hv0
  · refine ⟨h, ?_⟩
    cases hr : registered s v with
    | false => rfl
    | true => have := (hk v hr).2; omega

/-- C4 (amended) after the first allocation of scenario S1: the registry
holds no key 0 and the next allocation returns TEID 2, not a key before. -/
theorem C4_teid_allocation_witness :
    ∃ s, run_calls 11 [.add_bearer env_quiet 0x1234 3 0x0A000001 0xAA none] gtpu_initial = some s ∧
      registered s 0 = false ∧
      (∀ s' v, add_bearer 11 env_quiet s 0x1234 4 0x0A000001 0xAB none = .ok s' v → v ≠ 0 →
        v = s.next_teid_in + 1 ∧ registered s v = false) := by
  have h : (run_calls 11 [.add_bearer env_quiet 0x1234 3 0x0A000001 0xAA none] gtpu_initial).isSome
      = true := by decide
  obtain ⟨s, hs⟩ := Option.isSome_iff_exists.mp h
  have key := (C4_teid_allocation 11 s env_quiet 0x1234 4 0x0A000001 0xAB none).2
    [.add_bearer env_quiet 0x1234 3 0x0A000001 0xAA none] (by decide) hs
  exact ⟨s, hs, key.1, key.2.2.2⟩

/-! ## C5: allocation without forwarding -/

theorem bearer_list_alloc (s : gtpu) (rnti lcid addr teid_out r l : Nat) :
    bearer_list (add_bearer_alloc s rnti lcid addr teid_out) r l =
      if r = rnti ∧ l = lcid then bearer_list s rnti lcid ++ [(s.next_teid_in + 1) % 2 ^ 32]
      else bearer_list s r l := by
  unfold bearer_list
  rw [add_bearer_alloc_db]
  by_cases hr : r = rnti
  · subst hr
    simp only [if_true, true_and]
    by_cases hl : l = lcid
    · subst hl
      simp only [if_true, upd_same]
      cases Map.find s.ue_teidin_db r <;> rfl
    · simp only [hl, if_false, upd_other _ _ _ _ hl]
      cases Map.find s.ue_teidin_db r <;> rfl
  · simp only [hr, if_false, false_and]

theorem bearer_list_congr {s s' : gtpu} (h : ∀ r, Map.find s'.ue_teidin_db r = Map.find s.ue_teidin_db r)
    (r l : Nat) : bearer_list s' r l = bearer_list s r l := by
  unfold bearer_list; rw [h]

/-- C5 as stated fails in three ways.  From the state with the single tunnel
1: a call with `flush_before_teidin = 7`, not a key, throws out of
`tunnels.at` and returns nothing; a call with `lcid = 11` indexes the array
of eleven bearer lists out of range.  After the counter has wrapped next to
the live tunnel 1, the call returns TEID 1 and overwrites its record: the
record is filed under RNTI 0x48 while the list of `(0x46, 3)` still holds
it. -/
theorem C5_fails_outside_preconditions :
    (add_bearer 11 env_quiet ex_one 0x46 3 11 21 (some (props_flush_before 7))).val? = none ∧
    (add_bearer 11 env_quiet ex_one 0x46 11 11 21 none).state?.isNone = true ∧
    (((add_bearer 11 env_quiet ex_wrap 0x47 3 11 21 none).bind
        fun s _ => add_bearer 11 env_quiet s 0x48 3 12 22 none).state?.map
      fun s => ((Map.find s.tunnels 1).map tunnel.rnti, bearer_list s 0x46 3,
        bearer_list s 0x48 3)) = some (some 0x48, [1], [1]) := by
  decide

/-- C5, amended.  In a state with counter `c < 2^32 - 1` where `c + 1` is not
a key, a call with `lcid` inside the array, without `forward_from_teidin`,
and whose `flush_before_teidin` (if present) is a key, returns `c + 1`; the
registry gains the record `c + 1` with the given fields, unset flags and an
empty buffer; `c + 1` is appended to the list of `(rnti, lcid)`; the tunnel
named by `flush_before_teidin` gets `flush_after = c + 1`; nothing else
changes. -/
theorem C5_add_bearer_plain (nb : Nat) (env : Env) (s : gtpu) (rnti lcid addr teid_out : Nat)
    (props : Option bearer_props)
    (hw : s.next_teid_in + 1 < 2 ^ 32) (hl : lcid < nb)
    (hfresh : registered s (s.next_teid_in + 1) = false)
    (hnofwd : forward_request props = none)
    (hflush : ∀ T, flush_request props = some T → registered s T = true) :
    ∃ s', add_bearer nb env s rnti lcid addr teid_out props = .ok s' (s.next_teid_in + 1) ∧
      s'.next_teid_in = s.next_teid_in + 1 ∧
      Map.find s'.tunnels (s.next_teid_in + 1) =
        some { teid_in := s.next_teid_in + 1, rnti := rnti, lcid := lcid, spgw_addr := addr,
               teid_out := teid_out, fwd_teid_in_present := false,
               prior_teid_in_present := false, fwd_teid_in := 0, prior_teid_in := 0,
               buffer := [] } ∧
      (∀ k, k ≠ s.next_teid_in + 1 → Map.find s'.tunnels k =
        (Map.find s.tunnels k).map fun rec =>
          if flush_request props = some k then
            { rec with prior_teid_in_present := true, prior_teid_in := s.next_teid_in + 1 }
          else rec) ∧
      bearer_list s' rnti lcid = bearer_list s rnti lcid ++ [s.next_teid_in + 1] ∧
      (∀ r l, ¬ (r = rnti ∧ l = lcid) → bearer_list s' r l = bearer_list s r l) ∧
      (∀ r, r ≠ rnti → Map.find s'.ue_teidin_db r = Map.find s.ue_teidin_db r) ∧
      s'.tx_seq = s.tx_seq ∧ s'.log = s.log := by
  have hmod : (s.next_teid_in + 1) % 2 ^ 32 = s.next_teid_in + 1 := Nat.mod_eq_of_lt hw
  have hnone : Map.find s.tunnels (s.next_teid_in + 1) = none := by
    unfold registered at hfresh
    cases hf : Map.find s.tunnels (s.next_teid_in + 1) with
    | none => rfl
    | some r => rw [hf] at hfresh; simp at hfresh
  have ht3 := add_bearer_alloc_tunnels s rnti lcid addr teid_out
  have hd3 := add_bearer_alloc_db s rnti lcid addr teid_out
  have hb3 := bearer_list_alloc s rnti lcid addr teid_out
  have hn3 := add_bearer_alloc_next s rnti lcid addr teid_out
  rw [hmod] at ht3 hd3 hb3 hn3
  simp only [hnone, Option.getD_none] at ht3
  have hnew := ht3 (s.next_teid_in + 1)
  simp only [if_true] at hnew
  have hlist : bearer_list (add_bearer_alloc s rnti lcid addr teid_out) rnti lcid =
      bearer_list s rnti lcid ++ [s.next_teid_in + 1] := by
    rw [hb3]; simp
  have hother : ∀ r l, ¬ (r = rnti ∧ l = lcid) →
      bearer_list (add_bearer_alloc s rnti lcid addr teid_out) r l = bearer_list s r l := by
    intro r l hrl
    rw [hb3]; simp only [hrl, if_false]
  have hdb : ∀ r, r ≠ rnti →
      Map.find (add_bearer_alloc s rnti lcid addr teid_out).ue_teidin_db r =
        Map.find s.ue_teidin_db r := by
    intro r hr
    rw [hd3]; simp only [hr, if_false]
  unfold add_bearer
  simp only [hl, if_true, hn3]
  cases props with
  | none =>
    refine ⟨_, rfl, hn3, hnew, ?_, hlist, hother, hdb, rfl, rfl⟩
    intro k hk
    rw [ht3]
    simp only [hk, if_false, flush_request]
    cases Map.find s.tunnels k <;> simp
  | some p =>
    have hpf : p.forward_from_teidin_present = false := by
      simp only [forward_request] at hnofwd
      cases hp : p.forward_from_teidin_present with
      | false => rfl
      | true => rw [hp] at hnofwd; simp at hnofwd
    dsimp only
    unfold add_bearer_flush
    cases hpp : p.flush_before_teidin_present with
    | false =>
      simp only [Bool.false_eq_true, if_false, Res.bind_ok, hpf]
      refine ⟨_, rfl, hn3, hnew, ?_, hlist, hother, hdb, rfl, rfl⟩
      intro k hk
      rw [ht3]
      simp only [hk, if_false, flush_request, hpp, Bool.false_eq_true]
      cases Map.find s.tunnels k <;> simp
    | true =>
      have hreg := hflush p.flush_before_teidin (by simp [flush_request, hpp])
      unfold registered at hreg
      cases hT : Map.find s.tunnels p.flush_before_teidin with
      | none => rw [hT] at hreg; simp at hreg
      | some after_tun =>
        have hTne : p.flush_before_teidin ≠ s.next_teid_in + 1 := by
          intro e; rw [e, hnone] at hT; cases hT
        have hT3 : Map.find (add_bearer_alloc s rnti lcid addr teid_out).tunnels
            p.flush_before_teidin = some after_tun := by
          rw [ht3]; simp only [hTne, if_false]; exact hT
        simp only [if_true, hT3, Res.bind_ok, hpf, Bool.false_eq_true, if_false]
        refine ⟨_, rfl, hn3, ?_, ?_, hlist, hother, hdb, rfl, rfl⟩
        · dsimp only
          rw [Map.find_set]
          have : s.next_teid_in + 1 ≠ p.flush_before_teidin := fun e => hTne e.symm
          simp only [this, if_false]
          exact hnew
        · intro k hk
          dsimp only
          rw [Map.find_set, ht3]
          simp only [flush_request, hpp, if_true, Option.some.injEq]
          by_cases hkT : k = p.flush_before_teidin
          · subst hkT
            simp [hT]
          · have hkT' : ¬ p.flush_before_teidin = k := fun e => hkT e.symm
            simp only [hkT, hkT', hk, if_false]
            cases Map.find s.tunnels k <;> simp

/-- C5 (amended) at the state with the single tunnel 1, asking for a flush
before tunnel 1: the call returns TEID 2 and appends it to the list. -/
theorem C5_add_bearer_plain_witness :
    ∃ s', add_bearer 11 env_quiet ex_one 0x46 3 11 21 (some (props_flush_before 1)) = .ok s' 2 ∧
      bearer_list s' 0x46 3 = [1, 2] := by
  obtain ⟨s', h1, _, _, _, hb, _⟩ :=
    C5_add_bearer_plain 11 env_quiet ex_one 0x46 3 11 21 (some (props_flush_before 1))
      (by decide) (by decide) (by decide) (by decide)
      (by
        intro T hT
        simp only [flush_request, props_flush_before, if_true, Option.some.injEq] at hT
        subst hT
        decide)
  exact ⟨s', h1, hb⟩

/-! ## C6: allocation of a forwarding tunnel -/

theorem to_int_small (n : Nat) (h : n < 2 ^ 31) : to_int n = (n : Int) := by
  unfold to_int
  have : n % 2 ^ 32 = n := Nat.mod_eq_of_lt (by omega)
  rw [this, if_pos h]

theorem send_pdu_log (env : Env) (s : gtpu) (rnti lcid : Nat) (p : Nat × Packet)
    (teidout spgw_addr : Nat) (hsn : p.1 < 2 ^ 31)
    (hwr : ∀ h pdu, env.gtpu_write_header h pdu = true) :
    (send_pdu_to_tunnel env s rnti lcid p.2 teidout spgw_addr (to_int p.1)).log =
      s.log ++ (if valid_ip p.2 then [fwd_datagram spgw_addr teidout p] else []) := by
  unfold send_pdu_to_tunnel valid_ip
  rw [to_int_small _ hsn]
  by_cases h4 : ip_version p.2 = 4
  · simp [h4, hwr, fwd_datagram, GTPU_FLAGS_VERSION_V1, GTPU_FLAGS_GTP_PROTOCOL,
      GTPU_FLAGS_EXTENDED_HDR, GTPU_MSG_DATA_PDU, GTPU_EXT_HEADER_PDCP_PDU_NUMBER, GTPU_PORT]
  · by_cases h6 : ip_version p.2 = 6
    · simp [h6, hwr, fwd_datagram, GTPU_FLAGS_VERSION_V1, GTPU_FLAGS_GTP_PROTOCOL,
        GTPU_FLAGS_EXTENDED_HDR, GTPU_MSG_DATA_PDU, GTPU_EXT_HEADER_PDCP_PDU_NUMBER, GTPU_PORT]
    · simp [h4, h6]

theorem send_all_log (env : Env) (rnti lcid teidout spgw_addr : Nat)
    (hwr : ∀ h pdu, env.gtpu_write_header h pdu = true)
    (pdus : List (Nat × Packet)) :
    ∀ s : gtpu, (∀ p ∈ pdus, p.1 < 2 ^ 31) →
      (pdus.foldl
        (fun st p => send_pdu_to_tunnel env st rnti lcid p.2 teidout spgw_addr (to_int p.1))
        s).log =
      s.log ++ (pdus.filter fun p => valid_ip p.2).map (fwd_datagram spgw_addr teidout) := by
  induction pdus with
  | nil => intro s _; simp
  | cons p ps ih =>
    intro s hsn
    simp only [List.foldl_cons]
    rw [ih _ (fun q hq => hsn q (List.mem_cons_of_mem _ hq)),
      send_pdu_log env s rnti lcid p teidout spgw_addr (hsn p (List.mem_cons_self _ _)) hwr]
    by_cases hv : valid_ip p.2 = true
    · simp [hv, List.filter_cons]
    · simp [hv, List.filter_cons]

theorem fwd_datagram_eq (addr teid_out : Nat) (p : Nat × Packet) :
    fwd_datagram addr teid_out p =
      Event.sendto (.host_order addr 2152) (fwd_header teid_out p) p.2 none := rfl

theorem gpdu_datagram_eq (addr teid_out : Nat) (pdu : Packet) :
    gpdu_datagram addr teid_out pdu =
      Event.sendto (.host_order addr 2152) (gpdu_header teid_out pdu) pdu none := rfl

/-- One buffered PDU handed to `send_pdu_to_tunnel`: the datagram is sent
exactly when the IP version is valid and the writer succeeds on the header of
that datagram. -/
theorem send_pdu_log_writer (env : Env) (s : gtpu) (rnti lcid : Nat) (p : Nat × Packet)
    (teidout spgw_addr : Nat) (hsn : p.1 < 2 ^ 31) :
    (send_pdu_to_tunnel env s rnti lcid p.2 teidout spgw_addr (to_int p.1)).log =
      s.log ++ (if fwd_sent env teidout p = true then [fwd_datagram spgw_addr teidout p]
        else []) := by
  unfold send_pdu_to_tunnel fwd_sent valid_ip
  rw [to_int_small _ hsn]
  have hnn : ((p.1 : Nat) : Int) ≥ 0 := Int.ofNat_nonneg _
  have hhdr : ({ flags := (GTPU_FLAGS_VERSION_V1 ||| GTPU_FLAGS_GTP_PROTOCOL) |||
                   GTPU_FLAGS_EXTENDED_HDR,
                 message_type := GTPU_MSG_DATA_PDU, length := p.2.length % 2 ^ 16,
                 teid := teidout, next_ext_hdr_type := GTPU_EXT_HEADER_PDCP_PDU_NUMBER,
                 ext_buffer := [0x01, (p.1 >>> 8) &&& 0xff, p.1 &&& 0xff, 0] } : gtpu_header_t) =
      fwd_header teidout p := rfl
  by_cases hg : ip_version p.2 ≠ 4 ∧ ip_version p.2 ≠ 6
  · rw [if_pos hg]
    have : ((ip_version p.2 == 4 || ip_version p.2 == 6) = false) := by
      simp [hg.1, hg.2]
    rw [this]
    simp
  · rw [if_neg hg]
    have hv : ((ip_version p.2 == 4 || ip_version p.2 == 6) = true) := by
      by_cases h4 : ip_version p.2 = 4
      · simp [h4]
      · have h6 : ip_version p.2 = 6 := by
          by_contra h6
          exact hg ⟨h4, h6⟩
        simp [h6]
    rw [hv, Bool.true_and]
    simp only [hnn, if_true, Int.toNat_ofNat]
    rw [hhdr]
    by_cases hw : env.gtpu_write_header (fwd_header teidout p) p.2 = true
    · rw [if_pos hw, if_pos hw]
      rfl
    · rw [if_neg hw, if_neg hw]
      simp

theorem send_all_log_writer (env : Env) (rnti lcid teidout spgw_addr : Nat)
    (pdus : List (Nat × Packet)) :
    ∀ s : gtpu, (∀ p ∈ pdus, p.1 < 2 ^ 31) →
      (pdus.foldl
        (fun st p => send_pdu_to_tunnel env st rnti lcid p.2 teidout spgw_addr (to_int p.1))
        s).log =
      s.log ++ (pdus.filter (fwd_sent env teidout)).map (fwd_datagram spgw_addr teidout) := by
  induction pdus with
  | nil => intro s _; simp
  | cons p ps ih =>
    intro s hsn
    simp only [List.foldl_cons]
    rw [ih _ (fun q hq => hsn q (List.mem_cons_of_mem _ hq)),
      send_pdu_log_writer env s rnti lcid p teidout spgw_addr (hsn p (List.mem_cons_self _ _))]
    by_cases hv : fwd_sent env teidout p = true
    · simp [hv, List.filter_cons]
    · simp [hv, List.filter_cons]

theorem add_bearer_flush_fields {s s4 : gtpu} {p : bearer_props} {n : Nat}
    (h : (add_bearer_flush s p n).state? = some s4) (k : Nat) (rec : tunnel)
    (hk : Map.find s.tunnels k = some rec) :
    ∃ rec', Map.find s4.tunnels k = some rec' ∧ rec'.rnti = rec.rnti ∧ rec'.lcid = rec.lcid ∧
      rec'.teid_out = rec.teid_out ∧ rec'.spgw_addr = rec.spgw_addr := by
  unfold add_bearer_flush at h
  by_cases hp : p.flush_before_teidin_present = true
  · simp only [hp, if_true] at h
    cases hf : Map.find s.tunnels p.flush_before_teidin with
    | none =>
      rw [hf] at h
      simp only [Res.state?, Option.some.injEq] at h
      subst h
      exact ⟨rec, hk, rfl, rfl, rfl, rfl⟩
    | some after_tun =>
      rw [hf] at h
      simp only [Res.state?, Option.some.injEq] at h
      subst h
      dsimp only
      rw [Map.find_set]
      by_cases hkk : k = p.flush_before_teidin
      · subst hkk
        rw [hf] at hk
        simp only [Option.some.injEq] at hk
        subst hk
        exact ⟨{ after_tun with prior_teid_in_present := true, prior_teid_in := n }, by simp,
          rfl, rfl, rfl, rfl⟩
      · simp only [hkk, if_false]
        exact ⟨rec, hk, rfl, rfl, rfl, rfl⟩
  · simp only [hp, Bool.false_eq_true, if_false, Res.state?, Option.some.injEq] at h
    subst h
    exact ⟨rec, hk, rfl, rfl, rfl, rfl⟩

theorem add_bearer_flush_ok {s : gtpu} {p : bearer_props} (n : Nat)
    (h : p.flush_before_teidin_present = true → registered s p.flush_before_teidin = true) :
    ∃ s4, add_bearer_flush s p n = .ok s4 () := by
  rcases add_bearer_flush_ok_or_thrown s p n with h1 | h1
  · exact h1
  · exfalso
    unfold add_bearer_flush at h1
    by_cases hp : p.flush_before_teidin_present = true
    · have hr := h hp
      unfold registered at hr
      simp only [hp, if_true] at h1
      cases hf : Map.find s.tunnels p.flush_before_teidin with
      | none => rw [hf] at hr; simp at hr
      | some a => rw [hf] at h1; cases h1
    · simp only [hp, Bool.false_eq_true, if_false] at h1
      cases h1

/-- C6 as stated fails in four ways.  With the counter at 2^32 - 1 the call
returns TEID 0.  A PDU buffered under sequence number 2^31 is passed as a
negative `int`, so it is sent with flags 0x30 and without extension.  A
`flush_before_teidin` that is not a key makes the call throw; an `lcid` of 11
indexes the array of eleven lists out of range. -/
theorem C6_fails_outside_preconditions :
    (add_bearer 11 env_quiet ex_wrap 0x46 3 11 21 (some (props_forward_from 1))).val? = some 0 ∧
    ((add_bearer 11 env_big_sn ex_one 0x46 3 11 21 (some (props_forward_from 1))).state?.map
      fun s => s.log) =
      some [Event.sendto (.host_order 11 2152)
        { flags := 0x30, message_type := 0xFF, length := 4, teid := 21 } [0x45, 0, 0, 1] none] ∧
    (add_bearer 11 env_quiet ex_one 0x46 3 11 21
      (some { forward_from_teidin_present := true, forward_from_teidin := 1,
              flush_before_teidin_present := true, flush_before_teidin := 7 })).val? = none ∧
    (add_bearer 11 env_quiet ex_one 0x46 11 11 21
      (some (props_forward_from 1))).state?.isNone = true := by
  decide

/-- C6, amended.  In a state with counter `c < 2^32 - 1` where `c + 1` is not
a key and `F` is, a call with `lcid` inside the array, `forward_from_teidin =
F`, a `flush_before_teidin` that (if present) is a key and buffered sequence
numbers below 2^31 returns `c + 1`, sets `forward_to` of `F` to `c + 1`, and
appends to the log one datagram per buffered PDU of `F`'s bearer that has IP
version 4 or 6 and on whose header (`fwd_header`) the header writer succeeds,
in the order of the map (ascending sequence numbers), each as `fwd_datagram`
prescribes.  When the writer succeeds on the header of every buffered PDU
with IP version 4 or 6, these are all the buffered PDUs with IP version 4 or
6. -/
theorem C6_add_bearer_forwarding (nb : Nat) (env : Env) (s : gtpu)
    (rnti lcid addr teid_out : Nat) (props : Option bearer_props) (F : Nat) (recF : tunnel)
    (hw : s.next_teid_in + 1 < 2 ^ 32) (hl : lcid < nb)
    (hfresh : registered s (s.next_teid_in + 1) = false)
    (hF : Map.find s.tunnels F = some recF)
    (hfwd : forward_request props = some F)
    (hflush : ∀ T, flush_request props = some T → registered s T = true)
    (hsn : ∀ p ∈ env.get_buffered_pdus recF.rnti recF.lcid, p.1 < 2 ^ 31) :
    ∃ s', add_bearer nb env s rnti lcid addr teid_out props = .ok s' (s.next_teid_in + 1) ∧
      s.next_teid_in + 1 ≠ 0 ∧
      forward_to s' F = some (s.next_teid_in + 1) ∧
      s'.log = s.log ++
        ((env.get_buffered_pdus recF.rnti recF.lcid).filter (fwd_sent env teid_out)).map
          (fwd_datagram addr teid_out) ∧
      ((∀ p ∈ env.get_buffered_pdus recF.rnti recF.lcid, valid_ip p.2 = true →
          env.gtpu_write_header (fwd_header teid_out p) p.2 = true) →
        s'.log = s.log ++
          ((env.get_buffered_pdus recF.rnti recF.lcid).filter fun p => valid_ip p.2).map
            (fwd_datagram addr teid_out)) ∧
      ((env.get_buffered_pdus recF.rnti recF.lcid).Pairwise (fun a b => a.1 < b.1) →
        ((env.get_buffered_pdus recF.rnti recF.lcid).filter (fwd_sent env teid_out)).Pairwise
          (fun a b => a.1 < b.1) ∧
        ((env.get_buffered_pdus recF.rnti recF.lcid).filter fun p => valid_ip p.2).Pairwise
          (fun a b => a.1 < b.1)) := by
  have hmod : (s.next_teid_in + 1) % 2 ^ 32 = s.next_teid_in + 1 := Nat.mod_eq_of_lt hw
  have hnone : Map.find s.tunnels (s.next_teid_in + 1) = none := by
    unfold registered at hfresh
    cases hf : Map.find s.tunnels (s.next_teid_in + 1) with
    | none => rfl
    | some r => rw [hf] at hfresh; simp at hfresh
  have hFne : F ≠ s.next_teid_in + 1 := by
    intro e; rw [e, hnone] at hF; cases hF
  have ht3 := add_bearer_alloc_tunnels s rnti lcid addr teid_out
  have hn3 := add_bearer_alloc_next s rnti lcid addr teid_out
  rw [hmod] at ht3 hn3
  simp only [hnone, Option.getD_none] at ht3
  have hnew := ht3 (s.next_teid_in + 1)
  simp only [if_true] at hnew
  have hF3 := ht3 F
  simp only [hFne, if_false, hF] at hF3
  cases props with
  | none => simp [forward_request] at hfwd
  | some p =>
    have hpf : p.forward_from_teidin_present = true ∧ p.forward_from_teidin = F := by
      simp only [forward_request] at hfwd
      cases hp : p.forward_from_teidin_present with
      | false => rw [hp] at hfwd; simp at hfwd
      | true => rw [hp] at hfwd; simp only [if_true, Option.some.injEq] at hfwd; exact ⟨rfl, hfwd⟩
    obtain ⟨s4, h4⟩ := add_bearer_flush_ok (s := add_bearer_alloc s rnti lcid addr teid_out)
      (s.next_teid_in + 1) (p := p) (by
        intro hp
        have hreg := hflush p.flush_before_teidin (by simp [flush_request, hp])
        unfold registered at hreg ⊢
        rw [ht3]
        have : p.flush_before_teidin ≠ s.next_teid_in + 1 := by
          intro e; rw [e, hnone] at hreg; simp at hreg
        simp only [this, if_false]
        exact hreg)
    have hst4 : (add_bearer_flush (add_bearer_alloc s rnti lcid addr teid_out) p
        (s.next_teid_in + 1)).state? = some s4 := by rw [h4]; rfl
    obtain ⟨_, _, _, hlog4⟩ := add_bearer_flush_inv hst4
    obtain ⟨recF4, hF4, hr1, hr2, _, _⟩ := add_bearer_flush_fields hst4 F recF hF3
    obtain ⟨new4, hnew4, _, _, hq4, ha4⟩ := add_bearer_flush_fields hst4 _ _ hnew
    dsimp only at hq4 ha4
    have hfr := send_all_frame env recF4.rnti recF4.lcid new4.teid_out new4.spgw_addr
      (env.get_buffered_pdus recF4.rnti recF4.lcid)
    have hlg := send_all_log_writer env recF4.rnti recF4.lcid new4.teid_out new4.spgw_addr
      (env.get_buffered_pdus recF4.rnti recF4.lcid)
    unfold add_bearer
    simp only [hl, if_true, hn3, h4, Res.bind_ok, hpf.1, hpf.2]
    unfold create_dl_fwd_tunnel
    simp only [hF4, hnew4, Res.bind_ok]
    have hrc : ¬ (SRSLTE_SUCCESS ≠ SRSLTE_SUCCESS) := fun h => h rfl
    rw [if_neg hrc]
    have hlogeq : (List.foldl
          (fun st p =>
            send_pdu_to_tunnel env st recF4.rnti recF4.lcid p.2 new4.teid_out new4.spgw_addr
              (to_int p.1))
          { s4 with
            tunnels := Map.set s4.tunnels F
              { recF4 with fwd_teid_in_present := true, fwd_teid_in := s.next_teid_in + 1 } }
          (env.get_buffered_pdus recF4.rnti recF4.lcid)).log =
        s.log ++
          ((env.get_buffered_pdus recF.rnti recF.lcid).filter (fwd_sent env teid_out)).map
            (fwd_datagram addr teid_out) := by
      rw [hlg _ (by rw [hr1, hr2]; exact hsn)]
      dsimp only
      rw [hlog4, hr1, hr2, hq4, ha4]
      rfl
    refine ⟨_, rfl, by omega, ?_, hlogeq, ?_, ?_⟩
    · unfold forward_to
      rw [(hfr _).1]
      dsimp only
      rw [Map.find_set]
      simp
    · intro hall
      rw [hlogeq]
      have hf : (env.get_buffered_pdus recF.rnti recF.lcid).filter (fwd_sent env teid_out) =
          (env.get_buffered_pdus recF.rnti recF.lcid).filter fun p => valid_ip p.2 := by
        apply List.filter_congr
        intro p hp
        unfold fwd_sent
        cases hv : valid_ip p.2 with
        | false => rfl
        | true => rw [hall p hp hv]; rfl
      rw [hf]
    · intro hs
      exact ⟨hs.filter _, hs.filter _⟩

/-- C6 (amended) at the state with the single tunnel 1 while PDCP holds PDUs
7 (IPv4), 8 (version 0) and 300 (IPv6): the call returns TEID 2, tunnel 1
forwards to it, and the PDUs 7 and 300 are sent in that order. -/
theorem C6_add_bearer_forwarding_witness :
    ∃ s', add_bearer 11 env_buffered ex_one 0x46 3 11 21 (some (props_forward_from 1)) =
        .ok s' 2 ∧
      forward_to s' 1 = some 2 ∧
      s'.log = [fwd_datagram 11 21 (7, [0x45, 1]), fwd_datagram 11 21 (300, [0x60, 2, 3])] := by
  obtain ⟨s', h1, _, h2, h3, _⟩ :=
    C6_add_bearer_forwarding 11 env_buffered ex_one 0x46 3 11 21 (some (props_forward_from 1)) 1
      { teid_in := 1, rnti := 0x46, lcid := 3, spgw_addr := 10, teid_out := 20 }
      (by decide) (by decide) (by decide) (by decide) (by decide)
      (by intro T hT; simp [flush_request, props_forward_from] at hT)
      (by decide)
  exact ⟨s', h1, h2, by rw [h3]; decide⟩

/-! ## C7: roll-back of a failed forwarding request -/

/-- C7, the code at a failing call.  From the state with the single tunnel 1,
a call with `flush_before_teidin = 1` and `forward_from_teidin = 9` (not a
key) returns 0 and removes the new tunnel 2 again, but tunnel 1, which had no
`flush_after`, keeps `flush_after = 2`: a pre-existing record has changed and
names a TEID that is not registered. -/
theorem C7_rollback_keeps_flush_flag :
    flush_after ex_one 1 = none ∧
    (add_bearer 11 env_quiet ex_one 0x46 3 11 21
      (some { flush_before_teidin_present := true, flush_before_teidin := 1,
              forward_from_teidin_present := true, forward_from_teidin := 9 })).val? = some 0 ∧
    ((add_bearer 11 env_quiet ex_one 0x46 3 11 21
      (some { flush_before_teidin_present := true, flush_before_teidin := 1,
              forward_from_teidin_present := true, forward_from_teidin := 9 })).state?.map
      fun s => (flush_after s 1, registered s 2, bearer_list s 0x46 3)) =
      some (some 2, false, [1]) := by
  decide

/-- Support for C7: without a flush request the roll-back is exact.  From a
consistent state, a call with `lcid` inside the array, a next TEID that is
not a key, no `flush_before_teidin`, and a `forward_from_teidin` that is
neither a key nor the next TEID returns 0, and every look-up in the registry
and every bearer list gives what it gave before the call. -/
theorem add_bearer_rollback (nb : Nat) (env : Env) (s : gtpu) (rnti lcid addr teid_out : Nat)
    (props : Option bearer_props) (F : Nat)
    (hc : Consistent nb s) (hl : lcid < nb)
    (hfresh : registered s ((s.next_teid_in + 1) % 2 ^ 32) = false)
    (hfwd : forward_request props = some F) (hF : registered s F = false)
    (hFn : F ≠ (s.next_teid_in + 1) % 2 ^ 32)
    (hflush : flush_request props = none) :
    ∃ s', add_bearer nb env s rnti lcid addr teid_out props = .ok s' 0 ∧
      (∀ k, Map.find s'.tunnels k = Map.find s.tunnels k) ∧
      (∀ r l, bearer_list s' r l = bearer_list s r l) ∧
      s'.tx_seq = s.tx_seq ∧ s'.log = s.log := by
  have hnone : Map.find s.tunnels ((s.next_teid_in + 1) % 2 ^ 32) = none := by
    unfold registered at hfresh
    cases hf : Map.find s.tunnels ((s.next_teid_in + 1) % 2 ^ 32) with
    | none => rfl
    | some r => rw [hf] at hfresh; simp at hfresh
  have hFnone : Map.find s.tunnels F = none := by
    unfold registered at hF
    cases hf : Map.find s.tunnels F with
    | none => rfl
    | some r => rw [hf] at hF; simp at hF
  generalize hn : (s.next_teid_in + 1) % 2 ^ 32 = n at hnone hFn
  have ht3 := add_bearer_alloc_tunnels s rnti lcid addr teid_out
  have hd3 := add_bearer_alloc_db s rnti lcid addr teid_out
  have hn3 := add_bearer_alloc_next s rnti lcid addr teid_out
  rw [hn] at ht3 hd3 hn3
  simp only [hnone, Option.getD_none] at ht3
  have hnew := ht3 n
  simp only [if_true] at hnew
  have hF3 := ht3 F
  simp only [hFn, if_false, hFnone] at hF3
  have hdb3 := hd3 rnti
  simp only [if_true] at hdb3
  have hnotin : n ∉ bearer_list s rnti lcid := by
    intro hmem
    unfold bearer_list at hmem
    cases hfd : Map.find s.ue_teidin_db rnti with
    | none => rw [hfd] at hmem; simp at hmem
    | some a0 =>
      rw [hfd] at hmem
      have := hc.2 rnti a0 lcid hfd hl n hmem
      rw [hnone] at this; simp at this
  have harr : ∀ l, ((Map.find s.ue_teidin_db rnti).getD fun _ => []) l = bearer_list s rnti l := by
    intro l
    unfold bearer_list
    cases Map.find s.ue_teidin_db rnti <;> rfl
  cases props with
  | none => simp [forward_request] at hfwd
  | some p =>
    have hpf : p.forward_from_teidin_present = true ∧ p.forward_from_teidin = F := by
      simp only [forward_request] at hfwd
      cases hp : p.forward_from_teidin_present with
      | false => rw [hp] at hfwd; simp at hfwd
      | true => rw [hp] at hfwd; simp only [if_true, Option.some.injEq] at hfwd; exact ⟨rfl, hfwd⟩
    have hpp : p.flush_before_teidin_present = false := by
      simp only [flush_request] at hflush
      cases hp : p.flush_before_teidin_present with
      | false => rfl
      | true => rw [hp] at hflush; simp at hflush
    have hrc : SRSLTE_ERROR ≠ SRSLTE_SUCCESS := by decide
    unfold add_bearer
    simp only [hl, if_true, hn3]
    unfold add_bearer_flush
    simp only [hpp, Bool.false_eq_true, if_false, Res.bind_ok, hpf.1, hpf.2, if_true]
    unfold create_dl_fwd_tunnel
    simp only [hF3, Res.bind_ok]
    rw [if_pos hrc]
    unfold rem_tunnel
    simp only [hnew, Bool.false_eq_true, if_false, Res.bind_ok, hdb3, hl, if_true]
    refine ⟨_, rfl, ?_, ?_, rfl, rfl⟩
    · intro k
      dsimp only
      rw [Map.find_erase, ht3]
      by_cases hk : k = n
      · simp only [hk, if_true]; exact hnone.symm
      · simp only [hk, if_false]
    · intro r l
      unfold bearer_list
      dsimp only
      rw [Map.find_set, hd3]
      by_cases hr : r = rnti
      · subst hr
        simp only [if_true]
        by_cases hll : l = lcid
        · subst hll
          simp only [upd_same]
          rw [List.filter_append, harr]
          have h1 : (bearer_list s r l).filter (fun t => decide (t ≠ n)) = bearer_list s r l := by
            rw [List.filter_eq_self]
            intro a ha
            have : a ≠ n := fun e => hnotin (e ▸ ha)
            simpa using this
          rw [h1]
          simp [bearer_list]
        · rw [upd_other _ _ _ _ hll, upd_other _ _ _ _ hll, harr]
          simp [bearer_list]
      · simp only [hr, if_false]

/-! ## C8: change of RNTI -/

/-- C8.  From a consistent state in which `old_rnti` has a user entry and
`new_rnti` has none, `mod_bearer_rnti` returns; every bearer list of
`old_rnti` is the list of the same bearer of `new_rnti`, element by element;
every TEID of those lists is a record with `rnti = new_rnti`; `old_rnti` has
no user entry and no record has `rnti = old_rnti`; each record is the record
it was, except for `rnti` where that was `old_rnti`; other users, the
counters and the log are as before. -/
theorem C8_mod_bearer_rnti (nb : Nat) (s : gtpu) (old_rnti new_rnti : Nat)
    (hc : Consistent nb s) (hold : user_exists s old_rnti = true)
    (hnew : user_exists s new_rnti = false) :
    ∃ s', mod_bearer_rnti nb s old_rnti new_rnti = .ok s' () ∧
      (∀ l i t : Nat, l < nb → (bearer_list s old_rnti l)[i]? = some t →
        (bearer_list s' new_rnti l)[i]? = some t ∧
        ∃ rec', Map.find s'.tunnels t = some rec' ∧ rec'.rnti = new_rnti) ∧
      user_exists s' old_rnti = false ∧
      (∀ t rec', Map.find s'.tunnels t = some rec' → rec'.rnti ≠ old_rnti) ∧
      (∀ t, Map.find s'.tunnels t =
        (Map.find s.tunnels t).map fun rec =>
          if rec.rnti = old_rnti then { rec with rnti := new_rnti } else rec) ∧
      (∀ r, r ≠ old_rnti → r ≠ new_rnti →
        Map.find s'.ue_teidin_db r = Map.find s.ue_teidin_db r) ∧
      s'.next_teid_in = s.next_teid_in ∧ s'.tx_seq = s.tx_seq ∧ s'.log = s.log := by
  unfold user_exists at hold hnew
  cases ho : Map.find s.ue_teidin_db old_rnti with
  | none => rw [ho] at hold; simp at hold
  | some arr =>
    cases hn : Map.find s.ue_teidin_db new_rnti with
    | some a => rw [hn] at hnew; simp at hnew
    | none =>
      have hne : new_rnti ≠ old_rnti := by
        intro e; rw [e, ho] at hn; cases hn
      obtain ⟨s', h1, hdb, htun, hnx, hsq, hlg⟩ := mod_bearer_rnti_spec hc ho hn
      refine ⟨s', h1, ?_, ?_, ?_, htun, ?_, hnx, hsq, hlg⟩
      · intro l i t hl hget
        rw [bearer_list_eq ho] at hget
        have hnew' : Map.find s'.ue_teidin_db new_rnti = some arr := by
          rw [hdb]; simp [hne]
        rw [bearer_list_eq hnew']
        refine ⟨hget, ?_⟩
        have hmem : t ∈ arr l := List.getElem?_mem hget
        have hreg := hc.2 old_rnti arr l ho hl t hmem
        cases hf : Map.find s.tunnels t with
        | none => rw [hf] at hreg; simp at hreg
        | some rec =>
          have hr := ((hc.1 t rec hf).2.2 old_rnti arr l ho hl hmem).1
          refine ⟨{ rec with rnti := new_rnti }, ?_, rfl⟩
          rw [htun, hf]
          simp [← hr]
      · unfold user_exists
        rw [hdb]; simp
      · intro t rec' hrec'
        rw [htun] at hrec'
        cases hf : Map.find s.tunnels t with
        | none => rw [hf] at hrec'; simp at hrec'
        | some rec =>
          rw [hf] at hrec'
          simp only [Option.map_some', Option.some.injEq] at hrec'
          by_cases hr : rec.rnti = old_rnti
          · simp only [hr, if_true] at hrec'
            rw [← hrec']
            exact hne
          · simp only [hr, if_false] at hrec'
            rw [← hrec']
            exact hr
      · intro r hr1 hr2
        rw [hdb]; simp [hr1, hr2]

/-- C8 on scenario S6: after `mod_bearer_rnti(0x100, 0x200)` user 0x100 has
no entry and tunnels 1 and 2 are still first in bearers 3 and 4, now of user
0x200. -/
theorem C8_mod_bearer_rnti_witness :
    ∃ s', mod_bearer_rnti 11 ex_s6 0x100 0x200 = .ok s' () ∧
      user_exists s' 0x100 = false ∧
      (bearer_list s' 0x200 3)[0]? = some 1 ∧ (bearer_list s' 0x200 4)[0]? = some 2 ∧
      (∃ rec', Map.find s'.tunnels 1 = some rec' ∧ rec'.rnti = 0x200) ∧
      (∃ rec', Map.find s'.tunnels 2 = some rec' ∧ rec'.rnti = 0x200) := by
  obtain ⟨s', h1, h2, h3, _⟩ :=
    C8_mod_bearer_rnti 11 ex_s6 0x100 0x200 (Consistent_of_check 11 ex_s6 (by decide))
      (by decide) (by decide)
  exact ⟨s', h1, h3, (h2 3 0 1 (by decide) (by decide)).1, (h2 4 0 2 (by decide) (by decide)).1,
    (h2 3 0 1 (by decide) (by decide)).2, (h2 4 0 2 (by decide) (by decide)).2⟩

/-! ## C9: removing a tunnel twice -/

/-- C9.  In every state and for every TEID, `rem_tunnel` followed by
`rem_tunnel` of the same TEID ends exactly as the single call does (same
state, log of datagrams included, or the same undefined behaviour); and
`rem_tunnel` of a TEID that is not a key returns with the state, log
included, as it was. -/
theorem C9_rem_tunnel_idempotent (nb : Nat) (s : gtpu) (t : Nat) :
    ((rem_tunnel nb s t).bind fun s1 _ => rem_tunnel nb s1 t) = rem_tunnel nb s t ∧
    (registered s t = false → rem_tunnel nb s t = .ok s ()) := by
  have hnone : ∀ s0 : gtpu, Map.find s0.tunnels t = none → rem_tunnel nb s0 t = .ok s0 () := by
    intro s0 h0
    unfold rem_tunnel
    rw [h0]
  refine ⟨?_, ?_⟩
  · rcases rem_tunnel_ok_or_ub nb s t with ⟨s1, h1⟩ | h1
    · rw [h1]
      simp only [Res.bind_ok]
      have hst : (rem_tunnel nb s t).state? = some s1 := by rw [h1]; rfl
      apply hnone
      rcases rem_tunnel_inv hst with ⟨h0, e⟩ | ⟨_, _, _, _, _, _, ht, _⟩
      · rw [e]; exact h0
      · rw [ht]; simp
    · rw [h1]; rfl
  · intro hreg
    apply hnone
    unfold registered at hreg
    cases hf : Map.find s.tunnels t with
    | none => rfl
    | some r => rw [hf] at hreg; simp at hreg

/-- C9 at the example state `ex_fwd`: removing tunnel 2 twice ends as removing
it once, and removing the unregistered TEID 9 leaves the state as it is. -/
theorem C9_rem_tunnel_idempotent_witness :
    ((rem_tunnel 11 ex_fwd 2).bind fun s1 _ => rem_tunnel 11 s1 2) = rem_tunnel 11 ex_fwd 2 ∧
    rem_tunnel 11 ex_fwd 9 = .ok ex_fwd () :=
  ⟨(C9_rem_tunnel_idempotent 11 ex_fwd 2).1, (C9_rem_tunnel_idempotent 11 ex_fwd 9).2 (by decide)⟩

/-! ## C10: removal and the user entry -/

/-- C10, the code at failing runs.  After one allocation for user 0x46,
`rem_user(0x46)` and `rem_tunnel(1)` both remove the tunnel but leave the
user entry in the bearer index, while `rem_bearer(0x46, 3)` erases it.  With
the entry left behind, a later `mod_bearer_rnti(0x47, 0x46)` finds "new rnti
already exists" and leaves the tunnel of user 0x47 where it was. -/
theorem C10_user_entry_survives :
    (run_calls 11 [.add_bearer env_quiet 0x46 3 10 20 none, .rem_user 0x46] gtpu_initial).map
      (fun s => (registered s 1, user_exists s 0x46)) = some (false, true) ∧
    (run_calls 11 [.add_bearer env_quiet 0x46 3 10 20 none, .rem_tunnel 1] gtpu_initial).map
      (fun s => (registered s 1, user_exists s 0x46)) = some (false, true) ∧
    (run_calls 11 [.add_bearer env_quiet 0x46 3 10 20 none, .rem_bearer 0x46 3] gtpu_initial).map
      (fun s => (registered s 1, user_exists s 0x46)) = some (false, false) ∧
    (run_calls 11
        [.add_bearer env_quiet 0x46 3 10 20 none, .rem_user 0x46,
         .add_bearer env_quiet 0x47 3 10 20 none, .mod_bearer_rnti 0x47 0x46] gtpu_initial).map
      (fun s => ((Map.find s.tunnels 2).map tunnel.rnti, bearer_list s 0x46 3)) =
      some (some 0x47, []) := by
  decide

/-! ## C11: Error Indication for an unknown TEID -/

/-- The receive handler on a message with a non-zero TEID that is not a key. -/
theorem handle_unknown_teid {n_srb nb : Nat} {env : Env} {s : gtpu} {raw payload : Packet}
    {header : gtpu_header_t} (addr port : Nat)
    (hparse : env.gtpu_read_header raw = some (header, payload))
    (hne : header.teid ≠ 0) (hun : registered s header.teid = false) :
    handle_gtpu_s1u_rx_packet n_srb nb env s raw addr port =
      .ok (error_indication s addr port header.teid) () := by
  unfold handle_gtpu_s1u_rx_packet
  rw [hparse]
  unfold registered at hun
  have : (Map.find s.tunnels header.teid).isNone = true := by
    cases hf : Map.find s.tunnels header.teid with
    | none => rfl
    | some r => rw [hf] at hun; simp at hun
  simp only [hne, this, ne_eq, not_false_eq_true, and_self, if_true]

/-- C11 as stated fails on the sequence number.  With `tx_seq = 65536` the
Error Indication carries sequence number 0, the low 16 bits of the counter;
with `tx_seq = 2^32 - 1` the counter is 0 after the call. -/
theorem C11_sequence_number_narrowed :
    ((handle_gtpu_s1u_rx_packet 3 11
        (env_parsed { flags := 0x30, message_type := 0xFF, teid := 0xDEAD })
        { tx_seq := 65536 } [0x45, 0] 7 40000).state?.map fun s => (s.log, s.tx_seq)) =
      some ([error_indication_datagram 7 40000 0xDEAD 0], 65537) ∧
    ((handle_gtpu_s1u_rx_packet 3 11
        (env_parsed { flags := 0x30, message_type := 0xFF, teid := 0xDEAD })
        { tx_seq := 2 ^ 32 - 1 } [0x45, 0] 7 40000).state?.map fun s => s.tx_seq) = some 0 := by
  decide

/-- C11, amended.  For every state and every parsed message whose header
TEID is non-zero and not a key of the registry, received from `(addr,
port)`: the handler returns, the log gains exactly one datagram, the Error
Indication to `(addr, port)` with flags 0x32, message type 0x1A, the
offending TEID, length 4 and the low 16 bits of `tx_seq` as sequence number;
`tx_seq` is stepped by one modulo 2^32, so the next indication carries the
next sequence number modulo 2^16; nothing is delivered and the registry, the
bearer index and the TEID counter are unchanged.  While `tx_seq` is below
2^16 the sequence number is `tx_seq` itself and the counter is `tx_seq + 1`
afterwards. -/
theorem C11_error_indication (n_srb nb : Nat) (env : Env) (s : gtpu) (raw payload : Packet)
    (header : gtpu_header_t) (addr port : Nat)
    (hparse : env.gtpu_read_header raw = some (header, payload))
    (hne : header.teid ≠ 0) (hun : registered s header.teid = false) :
    ∃ s', handle_gtpu_s1u_rx_packet n_srb nb env s raw addr port = .ok s' () ∧
      s'.log = s.log ++ [error_indication_datagram addr port header.teid (s.tx_seq % 2 ^ 16)] ∧
      s'.tx_seq = (s.tx_seq + 1) % 2 ^ 32 ∧
      s'.tx_seq % 2 ^ 16 = (s.tx_seq + 1) % 2 ^ 16 ∧
      s'.tunnels = s.tunnels ∧ s'.ue_teidin_db = s.ue_teidin_db ∧
      s'.next_teid_in = s.next_teid_in ∧
      (s.tx_seq < 2 ^ 16 →
        s'.log = s.log ++ [error_indication_datagram addr port header.teid s.tx_seq] ∧
        s'.tx_seq = s.tx_seq + 1) := by
  refine ⟨_, handle_unknown_teid addr port hparse hne hun, rfl, rfl, ?_, rfl, rfl, rfl, ?_⟩
  · show (s.tx_seq + 1) % 2 ^ 32 % 2 ^ 16 = (s.tx_seq + 1) % 2 ^ 16
    omega
  · intro h
    have h1 : s.tx_seq % 2 ^ 16 = s.tx_seq := Nat.mod_eq_of_lt h
    have h2 : (s.tx_seq + 1) % 2 ^ 32 = s.tx_seq + 1 := Nat.mod_eq_of_lt (by omega)
    refine ⟨?_, h2⟩
    show s.log ++ [error_indication_datagram addr port header.teid (s.tx_seq % 2 ^ 16)] = _
    rw [h1]

/-- C11 (amended) on scenario S2: a G-PDU with TEID 0xDEAD reaches the state
with the single tunnel 1; the reply is the Error Indication with sequence
number 0 and `tx_seq` becomes 1. -/
theorem C11_error_indication_witness :
    ∃ s', handle_gtpu_s1u_rx_packet 3 11
        (env_parsed { flags := 0x30, message_type := 0xFF, teid := 0xDEAD }) ex_one
        [0x45, 0] 7 40000 = .ok s' () ∧
      s'.log = [error_indication_datagram 7 40000 0xDEAD 0] ∧ s'.tx_seq = 1 := by
  obtain ⟨s', h1, _, _, _, _, _, _, h2⟩ :=
    C11_error_indication 3 11
      (env_parsed { flags := 0x30, message_type := 0xFF, teid := 0xDEAD }) ex_one
      [0x45, 0] [0x45, 0] { flags := 0x30, message_type := 0xFF, teid := 0xDEAD } 7 40000
      rfl (by decide) (by decide)
  exact ⟨s', h1, (h2 (by decide)).1, (h2 (by decide)).2⟩

/-! ## C12: G-PDU with TEID 0 -/

/-- C12, the code at failing inputs.  A G-PDU with header TEID 0 passes the
guard `header.teid != 0 && ...`, so no Error Indication is sent; in the
initial state and in the state with the single tunnel 1 the G-PDU case then
reads `tunnels.find(0)->second` at `end()`.  When TEID 0 is a key (after the
counter has wrapped) the PDU is delivered on that tunnel. -/
theorem C12_teid_zero_is_dereferenced :
    (handle_gtpu_s1u_rx_packet 3 11
      (env_parsed { flags := 0x30, message_type := 0xFF, teid := 0 }) gtpu_initial
      [0x45, 0] 7 40000).is_ub = true ∧
    (handle_gtpu_s1u_rx_packet 3 11
      (env_parsed { flags := 0x30, message_type := 0xFF, teid := 0 }) ex_one
      [0x45, 0] 7 40000).is_ub = true ∧
    (((add_bearer 11 env_quiet ex_wrap 0x47 3 11 21 none).bind fun s _ =>
        handle_gtpu_s1u_rx_packet 3 11
          (env_parsed { flags := 0x30, message_type := 0xFF, teid := 0 }) s
          [0x45, 0] 7 40000).state?.map fun s => s.log) =
      some [Event.write_sdu 0x47 3 [0x45, 0] (-1)] := by
  decide

/-! ## C13: Echo Request -/

/-- C13 as stated fails for an Echo Request whose TEID is non-zero and not a
key: the guard in front of the dispatch answers it with an Error Indication
(message type 0x1A) and no Echo Response is sent. -/
theorem C13_echo_with_unknown_teid :
    ((handle_gtpu_s1u_rx_packet 3 11
        (env_parsed { flags := 0x32, message_type := 0x01, teid := 5, seq_number := 42 })
        gtpu_initial [] 7 40000).state?.map fun s => s.log) =
      some [error_indication_datagram 7 40000 5 0] := by
  decide

/-- C13, amended.  For every state and every received message whose parsed
header has message type Echo Request and whose TEID is 0 or a key of the
registry, the handler returns and the log gains exactly one datagram, the
Echo Response to the sender with flags 0x32, message type 0x02, TEID 0,
length 4 and the sequence number of the request; the registry, the bearer
index and the counters are unchanged. -/
theorem C13_echo_response (n_srb nb : Nat) (env : Env) (s : gtpu) (raw payload : Packet)
    (header : gtpu_header_t) (addr port : Nat)
    (hparse : env.gtpu_read_header raw = some (header, payload))
    (hty : header.message_type = 0x01)
    (hteid : header.teid = 0 ∨ registered s header.teid = true) :
    ∃ s', handle_gtpu_s1u_rx_packet n_srb nb env s raw addr port = .ok s' () ∧
      s'.log = s.log ++ [echo_response_datagram addr port header.seq_number] ∧
      s'.tunnels = s.tunnels ∧ s'.ue_teidin_db = s.ue_teidin_db ∧
      s'.next_teid_in = s.next_teid_in ∧ s'.tx_seq = s.tx_seq := by
  have hguard : ¬ (header.teid ≠ 0 ∧ (Map.find s.tunnels header.teid).isNone = true) := by
    rintro ⟨h1, h2⟩
    rcases hteid with h | h
    · exact h1 h
    · unfold registered at h
      cases hf : Map.find s.tunnels header.teid with
      | none => rw [hf] at h; simp at h
      | some r => rw [hf] at h2; simp at h2
  refine ⟨echo_response s addr port header.seq_number, ?_, rfl, rfl, rfl, rfl, rfl⟩
  unfold handle_gtpu_s1u_rx_packet
  rw [hparse]
  dsimp only
  rw [if_neg hguard, if_pos (by rw [hty]; rfl)]

/-- C13 (amended) on scenario S3: an Echo Request with TEID 0 and sequence
number 42 is answered with the Echo Response carrying 42. -/
theorem C13_echo_response_witness :
    ∃ s', handle_gtpu_s1u_rx_packet 3 11
        (env_parsed { flags := 0x32, message_type := 0x01, teid := 0, seq_number := 42 })
        ex_one [] 7 40000 = .ok s' () ∧
      s'.log = [echo_response_datagram 7 40000 42] := by
  obtain ⟨s', h1, h2, _⟩ :=
    C13_echo_response 3 11
      (env_parsed { flags := 0x32, message_type := 0x01, teid := 0, seq_number := 42 }) ex_one
      [] [] { flags := 0x32, message_type := 0x01, teid := 0, seq_number := 42 } 7 40000
      rfl rfl (Or.inl rfl)
  exact ⟨s', h1, h2⟩

/-! ## The G-PDU case of the receive handler -/

theorem send_pdu_plain (env : Env) (s : gtpu) (rnti lcid : Nat) (pdu : Packet)
    (teidout spgw_addr : Nat) (hip : valid_ip pdu = true)
    (hwr : ∀ h p, env.gtpu_write_header h p = true) :
    send_pdu_to_tunnel env s rnti lcid pdu teidout spgw_addr (-1) =
      { s with log := s.log ++ [gpdu_datagram spgw_addr teidout pdu] } := by
  unfold valid_ip at hip
  simp only [Bool.or_eq_true, beq_iff_eq] at hip
  have hguard : ¬ (ip_version pdu ≠ 4 ∧ ip_version pdu ≠ 6) := by
    rintro ⟨h4, h6⟩
    rcases hip with h | h
    · exact h4 h
    · exact h6 h
  unfold send_pdu_to_tunnel
  rw [if_neg hguard]
  simp [hwr, gpdu_datagram, GTPU_FLAGS_VERSION_V1, GTPU_FLAGS_GTP_PROTOCOL, GTPU_MSG_DATA_PDU,
    GTPU_PORT]

theorem send_pdu_invalid (env : Env) (s : gtpu) (rnti lcid : Nat) (pdu : Packet)
    (teidout spgw_addr : Nat) (sn : Int) (hip : valid_ip pdu = false) :
    send_pdu_to_tunnel env s rnti lcid pdu teidout spgw_addr sn = s := by
  unfold valid_ip at hip
  simp only [Bool.or_eq_false_iff, beq_eq_false_iff_ne, ne_eq] at hip
  unfold send_pdu_to_tunnel
  rw [if_pos hip]

/-- A PDU of IP version 4 or 6 handed to `send_pdu_to_tunnel` without a
sequence number: the datagram is sent exactly when the header writer succeeds
on the header of that datagram. -/
theorem send_pdu_plain_writer (env : Env) (s : gtpu) (rnti lcid : Nat) (pdu : Packet)
    (teidout spgw_addr : Nat) (hip : valid_ip pdu = true) :
    send_pdu_to_tunnel env s rnti lcid pdu teidout spgw_addr (-1) =
      if env.gtpu_write_header (gpdu_header teidout pdu) pdu = true then
        { s with log := s.log ++ [gpdu_datagram spgw_addr teidout pdu] }
      else s := by
  unfold valid_ip at hip
  simp only [Bool.or_eq_true, beq_iff_eq] at hip
  have hguard : ¬ (ip_version pdu ≠ 4 ∧ ip_version pdu ≠ 6) := by
    rintro ⟨h4, h6⟩
    rcases hip with h | h
    · exact h4 h
    · exact h6 h
  unfold send_pdu_to_tunnel
  rw [if_neg hguard]
  have hneg : ¬ ((-1 : Int) ≥ 0) := by decide
  simp only [hneg, if_false]
  rfl

/-- The G-PDU case for a registered tunnel in the data-bearer range and a
payload of IP version 4 or 6: what is left is the choice between forwarding,
buffering and delivery. -/
theorem handle_gpdu {n_srb nb : Nat} {env : Env} {s : gtpu} {raw payload : Packet}
    {header : gtpu_header_t} {rec : tunnel} (addr port : Nat)
    (hparse : env.gtpu_read_header raw = some (header, payload))
    (hty : header.message_type = 0xFF)
    (hR : Map.find s.tunnels header.teid = some rec)
    (hlo : n_srb ≤ rec.lcid) (hhi : rec.lcid < nb) (hnb : nb ≤ 2 ^ 16)
    (hip : valid_ip payload = true) :
    handle_gtpu_s1u_rx_packet n_srb nb env s raw addr port =
      if rec.fwd_teid_in_present = true then
        match Map.find s.tunnels rec.fwd_teid_in with
        | none => .thrown s
        | some tx_tun =>
          .ok (send_pdu_to_tunnel env s (rec.rnti % 2 ^ 16) rec.lcid payload tx_tun.teid_out
            tx_tun.spgw_addr (-1)) ()
      else if rec.prior_teid_in_present = true then
        .ok { s with
              tunnels := Map.set s.tunnels header.teid
                { rec with buffer := rec.buffer ++ [payload] } } ()
      else if header.flags &&& GTPU_FLAGS_EXTENDED_HDR ≠ 0 ∧
          header.next_ext_hdr_type = GTPU_EXT_HEADER_PDCP_PDU_NUMBER then
        match header.ext_buffer with
        | b0 :: b1 :: _ =>
          .ok { s with
                log := s.log ++
                  [Event.write_sdu (rec.rnti % 2 ^ 16) rec.lcid payload
                    (to_int ((b1 <<< 8) + b0))] } ()
        | _ => .ub
      else
        .ok { s with
              log := s.log ++
                [Event.write_sdu (rec.rnti % 2 ^ 16) rec.lcid payload (to_int (2 ^ 32 - 1))] } () := by
  have hguard : ¬ (header.teid ≠ 0 ∧ (Map.find s.tunnels header.teid).isNone = true) := by
    rintro ⟨_, h2⟩
    rw [hR] at h2; simp at h2
  have hlc : rec.lcid % 2 ^ 16 = rec.lcid := Nat.mod_eq_of_lt (by omega)
  have hrange : ¬ (rec.lcid < n_srb ∨ rec.lcid ≥ nb) := by omega
  unfold valid_ip at hip
  simp only [Bool.or_eq_true, beq_iff_eq] at hip
  have hipg : ¬ (ip_version payload ≠ 4 ∧ ip_version payload ≠ 6) := by
    rintro ⟨h4, h6⟩
    rcases hip with h | h
    · exact h4 h
    · exact h6 h
  unfold handle_gtpu_s1u_rx_packet
  rw [hparse]
  dsimp only
  rw [if_neg hguard, if_neg (by rw [hty]; decide), if_pos (by rw [hty]; rfl), hR]
  dsimp only
  rw [hlc, if_neg hrange, if_neg hipg]

theorem forward_to_some {s : gtpu} {R F : Nat} {rec : tunnel}
    (hR : Map.find s.tunnels R = some rec) (h : forward_to s R = some F) :
    rec.fwd_teid_in_present = true ∧ rec.fwd_teid_in = F := by
  unfold forward_to at h
  rw [hR] at h
  dsimp only at h
  by_cases hp : rec.fwd_teid_in_present = true
  · simp only [hp, if_true, Option.some.injEq] at h
    exact ⟨hp, h⟩
  · simp [hp] at h

theorem forward_to_none {s : gtpu} {R : Nat} {rec : tunnel}
    (hR : Map.find s.tunnels R = some rec) (h : forward_to s R = none) :
    rec.fwd_teid_in_present = false := by
  unfold forward_to at h
  rw [hR] at h
  dsimp only at h
  cases hp : rec.fwd_teid_in_present with
  | false => rfl
  | true => rw [hp] at h; simp at h

theorem flush_after_some {s : gtpu} {R N : Nat} {rec : tunnel}
    (hR : Map.find s.tunnels R = some rec) (h : flush_after s R = some N) :
    rec.prior_teid_in_present = true ∧ rec.prior_teid_in = N := by
  unfold flush_after at h
  rw [hR] at h
  dsimp only at h
  by_cases hp : rec.prior_teid_in_present = true
  · simp only [hp, if_true, Option.some.injEq] at h
    exact ⟨hp, h⟩
  · simp [hp] at h

/-- C17 as stated fails in a state whose `forward_to` names a TEID that is
not a key.  After tunnel 2, the forwarding target of tunnel 1, has been
removed, an IPv4 G-PDU on tunnel 1 makes `tunnels.at(2)` throw: no datagram
is sent. -/
theorem C17_forward_target_missing :
    ((run_calls 11
        [.add_bearer env_quiet 0x46 3 10 20 none,
         .add_bearer env_quiet 0x46 3 11 21 (some (props_forward_from 1)),
         .rem_tunnel 2] gtpu_initial).map
      fun s =>
        (forward_to s 1, registered s 2,
         (handle_gtpu_s1u_rx_packet 3 11
            (env_parsed { flags := 0x30, message_type := 0xFF, teid := 1 }) s
            [0x45, 0] 7 40000).is_thrown,
         (handle_gtpu_s1u_rx_packet 3 11
            (env_parsed { flags := 0x30, message_type := 0xFF, teid := 1 }) s
            [0x45, 0] 7 40000).state?.map fun s1 => s1.log)) =
      some (some 2, false, true, some []) := by
  decide

/-- C17, amended.  For every state and every G-PDU with IP version 4 or 6
arriving on a registered tunnel `R` whose LCID is in the data-bearer range:
if `forward_to` of `R` is set to `F` (whatever `flush_after` is) and `F` is a
key of the registry, the handler returns; when the header writer succeeds on
the header of the forwarded G-PDU (`gpdu_header`: flags 0x30, type 0xFF, TEID
`F.teid_out`, no extension) exactly one G-PDU with the same payload is sent
to `(F.spgw_addr, 2152)`, and when it fails nothing is sent; nothing is
delivered and the registry (so the buffer of `R`) is unchanged.  If `F` is
not a key, the handler throws in the unchanged state.  Otherwise, if
`flush_after` of `R` is set, the payload is appended at the tail of the buffer
of `R`, no other record changes, and nothing is delivered or sent. -/
theorem C17_gpdu_forward_or_buffer (n_srb nb : Nat) (env : Env) (s : gtpu)
    (raw payload : Packet) (header : gtpu_header_t) (addr port R : Nat) (recR : tunnel)
    (hparse : env.gtpu_read_header raw = some (header, payload))
    (hty : header.message_type = 0xFF) (hteid : header.teid = R)
    (hR : Map.find s.tunnels R = some recR)
    (hlo : n_srb ≤ recR.lcid) (hhi : recR.lcid < nb) (hnb : nb ≤ 2 ^ 16)
    (hip : valid_ip payload = true) :
    (∀ F recF, forward_to s R = some F → Map.find s.tunnels F = some recF →
      ∃ s', handle_gtpu_s1u_rx_packet n_srb nb env s raw addr port = .ok s' () ∧
        s'.log = s.log ++
          (if env.gtpu_write_header (gpdu_header recF.teid_out payload) payload = true then
            [gpdu_datagram recF.spgw_addr recF.teid_out payload]
           else []) ∧
        s'.tunnels = s.tunnels ∧ s'.ue_teidin_db = s.ue_teidin_db) ∧
    (∀ F, forward_to s R = some F → registered s F = false →
      handle_gtpu_s1u_rx_packet n_srb nb env s raw addr port = .thrown s) ∧
    (forward_to s R = none → (flush_after s R).isSome = true →
      ∃ s', handle_gtpu_s1u_rx_packet n_srb nb env s raw addr port = .ok s' () ∧
        s'.log = s.log ∧
        (∀ k, Map.find s'.tunnels k =
          if k = R then some { recR with buffer := recR.buffer ++ [payload] }
          else Map.find s.tunnels k) ∧
        s'.ue_teidin_db = s.ue_teidin_db) := by
  subst hteid
  have hh : handle_gtpu_s1u_rx_packet n_srb nb env s raw addr port = _ :=
    handle_gpdu addr port hparse hty hR hlo hhi hnb hip
  refine ⟨?_, ?_, ?_⟩
  · intro F recF hF hrecF
    obtain ⟨h1, h2⟩ := forward_to_some hR hF
    rw [hh, if_pos h1, h2, hrecF]
    dsimp only
    rw [send_pdu_plain_writer env s _ _ payload _ _ hip]
    by_cases hwr : env.gtpu_write_header (gpdu_header recF.teid_out payload) payload = true
    · rw [if_pos hwr, if_pos hwr]
      exact ⟨_, rfl, rfl, rfl, rfl⟩
    · rw [if_neg hwr, if_neg hwr]
      exact ⟨_, rfl, by simp, rfl, rfl⟩
  · intro F hF hreg
    obtain ⟨h1, h2⟩ := forward_to_some hR hF
    have hnone : Map.find s.tunnels F = none := by
      unfold registered at hreg
      cases hf : Map.find s.tunnels F with
      | none => rfl
      | some r => rw [hf] at hreg; simp at hreg
    rw [hh, if_pos h1, h2, hnone]
  · intro hF hfl
    have h1 := forward_to_none hR hF
    obtain ⟨rec', hrec', hp⟩ := flush_after_isSome hfl
    rw [hR] at hrec'
    simp only [Option.some.injEq] at hrec'
    subst hrec'
    rw [hh]
    simp only [h1, Bool.false_eq_true, if_false, hp, if_true]
    refine ⟨_, rfl, rfl, ?_, rfl⟩
    intro k
    dsimp only
    rw [Map.find_set]

/-- C17 (amended) at the example state `ex_fwd`, where tunnel 1 forwards to
tunnel 2, with a header writer that checks flags and message type: an IPv4
G-PDU on TEID 1 is sent on to `(11, 2152)` with TEID 21. -/
theorem C17_gpdu_forward_or_buffer_witness :
    ∃ s', handle_gtpu_s1u_rx_packet 3 11 env_checks_flags ex_fwd [0x45, 0] 7 40000 =
        .ok s' () ∧
      s'.log = [gpdu_datagram 11 21 [0x45, 0]] ∧ s'.tunnels = ex_fwd.tunnels := by
  obtain ⟨s', h1, h2, h3, _⟩ :=
    (C17_gpdu_forward_or_buffer 3 11 env_checks_flags ex_fwd
      [0x45, 0] [0x45, 0] { flags := 0x30, message_type := 0xFF, teid := 1 } 7 40000 1
      { teid_in := 1, rnti := 0x46, lcid := 3, spgw_addr := 10, teid_out := 20,
        fwd_teid_in_present := true, fwd_teid_in := 2 }
      rfl rfl rfl rfl (by decide) (by decide) (by decide) (by decide)).1 2
      { teid_in := 2, rnti := 0x46, lcid := 3, spgw_addr := 11, teid_out := 21 }
      (by decide) rfl
  exact ⟨s', h1, h2, h3⟩

/-! ## The End Marker case of the receive handler -/

theorem awaits_congr {s s1 : gtpu} (T k : Nat)
    (h : Map.find s1.tunnels k = Map.find s.tunnels k) : awaits s1 T k = awaits s T k := by
  unfold awaits flush_after
  rw [h]

theorem flushed_sdus_congr {s s1 : gtpu} (k : Nat)
    (h : Map.find s1.tunnels k = Map.find s.tunnels k) : flushed_sdus s1 k = flushed_sdus s k := by
  unfold flushed_sdus
  rw [h]

theorem awaits_iff {s : gtpu} {T x : Nat} {r : tunnel} (hr : Map.find s.tunnels x = some r) :
    awaits s T x = true ↔
      (x ≠ T ∧ r.prior_teid_in_present = true ∧ r.prior_teid_in = T) := by
  unfold awaits flush_after
  rw [hr]
  dsimp only
  cases hp : r.prior_teid_in_present <;> simp

/-- The flush loop over a duplicate-free list of registered TEIDs returns;
it delivers the queues of the listed tunnels that await `T`, in list order,
clears those records and touches nothing else. -/
theorem flush_loop_spec (T : Nat) : ∀ (l : List Nat) (s : gtpu), l.Nodup →
    (∀ x ∈ l, registered s x = true) →
    ∃ s', flush_loop T l s = .ok s' () ∧
      s'.log = s.log ++ (l.filter (awaits s T)).flatMap (flushed_sdus s) ∧
      (∀ k, Map.find s'.tunnels k =
        (Map.find s.tunnels k).map (fun rec =>
          if k ∈ l ∧ awaits s T k = true then flushed rec else rec)) ∧
      s'.ue_teidin_db = s.ue_teidin_db ∧ s'.next_teid_in = s.next_teid_in ∧
      s'.tx_seq = s.tx_seq := by
  intro l
  induction l with
  | nil =>
    intro s _ _
    refine ⟨s, rfl, by simp, fun k => ?_, rfl, rfl, rfl⟩
    cases Map.find s.tunnels k <;> simp
  | cons x rest ih =>
    intro s hnd hreg
    have hx : x ∉ rest := (List.nodup_cons.mp hnd).1
    have hnd1 : rest.Nodup := (List.nodup_cons.mp hnd).2
    have hrx := hreg x (List.mem_cons_self _ _)
    unfold registered at hrx
    obtain ⟨r, hr⟩ := Option.isSome_iff_exists.mp hrx
    by_cases hc : x ≠ T ∧ r.prior_teid_in_present = true ∧ r.prior_teid_in = T
    · have haw : awaits s T x = true := (awaits_iff hr).mpr hc
      obtain ⟨s1, hs1⟩ : ∃ s1 : gtpu, s1 =
          { s with
            log := s.log ++ r.buffer.map (fun sdu => Event.write_sdu r.rnti r.lcid sdu (-1))
            tunnels := Map.set s.tunnels x (flushed r) } := ⟨_, rfl⟩
      have hstep : flush_loop T (x :: rest) s = flush_loop T rest s1 := by
        simp only [flush_loop, hr]
        rw [if_pos hc, hs1]
        rfl
      have hf1 : ∀ k, k ≠ x → Map.find s1.tunnels k = Map.find s.tunnels k := by
        intro k hk
        rw [hs1]
        dsimp only
        rw [Map.find_set, if_neg hk]
      have hfx : Map.find s1.tunnels x = some (flushed r) := by
        rw [hs1]
        dsimp only
        rw [Map.find_set, if_pos rfl]
      have hl1 : s1.log =
          s.log ++ r.buffer.map (fun sdu => Event.write_sdu r.rnti r.lcid sdu (-1)) := by
        rw [hs1]
      have hrest1 : s1.ue_teidin_db = s.ue_teidin_db ∧ s1.next_teid_in = s.next_teid_in ∧
          s1.tx_seq = s.tx_seq := by
        rw [hs1]; exact ⟨rfl, rfl, rfl⟩
      obtain ⟨s', hrun, hlog, htun, hdb, hnx, htx⟩ :=
        ih s1 hnd1
          (by
            intro y hy
            have hyx : y ≠ x := fun e => hx (e ▸ hy)
            unfold registered
            rw [hf1 y hyx]
            exact hreg y (List.mem_cons_of_mem _ hy))
      refine ⟨s', ?_, ?_, ?_, hdb.trans hrest1.1, hnx.trans hrest1.2.1, htx.trans hrest1.2.2⟩
      · rw [hstep, hrun]
      · rw [hlog, hl1]
        have e1 : rest.filter (awaits s1 T) = rest.filter (awaits s T) :=
          List.filter_congr (fun y hy =>
            awaits_congr T y (hf1 y (fun e => hx (e ▸ hy))))
        rw [e1]
        have e2 : (rest.filter (awaits s T)).flatMap (flushed_sdus s1) =
            (rest.filter (awaits s T)).flatMap (flushed_sdus s) :=
          List.flatMap_congr (fun y hy =>
            flushed_sdus_congr y
              (hf1 y (fun e => hx (e ▸ (List.mem_filter.mp hy).1))))
        rw [e2, List.filter_cons_of_pos haw, List.flatMap_cons]
        have e3 : flushed_sdus s x =
            r.buffer.map (fun sdu => Event.write_sdu r.rnti r.lcid sdu (-1)) := by
          unfold flushed_sdus; rw [hr]
        rw [e3, List.append_assoc]
      · intro k
        rw [htun k]
        by_cases hk : k = x
        · subst hk
          rw [hfx, hr]
          simp [hx, haw]
        · rw [hf1 k hk, awaits_congr T k (hf1 k hk)]
          simp [hk]
    · have haw : ¬ awaits s T x = true := fun h => hc ((awaits_iff hr).mp h)
      obtain ⟨s', hrun, hlog, htun, hdb, hnx, htx⟩ :=
        ih s hnd1 (fun y hy => hreg y (List.mem_cons_of_mem _ hy))
      refine ⟨s', ?_, ?_, ?_, hdb, hnx, htx⟩
      · rw [← hrun]
        simp only [flush_loop, hr]
        rw [if_neg hc]
      · rw [hlog, List.filter_cons_of_neg haw]
      · intro k
        rw [htun k]
        by_cases hk : k = x
        · subst hk
          simp [hx, haw]
        · simp [hk]

theorem bearer_list_nodup {nb : Nat} {s : gtpu} {O : Nat} {recO : tunnel}
    {arr : Nat → List Nat} (hc : Consistent nb s)
    (hO : Map.find s.tunnels O = some recO)
    (harr : Map.find s.ue_teidin_db recO.rnti = some arr) :
    (arr recO.lcid).Nodup ∧ ∀ x ∈ arr recO.lcid, registered s x = true := by
  have hlc : recO.lcid < nb := (hc.1 O recO hO).1
  have hreg : ∀ x ∈ arr recO.lcid, registered s x = true :=
    fun x hx => hc.2 recO.rnti arr recO.lcid harr hlc x hx
  refine ⟨List.nodup_iff_count_eq_one.mpr ?_, hreg⟩
  intro x hx
  have hrx := hreg x hx
  unfold registered at hrx
  obtain ⟨rx, hfx⟩ := Option.isSome_iff_exists.mp hrx
  obtain ⟨_, ⟨arr2, harr2, hcount⟩, huniq⟩ := hc.1 x rx hfx
  obtain ⟨e1, e2⟩ := huniq recO.rnti arr recO.lcid harr hlc hx
  rw [← e1, harr] at harr2
  cases harr2
  rw [← e2] at hcount
  exact hcount

/-! ## C15: End Marker handling -/

/-- C15: in a consistent state without dangling `forward_to`, an End Marker
on a registered tunnel `O` (whose record carries its own key as `teid_in`) is
handled and the call returns.  If `O.forward_to = F`, exactly one End Marker
(type 0xFE, length 0, TEID `F.teid_out`) is sent to `(F.spgw_addr, 2152)`,
`O.forward_to` is cleared and no other record changes, so nothing is flushed
or delivered.  Otherwise the log gains exactly the deliveries of the pending
queues of the tunnels `N` of bearer `(O.rnti, O.lcid)` with `N ≠ O` and
`N.flush_after = O`, each queue in insertion order for `(N.rnti, N.lcid)`;
those records are left with `flush_after` unset and an empty queue, every
other record is unchanged, and nothing is sent.  The bearer index and the
counters are unchanged in both cases. -/
theorem C15_end_marker (n_srb nb : Nat) (env : Env) (s : gtpu) (raw payload : Packet)
    (header : gtpu_header_t) (addr port O : Nat) (recO : tunnel)
    (hc : Consistent nb s)
    (hdang : ∀ t F, forward_to s t = some F → registered s F = true)
    (hparse : env.gtpu_read_header raw = some (header, payload))
    (hty : header.message_type = 0xFE)
    (hteid : header.teid = O)
    (hO : Map.find s.tunnels O = some recO)
    (hid : recO.teid_in = O) :
    ∃ s', handle_gtpu_s1u_rx_packet n_srb nb env s raw addr port = .ok s' () ∧
      s'.ue_teidin_db = s.ue_teidin_db ∧ s'.next_teid_in = s.next_teid_in ∧
      s'.tx_seq = s.tx_seq ∧
      (∀ F, forward_to s O = some F →
        ∃ recF, Map.find s.tunnels F = some recF ∧
          s'.log = s.log ++ [end_marker_datagram recF.spgw_addr recF.teid_out] ∧
          forward_to s' O = none ∧
          (∀ k, Map.find s'.tunnels k =
            if k = O then some { recO with fwd_teid_in_present := false }
            else Map.find s.tunnels k)) ∧
      (forward_to s O = none →
        s'.log = s.log ++ end_marker_deliveries s recO.rnti recO.lcid O ∧
        (∀ k, Map.find s'.tunnels k =
          (Map.find s.tunnels k).map (fun rec =>
            if k ∈ bearer_list s recO.rnti recO.lcid ∧ awaits s O k = true then flushed rec
            else rec)) ∧
        (∀ N, N ∈ bearer_list s recO.rnti recO.lcid → awaits s O N = true →
          flush_after s' N = none ∧
          (Map.find s'.tunnels N).map (fun rec => rec.buffer) = some [])) := by
  have hguard : ¬ (header.teid ≠ 0 ∧ (Map.find s.tunnels header.teid).isNone = true) := by
    rintro ⟨_, h2⟩
    rw [hteid, hO] at h2; simp at h2
  have hstart : handle_gtpu_s1u_rx_packet n_srb nb env s raw addr port =
      if recO.fwd_teid_in_present = true then
        (end_marker s recO.fwd_teid_in).bind fun s1 _ =>
          .ok { s1 with
                tunnels := Map.set s1.tunnels O { recO with fwd_teid_in_present := false } } ()
      else
        match Map.find s.ue_teidin_db recO.rnti with
        | none => .ub
        | some arr =>
          if recO.lcid < nb then flush_loop recO.teid_in (arr recO.lcid) s
          else .ub := by
    unfold handle_gtpu_s1u_rx_packet
    rw [hparse]
    dsimp only
    rw [if_neg hguard, if_neg (by rw [hty]; decide), if_neg (by rw [hty]; decide),
      if_pos (by rw [hty]; rfl), hteid, hO]
  rw [hstart]
  cases hp : recO.fwd_teid_in_present with
  | true =>
    have hfw : forward_to s O = some recO.fwd_teid_in := by
      unfold forward_to; rw [hO]; simp [hp]
    have hreg := hdang O _ hfw
    unfold registered at hreg
    obtain ⟨recF, hF⟩ := Option.isSome_iff_exists.mp hreg
    have hem : end_marker s recO.fwd_teid_in =
        .ok { s with log := s.log ++ [end_marker_datagram recF.spgw_addr recF.teid_out] } () := by
      unfold end_marker
      rw [hF]
      simp [end_marker_datagram, GTPU_FLAGS_VERSION_V1, GTPU_FLAGS_GTP_PROTOCOL,
        GTPU_MSG_END_MARKER, GTPU_PORT]
    rw [if_pos rfl, hem]
    refine ⟨_, rfl, rfl, rfl, rfl, ?_, ?_⟩
    · intro F hFeq
      rw [hfw] at hFeq
      cases hFeq
      refine ⟨recF, hF, rfl, ?_, ?_⟩
      · unfold forward_to
        dsimp only
        rw [Map.find_set, if_pos rfl]
        rfl
      · intro k
        dsimp only
        rw [Map.find_set]
    · intro hno
      rw [hfw] at hno
      cases hno
  | false =>
    have hfw : forward_to s O = none := by
      unfold forward_to; rw [hO]; simp [hp]
    obtain ⟨hlc, ⟨arr, harr, _⟩, _⟩ := hc.1 O recO hO
    obtain ⟨hnd, hreg⟩ := bearer_list_nodup hc hO harr
    obtain ⟨s', hrun, hlog, htun, hdb, hnx, htx⟩ :=
      flush_loop_spec O (arr recO.lcid) s hnd hreg
    have hbl : bearer_list s recO.rnti recO.lcid = arr recO.lcid := by
      unfold bearer_list; rw [harr]
    refine ⟨s', ?_, hdb, hnx, htx, ?_, ?_⟩
    · rw [if_neg (by simp), harr]
      dsimp only
      rw [if_pos hlc, hid, hrun]
    · intro F hFeq
      rw [hfw] at hFeq
      cases hFeq
    · intro _
      refine ⟨?_, ?_, ?_⟩
      · rw [hlog, end_marker_deliveries, hbl]
      · intro k
        rw [htun k, hbl]
      · intro N hN haw
        have hk := htun N
        rw [hbl] at hN
        have hregN := hreg N hN
        unfold registered at hregN
        obtain ⟨recN, hfN⟩ := Option.isSome_iff_exists.mp hregN
        rw [hfN] at hk
        simp only [Option.map_some', hN, haw, and_self, if_true] at hk
        constructor
        · unfold flush_after
          rw [hk]
          rfl
        · rw [hk]
          rfl

theorem C15_end_marker_witness :
    Consistent 11 ex_s5 ∧
    ∃ s', handle_gtpu_s1u_rx_packet 3 11 env_short ex_s5 [0xFE, 2] 7 40000 = .ok s' () ∧
      s'.log = [Event.write_sdu 5 3 [0x45, 1] (-1), Event.write_sdu 5 3 [0x45, 2] (-1)] ∧
      flush_after s' 1 = none := by
  have hc : Consistent 11 ex_s5 := Consistent_of_check 11 ex_s5 (by decide)
  obtain ⟨s', h1, _, _, _, _, h2⟩ :=
    C15_end_marker 3 11 env_short ex_s5 [0xFE, 2] []
      { flags := 0x30, message_type := 0xFE, teid := 2 } 7 40000 2
      { teid_in := 2, rnti := 5, lcid := 3, spgw_addr := 11, teid_out := 21 }
      hc
      (by
        intro t F h
        unfold forward_to at h
        by_cases h1 : t = 1
        · subst h1; simp [ex_s5, Map.find] at h
        · by_cases h2 : t = 2
          · subst h2; simp [ex_s5, Map.find] at h
          · have e1 : ¬ 1 = t := fun e => h1 e.symm
            have e2 : ¬ 2 = t := fun e => h2 e.symm
            simp [ex_s5, Map.find, e1, e2] at h)
      rfl rfl rfl rfl rfl
  obtain ⟨hlog, _, hfl⟩ := h2 rfl
  refine ⟨hc, s', h1, ?_, ?_⟩
  · rw [hlog]; decide
  · exact (hfl 1 (by decide) (by decide)).1

/-! ## C14: path switch with End Marker flush -/

/-- Allocation with `flush_before_teidin = T` for a registered `T`, below the
wrap of the counter and with the next TEID free: the call returns the next
TEID, files the new record, flags `T` and appends to the bearer list. -/
theorem add_bearer_flush_before (nb : Nat) (env : Env) (s : gtpu)
    (rnti lcid addr teid_out T : Nat) (recT : tunnel)
    (hw : s.next_teid_in + 1 < 2 ^ 32) (hl : lcid < nb)
    (hfresh : Map.find s.tunnels (s.next_teid_in + 1) = none)
    (hT : Map.find s.tunnels T = some recT) :
    ∃ s1, add_bearer nb env s rnti lcid addr teid_out (some (props_flush_before T)) =
        .ok s1 (s.next_teid_in + 1) ∧
      (∀ k, Map.find s1.tunnels k =
        if k = T then
          some { recT with prior_teid_in_present := true, prior_teid_in := s.next_teid_in + 1 }
        else if k = s.next_teid_in + 1 then
          some { teid_in := s.next_teid_in + 1, rnti := rnti, lcid := lcid, spgw_addr := addr,
                 teid_out := teid_out }
        else Map.find s.tunnels k) ∧
      (∃ arr1, Map.find s1.ue_teidin_db rnti = some arr1 ∧
        arr1 lcid = bearer_list s rnti lcid ++ [s.next_teid_in + 1]) ∧
      s1.log = s.log ∧ s1.tx_seq = s.tx_seq ∧ s1.next_teid_in = s.next_teid_in + 1 := by
  have hmod : (s.next_teid_in + 1) % 2 ^ 32 = s.next_teid_in + 1 := Nat.mod_eq_of_lt hw
  have ht3 := add_bearer_alloc_tunnels s rnti lcid addr teid_out
  have hd3 := add_bearer_alloc_db s rnti lcid addr teid_out rnti
  have hn3 := add_bearer_alloc_next s rnti lcid addr teid_out
  rw [hmod] at ht3 hd3 hn3
  simp only [hfresh, Option.getD_none] at ht3
  rw [if_pos rfl] at hd3
  have hTne : T ≠ s.next_teid_in + 1 := by
    intro e; rw [e, hfresh] at hT; cases hT
  have hT3 : Map.find (add_bearer_alloc s rnti lcid addr teid_out).tunnels T = some recT := by
    rw [ht3, if_neg hTne]; exact hT
  have hrun : add_bearer nb env s rnti lcid addr teid_out (some (props_flush_before T)) =
      .ok { add_bearer_alloc s rnti lcid addr teid_out with
            tunnels := Map.set (add_bearer_alloc s rnti lcid addr teid_out).tunnels T
              { recT with prior_teid_in_present := true, prior_teid_in := s.next_teid_in + 1 } }
        (s.next_teid_in + 1) := by
    unfold add_bearer
    rw [if_pos hl]
    dsimp only
    unfold add_bearer_flush
    simp only [props_flush_before, if_true, hT3, hn3]
    rfl
  refine ⟨_, hrun, ?_, ?_, rfl, rfl, hn3⟩
  · intro k
    dsimp only
    rw [Map.find_set, ht3]
  · refine ⟨_, hd3, ?_⟩
    rw [upd_same]
    unfold bearer_list
    cases Map.find s.ue_teidin_db rnti <;> rfl

/-- G-PDUs with valid payloads arriving on a tunnel `T` of a data bearer
that is in flushing state and does not forward are appended to its buffer in
arrival order; nothing is sent or delivered. -/
theorem rx_all_buffers (n_srb nb : Nat) (env : Env) (addr port T : Nat) (hnb : nb ≤ 2 ^ 16) :
    ∀ (raws ps : List Packet) (s : gtpu) (rec : tunnel),
      List.Forall₂ (is_gpdu_on env T) raws ps →
      Map.find s.tunnels T = some rec → rec.fwd_teid_in_present = false →
      rec.prior_teid_in_present = true → n_srb ≤ rec.lcid → rec.lcid < nb →
      ∃ s', rx_all n_srb nb env addr port raws s = .ok s' () ∧
        (∀ k, Map.find s'.tunnels k =
          if k = T then some { rec with buffer := rec.buffer ++ ps }
          else Map.find s.tunnels k) ∧
        s'.ue_teidin_db = s.ue_teidin_db ∧ s'.log = s.log ∧ s'.tx_seq = s.tx_seq ∧
        s'.next_teid_in = s.next_teid_in := by
  intro raws
  induction raws with
  | nil =>
    intro ps s rec hall hT _ _ _ _
    cases hall
    refine ⟨s, rfl, ?_, rfl, rfl, rfl, rfl⟩
    intro k
    by_cases hk : k = T
    · subst hk; rw [if_pos rfl, hT]; simp
    · rw [if_neg hk]
  | cons raw rest ih =>
    intro ps s rec hall hT hfw hpr hlo hhi
    cases hall with
    | cons hhead htail =>
      rename_i p ps1
      obtain ⟨h, hparse, hty, hteid, hip⟩ := hhead
      subst hteid
      have hh : handle_gtpu_s1u_rx_packet n_srb nb env s raw addr port = _ :=
        handle_gpdu addr port hparse hty hT hlo hhi hnb hip
      rw [if_neg (by rw [hfw]; simp), if_pos hpr] at hh
      obtain ⟨s1, hs1⟩ : ∃ s1 : gtpu, s1 =
          { s with tunnels := Map.set s.tunnels h.teid
                     { rec with buffer := rec.buffer ++ [p] } } := ⟨_, rfl⟩
      rw [← hs1] at hh
      have hT1 : Map.find s1.tunnels h.teid = some { rec with buffer := rec.buffer ++ [p] } := by
        rw [hs1]; dsimp only; rw [Map.find_set, if_pos rfl]
      obtain ⟨s', hrun, htun, hdb, hlog, htx, hnx⟩ :=
        ih ps1 s1 { rec with buffer := rec.buffer ++ [p] } htail hT1 hfw hpr hlo hhi
      refine ⟨s', ?_, ?_, ?_, ?_, ?_, ?_⟩
      · simp only [rx_all, hh, Res.bind_ok]
        exact hrun
      · intro k
        rw [htun k]
        by_cases hk : k = h.teid
        · rw [if_pos hk, if_pos hk]
          simp [List.append_assoc]
        · rw [if_neg hk, if_neg hk, hs1]
          dsimp only
          rw [Map.find_set, if_neg hk]
      · rw [hdb, hs1]
      · rw [hlog, hs1]
      · rw [htx, hs1]
      · rw [hnx, hs1]

/-- The End Marker case for a registered tunnel: what is left is the choice
between relaying the End Marker and the flush loop. -/
theorem handle_end_marker {n_srb nb : Nat} {env : Env} {s : gtpu} {raw payload : Packet}
    {header : gtpu_header_t} {rec : tunnel} (addr port : Nat)
    (hparse : env.gtpu_read_header raw = some (header, payload))
    (hty : header.message_type = 0xFE)
    (hO : Map.find s.tunnels header.teid = some rec) :
    handle_gtpu_s1u_rx_packet n_srb nb env s raw addr port =
      if rec.fwd_teid_in_present = true then
        (end_marker s rec.fwd_teid_in).bind fun s1 _ =>
          .ok { s1 with
                tunnels := Map.set s1.tunnels header.teid
                  { rec with fwd_teid_in_present := false } } ()
      else
        match Map.find s.ue_teidin_db rec.rnti with
        | none => .ub
        | some arr =>
          if rec.lcid < nb then flush_loop rec.teid_in (arr rec.lcid) s
          else .ub := by
  have hguard : ¬ (header.teid ≠ 0 ∧ (Map.find s.tunnels header.teid).isNone = true) := by
    rintro ⟨_, h2⟩
    rw [hO] at h2; simp at h2
  unfold handle_gtpu_s1u_rx_packet
  rw [hparse]
  dsimp only
  rw [if_neg hguard, if_neg (by rw [hty]; decide), if_neg (by rw [hty]; decide),
    if_pos (by rw [hty]; rfl), hO]

/-- C14 as stated fails on scenario S5 itself.  From the initial state,
`add_bearer(5, 3, 10, 20)` returns `T = 1` and leaves a consistent state;
`add_bearer(5, 3, 11, 21, flush_before_teidin = 1)` returns `N = 2`; two
G-PDUs with IPv4 payloads arrive on TEID 1 and then an End Marker with header
TEID 1.  Nothing is delivered: the log is empty, tunnel 1 still has
`flush_after = 2` and still holds both packets. -/
theorem C14_end_marker_on_old_tunnel :
    (((add_bearer 11 env_short gtpu_initial 5 3 10 20 none).bind fun s0 T =>
      (add_bearer 11 env_short s0 5 3 11 21 (some (props_flush_before T))).bind fun s1 N =>
        (rx_all 3 11 env_short 7 40000
            [[0xFF, T, 0x45, 1], [0xFF, T, 0x45, 2], [0xFE, T]] s1).bind fun s2 _ =>
          .ok s2 (Consistent_check 11 s0, T, N)).val? = some (true, 1, 2)) ∧
    (((add_bearer 11 env_short gtpu_initial 5 3 10 20 none).bind fun s0 T =>
      (add_bearer 11 env_short s0 5 3 11 21 (some (props_flush_before T))).bind fun s1 _ =>
        rx_all 3 11 env_short 7 40000
            [[0xFF, T, 0x45, 1], [0xFF, T, 0x45, 2], [0xFE, T]] s1).state?.map
      fun s => (s.log, flush_after s 1, (Map.find s.tunnels 1).map tunnel.buffer)) =
      some ([], some 2, some [[0x45, 1], [0x45, 2]]) := by
  decide

/-- C14, amended: the End Marker that releases the queue of `T` is the one
whose header TEID is the new tunnel `N`.  In a consistent state with tunnel
`T` of bearer `(rnti, lcid)`, `lcid` a data-bearer LCID, `T` not forwarding,
the counter below its wrap, the next TEID `N` free and named by no
`flush_after`: `add_bearer(rnti, lcid, .., flush_before_teidin = T)` returns
`N`; G-PDUs with payloads `p1..pk` of valid IP version arriving on `T` are
queued behind what `T` already held and nothing is delivered; an End Marker
with header TEID `N` is then handled, delivers the queue of `T` (the earlier
content, then `p1..pk`, in this order) to the upper layer for `(rnti, lcid)`
and leaves `T` with `flush_after` unset and an empty queue.  An End Marker
with header TEID `T` arriving instead (the record of `T` carrying its key as
`teid_in`) does not release the queue of `T`: the record of `T` is left as it
is, with `flush_after = N` and the queue, and what is delivered are the
queues of the tunnels of the bearer that await `T`, nothing at all when no
tunnel awaited `T`. -/
theorem C14_path_switch (n_srb nb : Nat) (env : Env) (s : gtpu)
    (rnti lcid addr teid_out T : Nat) (recT : tunnel) (raws ps : List Packet)
    (em empl : Packet) (hdr : gtpu_header_t) (sa sp : Nat)
    (hc : Consistent nb s)
    (hT : Map.find s.tunnels T = some recT)
    (hloc : recT.rnti = rnti ∧ recT.lcid = lcid)
    (hlo : n_srb ≤ lcid) (hnb : nb ≤ 2 ^ 16)
    (hfw : forward_to s T = none)
    (hw : s.next_teid_in + 1 < 2 ^ 32)
    (hfresh : registered s (s.next_teid_in + 1) = false)
    (hnoref : ∀ t, flush_after s t ≠ some (s.next_teid_in + 1))
    (hgp : List.Forall₂ (is_gpdu_on env T) raws ps)
    (hem : env.gtpu_read_header em = some (hdr, empl))
    (hety : hdr.message_type = 0xFE)
    (hete : hdr.teid = s.next_teid_in + 1) :
    ∃ s1 s2 s3,
      add_bearer nb env s rnti lcid addr teid_out (some (props_flush_before T)) =
        .ok s1 (s.next_teid_in + 1) ∧
      rx_all n_srb nb env sa sp raws s1 = .ok s2 () ∧
      s2.log = s.log ∧
      flush_after s2 T = some (s.next_teid_in + 1) ∧
      (Map.find s2.tunnels T).map tunnel.buffer = some (recT.buffer ++ ps) ∧
      handle_gtpu_s1u_rx_packet n_srb nb env s2 em sa sp = .ok s3 () ∧
      s3.log = s.log ++ (recT.buffer ++ ps).map (fun p => Event.write_sdu rnti lcid p (-1)) ∧
      flush_after s3 T = none ∧
      (Map.find s3.tunnels T).map tunnel.buffer = some [] ∧
      (∀ (emT emplT : Packet) (hdrT : gtpu_header_t),
        env.gtpu_read_header emT = some (hdrT, emplT) → hdrT.message_type = 0xFE →
        hdrT.teid = T → recT.teid_in = T →
        ∃ s4, handle_gtpu_s1u_rx_packet n_srb nb env s2 emT sa sp = .ok s4 () ∧
          Map.find s4.tunnels T = Map.find s2.tunnels T ∧
          flush_after s4 T = some (s.next_teid_in + 1) ∧
          (Map.find s4.tunnels T).map tunnel.buffer = some (recT.buffer ++ ps) ∧
          s4.log = s2.log ++ end_marker_deliveries s2 rnti lcid T ∧
          ((∀ t, flush_after s t ≠ some T) → s4.log = s.log)) := by
  obtain ⟨hr, hl⟩ := hloc
  subst hr
  subst hl
  obtain ⟨hlc, ⟨arr, harr, hcount⟩, _⟩ := hc.1 T recT hT
  obtain ⟨hnd, hregL⟩ := bearer_list_nodup hc hT harr
  have hbl : bearer_list s recT.rnti recT.lcid = arr recT.lcid := bearer_list_eq harr
  have hnone : Map.find s.tunnels (s.next_teid_in + 1) = none := by
    unfold registered at hfresh
    cases hf : Map.find s.tunnels (s.next_teid_in + 1) with
    | none => rfl
    | some r => rw [hf] at hfresh; simp at hfresh
  have hTne : T ≠ s.next_teid_in + 1 := by
    intro e; rw [e, hnone] at hT; cases hT
  have hfwf : recT.fwd_teid_in_present = false := forward_to_none hT hfw
  -- the allocation
  obtain ⟨s1, hrun1, ht1, ⟨arr1, hdb1, hl1⟩, hlog1, _, _⟩ :=
    add_bearer_flush_before nb env s recT.rnti recT.lcid addr teid_out T recT hw hlc hnone hT
  have hT1 := ht1 T
  rw [if_pos rfl] at hT1
  -- the G-PDUs
  obtain ⟨s2, hrun2, ht2, hdb2, hlog2, _, _⟩ :=
    rx_all_buffers n_srb nb env sa sp T hnb raws ps s1 _ hgp hT1 hfwf rfl hlo hlc
  have hT2 := ht2 T
  rw [if_pos rfl] at hT2
  have hN2 : Map.find s2.tunnels (s.next_teid_in + 1) =
      some { teid_in := s.next_teid_in + 1, rnti := recT.rnti, lcid := recT.lcid,
             spgw_addr := addr, teid_out := teid_out } := by
    rw [ht2, if_neg (fun e => hTne e.symm), ht1, if_neg (fun e => hTne e.symm), if_pos rfl]
  have hother : ∀ k, k ≠ T → k ≠ s.next_teid_in + 1 →
      Map.find s2.tunnels k = Map.find s.tunnels k := by
    intro k h1 h2
    rw [ht2, if_neg h1, ht1, if_neg h1, if_neg h2]
  have hfa2 : flush_after s2 T = some (s.next_teid_in + 1) := by
    unfold flush_after; rw [hT2]; rfl
  -- the End Marker
  have hN2h : Map.find s2.tunnels hdr.teid =
      some { teid_in := s.next_teid_in + 1, rnti := recT.rnti, lcid := recT.lcid,
             spgw_addr := addr, teid_out := teid_out } := by
    rw [hete]; exact hN2
  have hh : handle_gtpu_s1u_rx_packet n_srb nb env s2 em sa sp = _ :=
    handle_end_marker sa sp hem hety hN2h
  rw [hdb2] at hh
  dsimp only at hh
  rw [if_neg (by simp), hdb1] at hh
  dsimp only at hh
  rw [if_pos hlc, hl1, hbl] at hh
  have hNL : s.next_teid_in + 1 ∉ arr recT.lcid := by
    intro hmem
    have := hregL _ hmem
    unfold registered at this
    rw [hnone] at this
    simp at this
  have hnd2 : (arr recT.lcid ++ [s.next_teid_in + 1]).Nodup := by
    rw [List.nodup_append]
    refine ⟨hnd, List.nodup_singleton _, ?_⟩
    intro a ha hb
    rw [List.mem_singleton] at hb
    exact hNL (hb ▸ ha)
  have hreg2 : ∀ x ∈ arr recT.lcid ++ [s.next_teid_in + 1], registered s2 x = true := by
    intro x hx
    unfold registered
    rcases List.mem_append.mp hx with hx | hx
    · by_cases hxT : x = T
      · rw [hxT, hT2]; rfl
      · have hxN : x ≠ s.next_teid_in + 1 := fun e => hNL (e ▸ hx)
        rw [hother x hxT hxN]
        exact hregL x hx
    · rw [List.mem_singleton] at hx
      rw [hx, hN2]; rfl
  obtain ⟨s3, hrun3, hlog3, ht3, _, _, _⟩ :=
    flush_loop_spec (s.next_teid_in + 1) _ s2 hnd2 hreg2
  have hawT : awaits s2 (s.next_teid_in + 1) T = true := by
    unfold awaits; rw [hfa2]; simp [hTne]
  have hfilter : (arr recT.lcid ++ [s.next_teid_in + 1]).filter (awaits s2 (s.next_teid_in + 1)) =
      [T] := by
    rw [List.filter_append]
    have e1 : [s.next_teid_in + 1].filter (awaits s2 (s.next_teid_in + 1)) = [] := by
      simp [awaits]
    have e2 : (arr recT.lcid).filter (awaits s2 (s.next_teid_in + 1)) =
        (arr recT.lcid).filter (fun k => decide (k = T)) := by
      apply List.filter_congr
      intro k hk
      by_cases hkT : k = T
      · rw [hkT, hawT]; simp
      · have hkN : k ≠ s.next_teid_in + 1 := fun e => hNL (e ▸ hk)
        have hfa : flush_after s2 k = flush_after s k := by
          unfold flush_after; rw [hother k hkT hkN]
        have hno := hnoref k
        unfold awaits
        rw [hfa]
        simp [hkT, hno]
    rw [e1, e2, List.filter_eq, hcount]
    rfl
  refine ⟨s1, s2, s3, hrun1, hrun2, hlog2.trans hlog1, hfa2, ?_, ?_, ?_, ?_, ?_, ?_⟩
  · rw [hT2]; rfl
  · rw [hh]; exact hrun3
  · rw [hlog3, hfilter, hlog2, hlog1]
    simp [flushed_sdus, hT2]
  · have h3 := ht3 T
    rw [hT2] at h3
    simp only [Option.map_some', List.mem_append, List.mem_singleton, hawT, and_true] at h3
    have hmem : T ∈ arr recT.lcid := by
      apply List.count_pos_iff.mp
      rw [hcount]; exact Nat.one_pos
    simp only [hmem, true_or, if_true] at h3
    unfold flush_after
    rw [h3]
    rfl
  · have h3 := ht3 T
    rw [hT2] at h3
    have hmem : T ∈ arr recT.lcid := by
      apply List.count_pos_iff.mp
      rw [hcount]; exact Nat.one_pos
    simp only [Option.map_some', List.mem_append, List.mem_singleton, hawT, and_true, hmem,
      true_or, if_true] at h3
    rw [h3]
    rfl
  · intro emT emplT hdrT hpT htyT hteT hidT
    have hT2h : Map.find s2.tunnels hdrT.teid = Map.find s2.tunnels T := by rw [hteT]
    rw [hT2] at hT2h
    have hhT : handle_gtpu_s1u_rx_packet n_srb nb env s2 emT sa sp = _ :=
      handle_end_marker sa sp hpT htyT hT2h
    rw [hdb2] at hhT
    dsimp only at hhT
    rw [if_neg (by rw [hfwf]; simp), hdb1] at hhT
    dsimp only at hhT
    rw [if_pos hlc, hl1, hbl, hidT] at hhT
    obtain ⟨s4, hrun4, hlog4, ht4, _, _, _⟩ := flush_loop_spec T _ s2 hnd2 hreg2
    have hnotT : awaits s2 T T = false := by simp [awaits]
    have hbl2 : bearer_list s2 recT.rnti recT.lcid = arr recT.lcid ++ [s.next_teid_in + 1] := by
      unfold bearer_list
      rw [hdb2, hdb1]
      dsimp only
      rw [hl1, hbl]
    have hT4 : Map.find s4.tunnels T = Map.find s2.tunnels T := by
      rw [ht4 T, hT2]
      simp [hnotT]
    refine ⟨s4, by rw [hhT]; exact hrun4, hT4, ?_, ?_, ?_, ?_⟩
    · unfold flush_after
      rw [hT4, hT2]
      rfl
    · rw [hT4, hT2]
      rfl
    · rw [hlog4, end_marker_deliveries, hbl2]
    · intro hnoT
      have hnil : (arr recT.lcid ++ [s.next_teid_in + 1]).filter (awaits s2 T) = [] := by
        rw [List.filter_eq_nil_iff]
        intro k hk
        by_cases hkT : k = T
        · rw [hkT, hnotT]; simp
        · by_cases hkN : k = s.next_teid_in + 1
          · have : flush_after s2 k = none := by
              unfold flush_after; rw [hkN, hN2]; rfl
            unfold awaits
            rw [this]
            simp
          · have hfa : flush_after s2 k = flush_after s k := by
              unfold flush_after; rw [hother k hkT hkN]
            have hno := hnoT k
            unfold awaits
            rw [hfa]
            simp [hno]
      rw [hlog4, hnil, hlog2, hlog1]
      simp

/-- C14 (amended) on the state with the single tunnel 1 of bearer
`(0x46, 3)`: the allocation returns 2, two packets are queued on tunnel 1, and
the End Marker with header TEID 2 delivers them in arrival order; an End
Marker with header TEID 1 arriving instead delivers nothing and leaves tunnel
1 with `flush_after = 2`. -/
theorem C14_path_switch_witness :
    Consistent 11 ex_one ∧
    ∃ s1 s2 s3 s4,
      add_bearer 11 env_short ex_one 0x46 3 11 21 (some (props_flush_before 1)) = .ok s1 2 ∧
      rx_all 3 11 env_short 7 40000 [[0xFF, 1, 0x45, 1], [0xFF, 1, 0x45, 2]] s1 = .ok s2 () ∧
      handle_gtpu_s1u_rx_packet 3 11 env_short s2 [0xFE, 2] 7 40000 = .ok s3 () ∧
      s3.log = [Event.write_sdu 0x46 3 [0x45, 1] (-1), Event.write_sdu 0x46 3 [0x45, 2] (-1)] ∧
      flush_after s3 1 = none ∧
      handle_gtpu_s1u_rx_packet 3 11 env_short s2 [0xFE, 1] 7 40000 = .ok s4 () ∧
      s4.log = [] ∧ flush_after s4 1 = some 2 := by
  have hc : Consistent 11 ex_one := Consistent_of_check 11 ex_one (by decide)
  have hno : ∀ N t, N ≠ 0 → flush_after ex_one t ≠ some N := by
    intro N t hN h
    unfold flush_after at h
    by_cases h1 : t = 1
    · subst h1; simp [ex_one, Map.find] at h
    · have e1 : ¬ 1 = t := fun e => h1 e.symm
      simp [ex_one, Map.find, e1] at h
  obtain ⟨s1, s2, s3, h1, h2, _, _, _, h3, h4, h5, _, h6⟩ :=
    C14_path_switch 3 11 env_short ex_one 0x46 3 11 21 1
      { teid_in := 1, rnti := 0x46, lcid := 3, spgw_addr := 10, teid_out := 20 }
      [[0xFF, 1, 0x45, 1], [0xFF, 1, 0x45, 2]] [[0x45, 1], [0x45, 2]]
      [0xFE, 2] [] { flags := 0x30, message_type := 0xFE, teid := 2 } 7 40000
      hc rfl ⟨rfl, rfl⟩ (by decide) (by decide) (by decide) (by decide) (by decide)
      (fun t => hno 2 t (by decide))
      (List.Forall₂.cons ⟨_, rfl, rfl, rfl, rfl⟩
        (List.Forall₂.cons ⟨_, rfl, rfl, rfl, rfl⟩ List.Forall₂.nil))
      rfl rfl rfl
  obtain ⟨s4, h7, _, h8, _, _, h9⟩ :=
    h6 [0xFE, 1] [] { flags := 0x30, message_type := 0xFE, teid := 1 } rfl rfl rfl rfl
  exact ⟨hc, s1, s2, s3, s4, h1, h2, h3, h4, h5, h7, h9 (fun t => hno 1 t (by decide)), h8⟩

/-! ## C18: PDCP sequence number through writer and reader -/

theorem ext_bytes (n : Nat) (h : n < 65536) :
    (n >>> 8) &&& 0xff = n / 256 ∧ n &&& 0xff = n % 256 := by
  have e1 : ∀ m : Nat, m &&& 0xff = m % 256 := fun m => Nat.and_pow_two_sub_one_eq_mod m 8
  rw [e1, e1, Nat.shiftRight_eq_div_pow]
  constructor
  · apply Nat.mod_eq_of_lt
    have : n / 2 ^ 8 < 256 := by
      apply Nat.div_lt_of_lt_mul
      omega
    exact this
  · rfl

/-- C18 fails: the receive path does not restore the sequence number that
`send_pdu_to_tunnel` wrote.  For every `sn` below 65536 the writer produces
the extension body `[1, sn / 256, sn % 256, 0]`; a G-PDU carrying the written
header (addressed to tunnel 1 of the receiving endpoint) is delivered with
the sequence number `256 * (sn / 256) + 1`, built from the length byte and the
high byte.  For `sn = 5` the upper layer receives 1. -/
theorem C18_sequence_number_not_restored :
    (∀ sn : Nat, ∃ h, written_header 1 [0x45, 0] ((sn % 65536 : Nat) : Int) = some h ∧
      h.flags = 0x34 ∧ h.next_ext_hdr_type = 0xC0 ∧
      h.ext_buffer = [1, sn % 65536 / 256, sn % 256, 0] ∧
      (handle_gtpu_s1u_rx_packet 3 11 (env_parsed h) ex_one [0x45, 0] 7 40000).state?.map
          (fun s => s.log) =
        some [Event.write_sdu 0x46 3 [0x45, 0] ((256 * (sn % 65536 / 256) + 1 : Nat) : Int)]) ∧
    ((written_header 1 [0x45, 0] 5).map (fun h => h.ext_buffer) = some [1, 0, 5, 0] ∧
      ((written_header 1 [0x45, 0] 5).bind fun h =>
        (handle_gtpu_s1u_rx_packet 3 11 (env_parsed h) ex_one [0x45, 0] 7 40000).state?.map
          (fun s => s.log)) = some [Event.write_sdu 0x46 3 [0x45, 0] 1]) := by
  refine ⟨?_, by decide, by decide⟩
  intro sn
  have hlt : sn % 65536 < 65536 := Nat.mod_lt _ (by decide)
  obtain ⟨hb1, hb2⟩ := ext_bytes (sn % 65536) hlt
  have hmm : sn % 65536 % 256 = sn % 256 := Nat.mod_mod_of_dvd sn (by decide)
  have hd : sn % 65536 / 256 < 256 := by
    apply Nat.div_lt_of_lt_mul
    omega
  refine ⟨{ flags := 0x34, message_type := 0xFF, length := 2, teid := 1,
            next_ext_hdr_type := 0xC0,
            ext_buffer := [1, sn % 65536 / 256, sn % 256, 0] }, ?_, rfl, rfl, rfl, ?_⟩
  · unfold written_header send_pdu_to_tunnel
    have hip : ¬ (ip_version [0x45, 0] ≠ 4 ∧ ip_version [0x45, 0] ≠ 6) := by decide
    rw [if_neg hip]
    have hnn : ((sn % 65536 : Nat) : Int) ≥ 0 := Int.ofNat_nonneg _
    simp only [hnn, if_true, Int.toNat_ofNat, hb1, hb2, hmm]
    rfl
  · have hh : handle_gtpu_s1u_rx_packet 3 11
        (env_parsed { flags := 0x34, message_type := 0xFF, length := 2, teid := 1,
                      next_ext_hdr_type := 0xC0,
                      ext_buffer := [1, sn % 65536 / 256, sn % 256, 0] })
        ex_one [0x45, 0] 7 40000 = _ :=
      handle_gpdu 7 40000 rfl rfl (rfl : Map.find ex_one.tunnels 1 = some
        { teid_in := 1, rnti := 0x46, lcid := 3, spgw_addr := 10, teid_out := 20 })
        (by decide) (by decide) (by decide) (by decide)
    rw [hh]
    have hsmall : ((sn % 65536 / 256) <<< 8) + 1 < 2 ^ 31 := by
      rw [Nat.shiftLeft_eq]
      omega
    simp only [Bool.false_eq_true, if_false]
    rw [if_pos (by decide)]
    simp only [Res.state?, Option.map_some', to_int_small _ hsmall]
    rw [Nat.shiftLeft_eq]
    simp [ex_one, Nat.mul_comm]

/-! ## C19: uplink packet on a bearer with a primary tunnel -/

/-- C19 as stated fails when the header writer fails.  In the consistent
state with the single tunnel 1 on `(0x46, 3)`, `write_pdu(0x46, 3, pkt)` with
an IPv4 packet on which `gtpu_write_header` fails returns without a `sendto`:
no datagram is sent. -/
theorem C19_header_writer_fails :
    Consistent_check 11 ex_one = true ∧ bearer_list ex_one 0x46 3 = [1] ∧
    valid_ip [0x45, 0] = true ∧
    ((write_pdu 11 env_write_fails ex_one 0x46 3 [0x45, 0]).state?.map fun s => s.log) =
      some [] := by
  refine ⟨by decide, by decide, by decide, by decide⟩

/-- C19, amended.  In a consistent state where the list of bearer
`(rnti, lcid)` (a slot of the array) starts with `P`, `write_pdu(rnti, lcid,
pkt)` returns and leaves the registry, the bearer index and the counters
unchanged.  If the IP version nibble is 4 or 6 and the header writer succeeds
on the header (`gpdu_header`: flags 0x30, message type 0xFF, TEID
`P.teid_out`, the byte count in the 16-bit length field) exactly one datagram
is sent, to `(P.spgw_addr, 2152)`, that header followed by the packet; if the
nibble is anything else or the writer fails nothing is sent.  For a packet of
fewer than 2^16 bytes on whose header the writer succeeds the length field is
the byte count. -/
theorem C19_write_pdu (nb : Nat) (env : Env) (s : gtpu) (rnti lcid P : Nat) (rest : List Nat)
    (pkt : Packet)
    (hc : Consistent nb s) (hl : lcid < nb)
    (hlist : bearer_list s rnti lcid = P :: rest) :
    ∃ recP s', Map.find s.tunnels P = some recP ∧
      write_pdu nb env s rnti lcid pkt = .ok s' () ∧
      s'.log = s.log ++
        (if valid_ip pkt = true ∧
            env.gtpu_write_header (gpdu_header recP.teid_out pkt) pkt = true then
          [gpdu_datagram recP.spgw_addr recP.teid_out pkt]
         else []) ∧
      (pkt.length < 2 ^ 16 →
        env.gtpu_write_header (gpdu_header recP.teid_out pkt) pkt = true →
        s'.log = s.log ++
          (if valid_ip pkt = true then
            [Event.sendto (.host_order recP.spgw_addr 2152)
              { flags := 0x30, message_type := 0xFF, teid := recP.teid_out,
                length := pkt.length }
              pkt none]
           else [])) ∧
      s'.tunnels = s.tunnels ∧ s'.ue_teidin_db = s.ue_teidin_db ∧
      s'.next_teid_in = s.next_teid_in ∧ s'.tx_seq = s.tx_seq := by
  unfold bearer_list at hlist
  cases harr : Map.find s.ue_teidin_db rnti with
  | none => rw [harr] at hlist; cases hlist
  | some arr =>
    rw [harr] at hlist
    dsimp only at hlist
    have hreg := hc.2 rnti arr lcid harr hl P (by rw [hlist]; exact List.mem_cons_self _ _)
    obtain ⟨recP, hP⟩ := Option.isSome_iff_exists.mp hreg
    have hrun : write_pdu nb env s rnti lcid pkt =
        .ok (send_pdu_to_tunnel env s rnti lcid pkt recP.teid_out recP.spgw_addr (-1)) () := by
      unfold write_pdu
      simp only [harr, Option.getD_some, hl, if_true, hlist, hP]
    have hlog : (send_pdu_to_tunnel env s rnti lcid pkt recP.teid_out recP.spgw_addr (-1)).log =
        s.log ++
          (if valid_ip pkt = true ∧
              env.gtpu_write_header (gpdu_header recP.teid_out pkt) pkt = true then
            [gpdu_datagram recP.spgw_addr recP.teid_out pkt]
           else []) := by
      by_cases hip : valid_ip pkt = true
      · rw [send_pdu_plain_writer env s rnti lcid pkt _ _ hip]
        by_cases hwr : env.gtpu_write_header (gpdu_header recP.teid_out pkt) pkt = true
        · rw [if_pos hwr, if_pos ⟨hip, hwr⟩]
        · rw [if_neg hwr, if_neg (fun h => hwr h.2)]
          simp
      · have hip2 : valid_ip pkt = false := by
          cases hv : valid_ip pkt with
          | false => rfl
          | true => exact absurd hv hip
        rw [send_pdu_invalid env s rnti lcid pkt _ _ _ hip2, if_neg (fun h => hip h.1)]
        simp
    refine ⟨recP, _, hP, hrun, hlog, ?_, ?_, ?_, ?_, ?_⟩
    · intro hlen hwr
      rw [hlog]
      have hmod : pkt.length % 2 ^ 16 = pkt.length := Nat.mod_eq_of_lt hlen
      by_cases hip : valid_ip pkt = true
      · rw [if_pos ⟨hip, hwr⟩, if_pos hip]
        unfold gpdu_datagram
        rw [hmod]
      · rw [if_neg (fun h => hip h.1), if_neg hip]
    · exact (send_pdu_frame env s rnti lcid pkt recP.teid_out recP.spgw_addr (-1)).1
    · exact (send_pdu_frame env s rnti lcid pkt recP.teid_out recP.spgw_addr (-1)).2.1
    · exact (send_pdu_frame env s rnti lcid pkt recP.teid_out recP.spgw_addr (-1)).2.2.1
    · exact (send_pdu_frame env s rnti lcid pkt recP.teid_out recP.spgw_addr (-1)).2.2.2

/-- C19 (amended) at the state with the single tunnel 1 of bearer
`(0x46, 3)`, peer address 10 and outbound TEID 20, with a header writer that
checks flags and message type: a two-byte IPv4 packet is sent as one datagram
with length 2. -/
theorem C19_write_pdu_witness :
    Consistent 11 ex_one ∧ bearer_list ex_one 0x46 3 = [1] ∧
    ∃ s', write_pdu 11 env_checks_flags ex_one 0x46 3 [0x45, 0] = .ok s' () ∧
      s'.log = [Event.sendto (.host_order 10 2152)
        { flags := 0x30, message_type := 0xFF, teid := 20, length := 2 } [0x45, 0] none] ∧
      s'.tunnels = ex_one.tunnels ∧ s'.ue_teidin_db = ex_one.ue_teidin_db := by
  have hc : Consistent 11 ex_one := Consistent_of_check 11 ex_one (by decide)
  obtain ⟨recP, s', hP, hrun, _, hlog, ht, hd, _⟩ :=
    C19_write_pdu 11 env_checks_flags ex_one 0x46 3 1 [] [0x45, 0] hc (by decide) rfl
  have hrec : recP = { teid_in := 1, rnti := 0x46, lcid := 3, spgw_addr := 10, teid_out := 20 } := by
    have : Map.find ex_one.tunnels 1 =
        some { teid_in := 1, rnti := 0x46, lcid := 3, spgw_addr := 10, teid_out := 20 } := rfl
    rw [this] at hP
    exact (Option.some.inj hP).symm
  subst hrec
  exact ⟨hc, rfl, s', hrun, hlog (by decide) rfl, ht, hd⟩

/-! ## C20: uplink packet on a bearer without tunnels -/

/-- On an empty bearer list `write_pdu` indexes the empty vector (or the
array out of range): the behaviour of the call is undefined in every state. -/
theorem write_pdu_empty (nb : Nat) (env : Env) (s : gtpu) (rnti lcid : Nat) (pkt : Packet)
    (h : bearer_list s rnti lcid = []) : write_pdu nb env s rnti lcid pkt = .ub := by
  unfold bearer_list at h
  unfold write_pdu
  cases harr : Map.find s.ue_teidin_db rnti with
  | none =>
    simp only [Option.getD_none]
    split_ifs <;> rfl
  | some arr =>
    rw [harr] at h
    dsimp only at h
    simp only [Option.getD_some, h]
    split_ifs <;> rfl

/-- C20 fails: `write_pdu` has no test for a missing primary tunnel.  In the
initial state, for every user, bearer and packet, the expression
`ue_teidin_db[rnti][lcid][0]` indexes an empty vector and the behaviour of the
call is undefined; the same holds in the state with the single tunnel 1 on
`(0x46, 3)` for the bearer `(0x46, 4)` of the same user and for the bearer
`(0x47, 3)` of a user without entry. -/
theorem C20_write_pdu_without_primary :
    (∀ (nb : Nat) (env : Env) (rnti lcid : Nat) (pkt : Packet),
      (write_pdu nb env gtpu_initial rnti lcid pkt).is_ub = true) ∧
    bearer_list ex_one 0x46 4 = [] ∧
    (write_pdu 11 env_quiet ex_one 0x46 4 [0x45, 0]).is_ub = true ∧
    user_exists ex_one 0x47 = false ∧
    (write_pdu 11 env_quiet ex_one 0x47 3 [0x45, 0]).is_ub = true := by
  refine ⟨?_, by decide, by decide, by decide, by decide⟩
  intro nb env rnti lcid pkt
  rw [write_pdu_empty nb env gtpu_initial rnti lcid pkt rfl]
  rfl

/-! ## Removal of a bearer -/

/-- Removal of a registered tunnel whose forwarding target (if any) is
registered and whose bearer slot exists: the call returns, emits the End
Marker to the target, erases the record and takes the TEID off its list. -/
theorem rem_tunnel_spec (nb : Nat) {s : gtpu} {t : Nat} {tun : tunnel} {arr : Nat → List Nat}
    (hf : Map.find s.tunnels t = some tun)
    (hfw : tun.fwd_teid_in_present = true → (Map.find s.tunnels tun.fwd_teid_in).isSome = true)
    (hd : Map.find s.ue_teidin_db tun.rnti = some arr) (hl : tun.lcid < nb) :
    ∃ s', rem_tunnel nb s t = .ok s' () ∧
      s'.log = s.log ++ removal_marker s t ∧
      (∀ k, Map.find s'.tunnels k = if k = t then none else Map.find s.tunnels k) ∧
      s'.ue_teidin_db = Map.set s.ue_teidin_db tun.rnti
        (upd arr tun.lcid ((arr tun.lcid).filter (fun x => decide (x ≠ t)))) ∧
      s'.next_teid_in = s.next_teid_in ∧ s'.tx_seq = s.tx_seq := by
  unfold rem_tunnel
  rw [hf]
  dsimp only
  cases hp : tun.fwd_teid_in_present with
  | false =>
    have hm : removal_marker s t = [] := by
      unfold removal_marker forward_to
      rw [hf]
      simp [hp]
    simp only [Bool.false_eq_true, if_false, Res.bind_ok, hd, hl, if_true]
    refine ⟨_, rfl, ?_, ?_, rfl, rfl, rfl⟩
    · rw [hm]; simp
    · intro k
      dsimp only
      rw [Map.find_erase]
  | true =>
    obtain ⟨recF, hF⟩ := Option.isSome_iff_exists.mp (hfw hp)
    have hm : removal_marker s t = [end_marker_datagram recF.spgw_addr recF.teid_out] := by
      unfold removal_marker forward_to
      rw [hf]
      simp [hp, hF]
    have hem : end_marker s tun.fwd_teid_in =
        .ok { s with log := s.log ++ [end_marker_datagram recF.spgw_addr recF.teid_out] } () := by
      unfold end_marker
      rw [hF]
      simp [end_marker_datagram, GTPU_FLAGS_VERSION_V1, GTPU_FLAGS_GTP_PROTOCOL,
        GTPU_MSG_END_MARKER, GTPU_PORT]
    simp only [if_true, hem, Res.bind_ok, hd, hl]
    refine ⟨_, rfl, ?_, ?_, rfl, rfl, rfl⟩
    · rw [hm]
    · intro k
      dsimp only
      rw [Map.find_erase, Map.find_set]
      by_cases hk : k = t
      · simp [hk]
      · simp [hk]

theorem forward_to_congr {s s1 : gtpu} (k : Nat)
    (h : Map.find s1.tunnels k = Map.find s.tunnels k) : forward_to s1 k = forward_to s k := by
  unfold forward_to
  rw [h]

theorem upd_upd (arr : Nat → List Nat) (i : Nat) (v w : List Nat) :
    upd (upd arr i v) i w = upd arr i w := by
  funext j
  unfold upd
  by_cases h : j = i <;> simp [h]

theorem upd_self (arr : Nat → List Nat) (i : Nat) : upd arr i (arr i) = arr := by
  funext j
  unfold upd
  by_cases h : j = i
  · simp [h]
  · simp [h]

/-- The removal loop on the list of bearer `(rnti, lcid)` in a consistent
state where no tunnel of the list forwards to a later one and every
forwarding target is registered: the loop exits within as many iterations as
the list is long, emits the End Markers of the forwarding tunnels from the
back of the list to its front, erases exactly the listed records and leaves
the list empty. -/
theorem rem_loop_spec {nb : Nat} (rnti lcid : Nat) (hl : lcid < nb) :
    ∀ (fuel : Nat) (s : gtpu) (arr : Nat → List Nat), Consistent nb s →
      Map.find s.ue_teidin_db rnti = some arr → ForwardsBack s (arr lcid) →
      (arr lcid).length ≤ fuel →
      ∃ s', rem_loop nb fuel s rnti lcid = .ok s' () ∧
        s'.log = s.log ++ (arr lcid).reverse.flatMap (removal_marker s) ∧
        (∀ k, Map.find s'.tunnels k = if k ∈ arr lcid then none else Map.find s.tunnels k) ∧
        (∀ r, Map.find s'.ue_teidin_db r =
          if r = rnti then some (upd arr lcid []) else Map.find s.ue_teidin_db r) ∧
        s'.next_teid_in = s.next_teid_in ∧ s'.tx_seq = s.tx_seq := by
  intro fuel
  induction fuel with
  | zero =>
    intro s arr _ hd _ hlen
    have hnil : arr lcid = [] := List.length_eq_zero.mp (by omega)
    refine ⟨s, rem_loop_nil hd (by rw [hnil]; rfl), by rw [hnil]; simp, ?_, ?_, rfl, rfl⟩
    · intro k; rw [hnil]; simp
    · intro r
      by_cases hr : r = rnti
      · rw [if_pos hr, hr, hd, ← hnil, upd_self]
      · rw [if_neg hr]
  | succ n ih =>
    intro s arr hc hd hfb hlen
    cases hg : (arr lcid).getLast? with
    | none =>
      have hnil : arr lcid = [] := List.getLast?_eq_none_iff.mp hg
      refine ⟨s, rem_loop_nil hd hg, by rw [hnil]; simp, ?_, ?_, rfl, rfl⟩
      · intro k; rw [hnil]; simp
      · intro r
        by_cases hr : r = rnti
        · rw [if_pos hr, hr, hd, ← hnil, upd_self]
        · rw [if_neg hr]
    | some b =>
      rw [rem_loop_succ hd hg]
      have hsplit : (arr lcid).dropLast ++ [b] = arr lcid :=
        List.dropLast_append_getLast? b hg
      have hmem : b ∈ arr lcid := List.mem_of_getLast?_eq_some hg
      have hreg := hc.2 rnti arr lcid hd hl b hmem
      obtain ⟨recb, hfbk⟩ := Option.isSome_iff_exists.mp hreg
      obtain ⟨hr1, hr2⟩ := (hc.1 b recb hfbk).2.2 rnti arr lcid hd hl hmem
      have hd' : Map.find s.ue_teidin_db recb.rnti = some arr := by rw [← hr1]; exact hd
      have hnd : (arr lcid).Nodup := by
        have := (bearer_list_nodup hc hfbk hd').1
        rw [← hr2] at this
        exact this
      have hbi : b ∉ (arr lcid).dropLast := by
        rw [← hsplit] at hnd
        intro hin
        have := (List.nodup_append.mp hnd).2.2
        exact this hin (List.mem_singleton.mpr rfl)
      have hfilter : (arr lcid).filter (fun x => decide (x ≠ b)) = (arr lcid).dropLast := by
        nth_rewrite 1 [← hsplit]
        rw [List.filter_append]
        have e1 : [b].filter (fun x => decide (x ≠ b)) = [] := by simp
        have e2 : (arr lcid).dropLast.filter (fun x => decide (x ≠ b)) = (arr lcid).dropLast := by
          rw [List.filter_eq_self]
          intro a ha
          have : a ≠ b := fun e => hbi (e ▸ ha)
          simpa using this
        rw [e1, e2, List.append_nil]
      have hfb1 : ∀ pre t post F, (arr lcid).dropLast = pre ++ t :: post →
          forward_to s t = some F → registered s F = true ∧ F ∉ post ∧ F ≠ b := by
        intro pre t post F hsp hF
        obtain ⟨h1, h2⟩ := hfb pre t (post ++ [b]) F (by rw [← hsplit, hsp]; simp) hF
        refine ⟨h1, fun hin => h2 (List.mem_append_left _ hin), fun e => h2 ?_⟩
        rw [e]
        exact List.mem_append_right _ (List.mem_singleton.mpr rfl)
      have hfwb : recb.fwd_teid_in_present = true →
          (Map.find s.tunnels recb.fwd_teid_in).isSome = true := by
        intro hp
        have hF : forward_to s b = some recb.fwd_teid_in := by
          unfold forward_to; rw [hfbk]; simp [hp]
        exact (hfb (arr lcid).dropLast b [] _ hsplit.symm hF).1
      obtain ⟨s1, h1, hlog1, htun1, hdb1, hnx1, htx1⟩ :=
        rem_tunnel_spec nb hfbk hfwb hd' (by rw [← hr2]; exact hl)
      have hst : (rem_tunnel nb s b).state? = some s1 := by rw [h1]; rfl
      have hc1 := Consistent_rem_tunnel hc hst
      rw [← hr1, ← hr2, hfilter] at hdb1
      have hd1 : Map.find s1.ue_teidin_db rnti = some (upd arr lcid (arr lcid).dropLast) := by
        rw [hdb1, Map.find_set, if_pos rfl]
      have hsame : ∀ k, k ≠ b → Map.find s1.tunnels k = Map.find s.tunnels k := by
        intro k hk
        rw [htun1, if_neg hk]
      have hfb' : ForwardsBack s1 ((upd arr lcid (arr lcid).dropLast) lcid) := by
        rw [upd_same]
        intro pre t post F hsp hF
        have htin : t ∈ (arr lcid).dropLast := by rw [hsp]; simp
        have htb : t ≠ b := fun e => hbi (e ▸ htin)
        rw [forward_to_congr t (hsame t htb)] at hF
        obtain ⟨a1, a2, a3⟩ := hfb1 pre t post F hsp hF
        refine ⟨?_, a2⟩
        unfold registered at a1 ⊢
        rw [hsame F a3]
        exact a1
      have hlen1 : ((upd arr lcid (arr lcid).dropLast) lcid).length ≤ n := by
        rw [upd_same, List.length_dropLast]
        omega
      obtain ⟨s', hrun, hlog, htun, hdb, hnx, htx⟩ := ih s1 _ hc1 hd1 hfb' hlen1
      rw [upd_same] at hlog htun
      rw [upd_upd] at hdb
      rw [h1]
      simp only [Res.bind_ok]
      refine ⟨s', hrun, ?_, ?_, ?_, hnx.trans hnx1, htx.trans htx1⟩
      · rw [hlog, hlog1]
        have hm : (arr lcid).dropLast.reverse.flatMap (removal_marker s1) =
            (arr lcid).dropLast.reverse.flatMap (removal_marker s) := by
          apply List.flatMap_congr
          intro t ht
          have htin : t ∈ (arr lcid).dropLast := List.mem_reverse.mp ht
          have htb : t ≠ b := fun e => hbi (e ▸ htin)
          unfold removal_marker
          rw [forward_to_congr t (hsame t htb)]
          cases hF : forward_to s t with
          | none => rfl
          | some F =>
            obtain ⟨pre, post, hsp⟩ := List.append_of_mem htin
            obtain ⟨_, _, a3⟩ := hfb1 pre t post F hsp hF
            dsimp only
            rw [hsame F a3]
        have hrev : (arr lcid).reverse = b :: (arr lcid).dropLast.reverse := by
          rw [← List.reverse_concat, hsplit]
        rw [hm, hrev, List.flatMap_cons, List.append_assoc]
      · intro k
        rw [htun k]
        by_cases hk : k ∈ (arr lcid).dropLast
        · rw [if_pos hk, if_pos (List.mem_of_mem_dropLast hk)]
        · rw [if_neg hk, htun1]
          by_cases hkb : k = b
          · rw [if_pos hkb, if_pos (hkb ▸ hmem)]
          · rw [if_neg hkb]
            have : k ∉ arr lcid := by
              rw [← hsplit]
              intro hin
              rcases List.mem_append.mp hin with h | h
              · exact hk h
              · exact hkb (List.mem_singleton.mp h)
            rw [if_neg this]
      · intro r
        rw [hdb r]
        by_cases hr : r = rnti
        · rw [if_pos hr, if_pos hr]
        · rw [if_neg hr, if_neg hr, hdb1, Map.find_set, if_neg hr]

/-- What `rem_bearer` does in a consistent state where no tunnel of the list
of `(rnti, lcid)` forwards to a later tunnel of that list and every forwarding
target is registered: the call returns; the End Markers of the forwarding
tunnels are emitted from the back of the list to its front; exactly the listed
records are erased; the list is empty afterwards and the other lists are as
before; the user entry is dropped exactly when the other lists of the user
are all empty. -/
theorem rem_bearer_spec {nb : Nat} {s : gtpu} {rnti lcid : Nat} (hc : Consistent nb s)
    (hl : lcid < nb) (hfb : ForwardsBack s (bearer_list s rnti lcid)) :
    ∃ s', rem_bearer nb s rnti lcid = .ok s' () ∧
      s'.log = s.log ++ (bearer_list s rnti lcid).reverse.flatMap (removal_marker s) ∧
      (∀ k, Map.find s'.tunnels k =
        if k ∈ bearer_list s rnti lcid then none else Map.find s.tunnels k) ∧
      bearer_list s' rnti lcid = [] ∧
      (∀ r l, l < nb → ¬ (r = rnti ∧ l = lcid) → bearer_list s' r l = bearer_list s r l) ∧
      user_exists s' rnti =
        (user_exists s rnti &&
          !((List.range nb).all fun l => decide (l = lcid) || (bearer_list s rnti l).isEmpty)) ∧
      (∀ r, r ≠ rnti → Map.find s'.ue_teidin_db r = Map.find s.ue_teidin_db r) ∧
      s'.next_teid_in = s.next_teid_in ∧ s'.tx_seq = s.tx_seq := by
  cases hd : Map.find s.ue_teidin_db rnti with
  | none =>
    have hbl : ∀ l, bearer_list s rnti l = [] := by
      intro l; unfold bearer_list; rw [hd]
    refine ⟨s, ?_, ?_, ?_, hbl lcid, fun _ _ _ _ => rfl, ?_, fun _ _ => rfl, rfl, rfl⟩
    · unfold rem_bearer; rw [hd]
    · rw [hbl]; simp
    · intro k; rw [hbl]; simp
    · unfold user_exists; rw [hd]; rfl
  | some arr =>
    have hbl : ∀ l, bearer_list s rnti l = arr l := fun l => bearer_list_eq hd
    rw [hbl lcid] at hfb
    obtain ⟨s1, hrun, hlog, htun, hdb, hnx, htx⟩ :=
      rem_loop_spec rnti lcid hl (bearer_len s rnti lcid) s arr hc hd hfb
        (by unfold bearer_len; rw [hbl])
    have hd1 : Map.find s1.ue_teidin_db rnti = some (upd arr lcid []) := by
      rw [hdb, if_pos rfl]
    have hfun : (fun l => ((upd arr lcid []) l).isEmpty) =
        (fun l => decide (l = lcid) || (bearer_list s rnti l).isEmpty) := by
      funext l
      rw [hbl]
      unfold upd
      by_cases h : l = lcid
      · simp [h]
      · simp [h]
    have hue : user_exists s rnti = true := by unfold user_exists; rw [hd]; rfl
    have hstart : rem_bearer nb s rnti lcid =
        if (List.range nb).all (fun l => ((upd arr lcid []) l).isEmpty) = true then
          .ok { s1 with ue_teidin_db := Map.erase s1.ue_teidin_db rnti } ()
        else .ok s1 () := by
      unfold rem_bearer
      rw [hd]
      dsimp only
      rw [if_pos hl, hrun]
      simp only [Res.bind_ok, hd1]
    rw [hstart, hbl lcid, hue, Bool.true_and, ← hfun]
    by_cases hall : (List.range nb).all (fun l => ((upd arr lcid []) l).isEmpty) = true
    · rw [if_pos hall, hall]
      have hnone : Map.find (Map.erase s1.ue_teidin_db rnti) rnti = none := by
        rw [Map.find_erase, if_pos rfl]
      refine ⟨_, rfl, hlog, htun, ?_, ?_, ?_, ?_, hnx, htx⟩
      · unfold bearer_list
        dsimp only
        rw [hnone]
      · intro r l hlt hne
        unfold bearer_list
        dsimp only
        by_cases hr : r = rnti
        · subst hr
          have hl2 : l ≠ lcid := fun e => hne ⟨rfl, e⟩
          rw [hnone, hd]
          dsimp only
          have := List.all_eq_true.mp hall l (List.mem_range.mpr hlt)
          rw [upd_other _ _ _ _ hl2] at this
          exact (List.isEmpty_iff.mp this).symm
        · rw [Map.find_erase, if_neg hr, hdb, if_neg hr]
      · unfold user_exists
        dsimp only
        rw [hnone]
        rfl
      · intro r hr
        dsimp only
        rw [Map.find_erase, if_neg hr, hdb, if_neg hr]
    · rw [if_neg hall]
      have hall2 : (List.range nb).all (fun l => ((upd arr lcid []) l).isEmpty) = false := by
        cases h : (List.range nb).all (fun l => ((upd arr lcid []) l).isEmpty) with
        | false => rfl
        | true => exact absurd h hall
      rw [hall2]
      refine ⟨s1, rfl, hlog, htun, ?_, ?_, ?_, ?_, hnx, htx⟩
      · rw [bearer_list_eq hd1, upd_same]
      · intro r l _ hne
        unfold bearer_list
        by_cases hr : r = rnti
        · subst hr
          have hl2 : l ≠ lcid := fun e => hne ⟨rfl, e⟩
          rw [hd1, hd]
          dsimp only
          exact upd_other _ _ _ _ hl2
        · rw [hdb, if_neg hr]
      · unfold user_exists
        rw [hd1]
        rfl
      · intro r hr
        rw [hdb, if_neg hr]

/-! ## C21: removal of a bearer -/

/-- C21 fails in a consistent state that two allocations produce.  After
`add_bearer(0x46, 3, 10, 20)` (TEID 1) and
`add_bearer(0x46, 3, 11, 21, forward_from_teidin = 1)` (TEID 2) the state is
consistent, the list of `(0x46, 3)` is `[1, 2]` and tunnel 1 forwards to
tunnel 2.  `rem_bearer(0x46, 3)` first removes the back of the list, tunnel 2,
which emits nothing; the list is `[1]` and tunnel 1 still forwards to 2.  The
second iteration, `rem_tunnel(1)`, calls `end_marker(2)`, which reads
`tunnels.find(2)->second` at `end()`: the behaviour of the call is undefined
and no End Marker was emitted.  When the forwarding target lies in another
bearer (`add_bearer(0x46, 4, .., forward_from_teidin = 1)`), the call returns
and has emitted the End Marker to the target. -/
theorem C21_rem_bearer_forwarding_inside_list :
    (((add_bearer 11 env_quiet gtpu_initial 0x46 3 10 20 none).bind fun s0 _ =>
        add_bearer 11 env_quiet s0 0x46 3 11 21 (some (props_forward_from 1))).state?.map
      fun s => (Consistent_check 11 s, bearer_list s 0x46 3, forward_to s 1,
        (rem_bearer 11 s 0x46 3).is_ub)) = some (true, [1, 2], some 2, true) ∧
    (((add_bearer 11 env_quiet gtpu_initial 0x46 3 10 20 none).bind fun s0 _ =>
        (add_bearer 11 env_quiet s0 0x46 3 11 21 (some (props_forward_from 1))).bind fun s1 _ =>
          rem_tunnel 11 s1 2).state?.map
      fun s => (bearer_list s 0x46 3, registered s 2, forward_to s 1, s.log,
        (rem_tunnel 11 s 1).is_ub)) = some ([1], false, some 2, [], true) ∧
    (((add_bearer 11 env_quiet gtpu_initial 0x46 3 10 20 none).bind fun s0 _ =>
        (add_bearer 11 env_quiet s0 0x46 4 11 21 (some (props_forward_from 1))).bind fun s1 _ =>
          rem_bearer 11 s1 0x46 3).state?.map
      fun s => (s.log, registered s 1, bearer_list s 0x46 3, bearer_list s 0x46 4)) =
      some ([end_marker_datagram 11 21], false, [], [2]) := by
  refine ⟨by decide, by decide, by decide⟩

end srsenb
